import Mathlib

/-!
# Management console scripts (qpid/common/util.js and the controllers under qpid/management)

A shallow embedding of the helper functions and widget controllers of the
broker management console, together with the properties established for them.

## Part 1: `util.flattenStatistics`

`flattenStatistics` mutates its argument in place and copies references to
nested values, so objects are kept in a heap: a value is a primitive or the
address of a heap cell, and a cell is an object (its own enumerable properties
in enumeration order) or an array.
-/

namespace Qpid

/-- A JavaScript value: a primitive or the address of a heap cell. -/
inductive Val where
  | undef
  | null
  | bool (b : Bool)
  | num (n : Int)
  | str (s : String)
  | ref (a : Nat)
deriving DecidableEq, Repr

/-- A heap cell: a plain object with its own enumerable properties in
enumeration order, or an array with its elements. -/
inductive Cell where
  | obj (props : List (String × Val))
  | arr (elems : List Val)
deriving DecidableEq, Repr

/-- The heap: the cell at address `a` is the `a`-th entry. -/
abbrev Heap := List Cell

/-- The index keys `"0"`, `"1"`, ... of an array or string of length `n`. -/
def indexKeys (n : Nat) : List String :=
  (List.range n).map toString

/-- The own enumerable properties of a value, in the order `for ... in` visits
them: the properties of an object, the indexed elements of an array, the
indexed characters of a string, nothing for the other primitives. -/
def entries (h : Heap) : Val → List (String × Val)
  | .ref a =>
    match h[a]? with
    | some (.obj ps) => ps
    | some (.arr es) => (indexKeys es.length).zip es
    | none => []
  | .str s => (indexKeys s.length).zip (s.data.map fun c => Val.str (String.singleton c))
  | _ => []

/-- The snapshot of keys a `for (k in v)` loop iterates over. -/
def ownKeys (h : Heap) (v : Val) : List String :=
  (entries h v).map Prod.fst

/-- Whether `k` is an own enumerable property of `v`. -/
def ownsKey (h : Heap) (v : Val) (k : String) : Bool :=
  ((entries h v).lookup k).isSome

/-- The call `v.hasOwnProperty(k)` for an enumerable key `k`. The method is
looked up on `v` first: when `v` has an own property named `hasOwnProperty`
(its value is data, not a function) the call raises a TypeError and there is
no result. -/
def hasOwnProperty (h : Heap) (v : Val) (k : String) : Option Bool :=
  if ownsKey h v "hasOwnProperty" then none else some (ownsKey h v k)

/-- The read `v[k]`: `undefined` when `v` has no such property. -/
def getProp (h : Heap) (v : Val) (k : String) : Val :=
  ((entries h v).lookup k).getD Val.undef

/-- Assignment to a property list: an existing property keeps its place, a new
one is added at the end. -/
def upsert {β : Type} : List (String × β) → String → β → List (String × β)
  | [], k, x => [(k, x)]
  | (k', y) :: ps, k, x => if k' = k then (k', x) :: ps else (k', y) :: upsert ps k x

/-- The write `v[k] = x` on an object. Outside the modelled fragment (`none`)
are the writes to anything but an object cell, of which `flattenStatistics`
performs none, and the write to `__proto__`, which sets the prototype of an
object instead of a property. -/
def setProp (h : Heap) (v : Val) (k : String) (x : Val) : Option Heap :=
  if k = "__proto__" then none
  else
    match v with
    | .ref a =>
      match h[a]? with
      | some (.obj ps) => some (h.set a (.obj (upsert ps k x)))
      | _ => none
    | _ => none

/-- The test `v instanceof Array`, giving the elements when it holds. -/
def arrayElems (h : Heap) : Val → Option (List Val)
  | .ref a =>
    match h[a]? with
    | some (.arr es) => some es
    | _ => none
  | _ => none

/-- The inner loop of `flattenStatistics`:
`for (propName in stats) if (stats.hasOwnProperty(propName)) data[propName] = stats[propName]`. -/
def copyStatistics (data stats : Val) (h : Heap) : Option Heap :=
  (ownKeys h stats).foldlM
    (fun h propName =>
      match hasOwnProperty h stats propName with
      | none => none
      | some true => setProp h data propName (getProp h stats propName)
      | some false => some h) h

/-- The function `util.flattenStatistics(data)`. The recursion depth is bounded
by `fuel`; `none` means that there is no result: the fuel ran out, a call of
`hasOwnProperty` raised a TypeError, or a write was outside the fragment.

The array loop `for (i = 0; i < theList.length; i++)` runs over the elements
read at its start: the function writes object properties only, never
array cells. -/
def flattenStatistics : Nat → Heap → Val → Option Heap
  | 0, _, _ => none
  | fuel + 1, h, data =>
    (ownKeys h data).foldlM
      (fun h attrName =>
        match hasOwnProperty h data attrName with
        | none => none
        | some true =>
          if attrName = "statistics" then
            copyStatistics data (getProp h data "statistics") h
          else
            match arrayElems h (getProp h data attrName) with
            | some theList => theList.foldlM (fun h e => flattenStatistics fuel h e) h
            | none => some h
        | some false => some h) h

/-- Data as it arrives from the management API: a JSON tree. An object lists
its properties in enumeration order. -/
inductive Json where
  | null
  | bool (b : Bool)
  | num (n : Int)
  | str (s : String)
  | arr (xs : List Json)
  | obj (ps : List (String × Json))
deriving Repr

mutual
/-- Build a JSON tree in the heap, children before their parent; returns the
value standing for the tree and the extended heap. -/
def alloc : Json → Heap → Val × Heap
  | .null, h => (.null, h)
  | .bool b, h => (.bool b, h)
  | .num n, h => (.num n, h)
  | .str s, h => (.str s, h)
  | .arr xs, h =>
    let r := allocList xs h
    (.ref r.2.length, r.2 ++ [Cell.arr r.1])
  | .obj ps, h =>
    let r := allocProps ps h
    (.ref r.2.length, r.2 ++ [Cell.obj r.1])
/-- Build the elements of an array, in order. -/
def allocList : List Json → Heap → List Val × Heap
  | [], h => ([], h)
  | x :: xs, h =>
    let r := alloc x h
    let rs := allocList xs r.2
    (r.1 :: rs.1, rs.2)
/-- Build the property values of an object, in order. -/
def allocProps : List (String × Json) → Heap → List (String × Val) × Heap
  | [], h => ([], h)
  | (k, x) :: ps, h =>
    let r := alloc x h
    let rs := allocProps ps r.2
    ((k, r.1) :: rs.1, rs.2)
end

mutual
/-- The property names of every object of the tree are pairwise distinct. -/
def Json.distinctKeys : Json → Bool
  | .arr xs => distinctKeysList xs
  | .obj ps => (ps.map Prod.fst).Nodup && distinctKeysProps ps
  | _ => true
/-- All elements have distinct keys. -/
def distinctKeysList : List Json → Bool
  | [] => true
  | x :: xs => x.distinctKeys && distinctKeysList xs
/-- All property values have distinct keys. -/
def distinctKeysProps : List (String × Json) → Bool
  | [] => true
  | (_, x) :: ps => x.distinctKeys && distinctKeysProps ps
end

/-- A property name the code can handle as data: `hasOwnProperty` would shadow
the method the code calls, `__proto__` is no plain property. -/
def plainKey (k : String) : Bool :=
  k != "hasOwnProperty" && k != "__proto__"

mutual
/-- Every property name of every object of the tree is a `plainKey`. -/
def Json.plainKeys : Json → Bool
  | .arr xs => plainKeysList xs
  | .obj ps => (ps.map Prod.fst).all plainKey && plainKeysProps ps
  | _ => true
/-- All elements have plain keys. -/
def plainKeysList : List Json → Bool
  | [] => true
  | x :: xs => x.plainKeys && plainKeysList xs
/-- All property values have plain keys. -/
def plainKeysProps : List (String × Json) → Bool
  | [] => true
  | (_, x) :: ps => x.plainKeys && plainKeysProps ps
end

mutual
/-- The number of heap cells of a tree. -/
def Json.cells : Json → Nat
  | .arr xs => cellsList xs + 1
  | .obj ps => cellsProps ps + 1
  | _ => 0
/-- The cells of all elements. -/
def cellsList : List Json → Nat
  | [] => 0
  | x :: xs => x.cells + cellsList xs
/-- The cells of all property values. -/
def cellsProps : List (String × Json) → Nat
  | [] => 0
  | (_, x) :: ps => x.cells + cellsProps ps
end

/-- The statistics of `v` before the call are at the top level of `v` after
it: every own key `k` of `v.statistics` in the heap `h0` is an own property of
`v` in the heap `h1`, with `v[k]` equal to the `statistics[k]` of `h0`. -/
def statisticsAtTop (h0 h1 : Heap) (v : Val) : Bool :=
  (ownKeys h0 (getProp h0 v "statistics")).all fun k =>
    ownsKey h1 v k && getProp h1 v k == getProp h0 (getProp h0 v "statistics") k

/-- The claim of the specification to depth `n`: the statistics of `v` are at
its top level and, recursively, so are those of every element of every
array-valued own attribute of `v`; the attributes and their elements are read
from the heap `nav`. -/
def flattenedAsStated (nav h0 h1 : Heap) : Nat → Val → Bool
  | 0, v => statisticsAtTop h0 h1 v
  | n + 1, v =>
    statisticsAtTop h0 h1 v &&
    (entries nav v).all fun kx =>
      match arrayElems nav kx.2 with
      | some es => es.all (flattenedAsStated nav h0 h1 n)
      | none => true

/-- The property that holds, to depth `n`: as `flattenedAsStated` on the heap
before the call, for the array-valued own attributes of `v` other than
`statistics` whose name is not a key of `v.statistics`. -/
def flattened (h0 h1 : Heap) : Nat → Val → Bool
  | 0, v => statisticsAtTop h0 h1 v
  | n + 1, v =>
    statisticsAtTop h0 h1 v &&
    (entries h0 v).all fun kx =>
      if kx.1 = "statistics" || (ownKeys h0 (getProp h0 v "statistics")).contains kx.1 then true
      else
        match arrayElems h0 kx.2 with
        | some es => es.all (flattened h0 h1 n)
        | none => true

/-- A node whose statistics shadow two of its attributes, with an element
whose statistics are an array:
`{q: [], statistics: {q: [{statistics: {a: 1}}], p: 5}, p: [{statistics: {b: 2}}],
  r: [{statistics: [{statistics: {c: 3}}]}]}`. -/
def shadowedData : Json :=
  .obj [("q", .arr []),
        ("statistics", .obj [("q", .arr [.obj [("statistics", .obj [("a", .num 1)])]]),
                             ("p", .num 5)]),
        ("p", .arr [.obj [("statistics", .obj [("b", .num 2)])]]),
        ("r", .arr [.obj [("statistics", .arr [.obj [("statistics", .obj [("c", .num 3)])]])]])]

/-- The heap holding `shadowedData` alone. -/
def shadowedHeap : Heap := (alloc shadowedData []).2

/-- The address of `shadowedData` in `shadowedHeap`. -/
def shadowedRoot : Val := (alloc shadowedData []).1

/-- One step of the attribute loop of `flattenStatistics`, with the recursive
call as a parameter. -/
def attrStep (rec : Heap → Val → Option Heap) (data : Val) (h : Heap) (attrName : String) :
    Option Heap :=
  match hasOwnProperty h data attrName with
  | none => none
  | some true =>
    if attrName = "statistics" then
      copyStatistics data (getProp h data "statistics") h
    else
      match arrayElems h (getProp h data attrName) with
      | some theList => theList.foldlM (fun h e => rec h e) h
      | none => some h
  | some false => some h

/-- A property of a cell together with the addresses `lo .. hi - 1` that hold
the tree of its value. -/
structure Target where
  key : String
  val : Val
  lo : Nat
  hi : Nat

/-- The property a target stands for. -/
def Target.kv (t : Target) : String × Val := (t.key, t.val)

/-- The targets occupy adjacent address ranges from `lo` to `hi`, each
satisfying `P`. -/
def Chain (P : Nat → Nat → Val → Prop) : Nat → Nat → List Target → Prop
  | lo, hi, [] => hi = lo
  | lo, hi, t :: ts => t.lo = lo ∧ P t.lo t.hi t.val ∧ Chain P t.hi hi ts

/-- A value that is no heap address. -/
def IsPrim (v : Val) : Prop := ∀ a, v ≠ Val.ref a

/-- In the heap `h` the value `v` is the root of a tree of depth at most `n`
laid out bottom-up in the addresses `lo .. hi - 1`: the properties of a cell
have distinct plain names and their trees occupy adjacent ranges below the
cell. -/
def TreeAt (h : Heap) : Nat → Nat → Nat → Val → Prop
  | 0, lo, hi, v => hi = lo ∧ IsPrim v
  | n + 1, lo, hi, v =>
    (hi = lo ∧ IsPrim v) ∨
    ∃ a ts, v = Val.ref a ∧ hi = a + 1 ∧ entries h (Val.ref a) = ts.map Target.kv ∧
      (ts.map Target.key).Nodup ∧ (∀ k ∈ ts.map Target.key, plainKey k = true) ∧
      Chain (TreeAt h n) lo a ts

/-- The value of a list of decimal digits. -/
def digitsVal : List Char → Nat
  | [] => 0
  | c :: cs => (c.toNat - 48) * 10 ^ cs.length + digitsVal cs

/-- All assignments `data[k] = g k` for the keys `ks`, in order. -/
def upsertAll (g : String → Val) : List String → List (String × Val) → List (String × Val)
  | [], ps => ps
  | k :: ks, ps => upsertAll g ks (upsert ps k (g k))

/-- With fuel `m`, `flattenStatistics` succeeds on every tree of depth at most
`n`, changes no cell outside the range of the tree and establishes
`flattened` to every depth. -/
def FlattensAt (m n : Nat) : Prop :=
  ∀ (h : Heap) (lo hi : Nat) (v : Val), TreeAt h n lo hi v →
    ∃ h1, flattenStatistics m h v = some h1 ∧ h1.length = h.length ∧
      (∀ i, ¬(lo ≤ i ∧ i < hi) → h1[i]? = h[i]?) ∧ ∀ k, flattened h h1 k v = true

/-- The target the attribute loop meets under the name of `t` once the
statistics with the children `sts` were copied: the child of the statistics of
that name when there is one, `t` itself otherwise. -/
def retarget (sts : List Target) (t : Target) : Target :=
  match sts.find? (fun s => s.key == t.key) with
  | some s => ⟨t.key, s.val, s.lo, s.hi⟩
  | none => t

end Qpid

/-!
## Part 2: values of the widget scripts

The widget controllers copy their data (`lang.clone`) before changing it, so
their values are kept as trees. Numbers are integers.
-/

namespace Qpid

/-- A JavaScript value as a tree; an object lists its own enumerable
properties in enumeration order. -/
inductive Js where
  | undef
  | null
  | bool (b : Bool)
  | num (n : Int)
  | str (s : String)
  | arr (xs : List Js)
  | obj (ps : List (String × Js))
deriving Repr

/-- The truth value a condition gives to a value (`if (v)`, `!v`, `v ? a : b`). -/
def Js.truthy : Js → Bool
  | Js.undef => false
  | .null => false
  | .bool b => b
  | .num n => n != 0
  | .str s => s != ""
  | .arr _ => true
  | .obj _ => true

/-- The test `v != null`: neither `null` nor `undefined`. -/
def Js.notNull : Js → Bool
  | Js.undef => false
  | .null => false
  | _ => true

mutual
/-- The string a value becomes in a string concatenation (`"" + v`). -/
def Js.toStr : Js → String
  | Js.undef => "undefined"
  | .null => "null"
  | .bool b => if b then "true" else "false"
  | .num n => toString n
  | .str s => s
  | .arr xs => ",".intercalate (elemStrs xs)
  | .obj _ => "[object Object]"
/-- The strings of the elements of an array in its string: `null` and
`undefined` give the empty string. -/
def elemStrs : List Js → List String
  | [] => []
  | Js.undef :: xs => "" :: elemStrs xs
  | .null :: xs => "" :: elemStrs xs
  | x :: xs => x.toStr :: elemStrs xs
end

/-- The read `v.k`: a TypeError on `null` and `undefined`, the own property of
an object, `undefined` where there is none. -/
def Js.prop (v : Js) (k : String) : Except String Js :=
  match v with
  | Js.undef => .error "TypeError"
  | .null => .error "TypeError"
  | .obj ps => .ok ((ps.lookup k).getD Js.undef)
  | _ => .ok Js.undef

/-- The write `v.k = x`: a TypeError on `null` and `undefined`, an assignment
on an object; on a primitive the write is dropped (the scripts are not in
strict mode), on an array the named property is not represented. -/
def Js.setProp (v : Js) (k : String) (x : Js) : Except String Js :=
  match v with
  | Js.undef => .error "TypeError"
  | .null => .error "TypeError"
  | .obj ps => .ok (.obj (upsert ps k x))
  | w => .ok w

/-- The statement `delete v.k` on a value known not to be `null` or
`undefined`. -/
def Js.deleteProp (v : Js) (k : String) : Js :=
  match v with
  | .obj ps => .obj (ps.filter fun p => p.1 != k)
  | w => w

/-! ### `util.deleteGridSelections` -/

/-- A selected grid row: the two properties the function reads. -/
structure Row where
  name : Js
  id : Js
deriving Repr

/-- What `deleteGridSelections` does to its surroundings, in order. -/
inductive Effect where
  | confirm (message : String)
  | del (url : String)
  | deselectAll
  | update
  | alert (message : String)
deriving DecidableEq, Repr

/-- The loop building the quoted, comma-separated names of the confirmation. -/
def quotedNames (data : List Row) : String :=
  data.foldl
    (fun names r =>
      let names := if names != "" then names ++ ", " else names
      names ++ ("\"" ++ r.name.toStr ++ "\"")) ""

/-- The confirmation message for the selected rows. -/
def confirmationMessage (confirmationMessageStart : String) (data : List Row) : String :=
  if data.length = 1 then
    confirmationMessageStart ++ " '" ++ ((data.head?.map fun r => r.name.toStr).getD "undefined")
      ++ "'?"
  else
    confirmationMessageStart ++ "s " ++ quotedNames data ++ "?"

/-- The loop building the query string; `none` is the `undefined` the variable
starts with. -/
def queryParam (data : List Row) : Option String :=
  data.foldl
    (fun q r =>
      let q := match q with
        | some s => if s != "" then s ++ "&" else "?"
        | none => "?"
      some (q ++ "id=" ++ r.id.toStr)) none

/-- The function `util.deleteGridSelections(updater, grid, url,
confirmationMessageStart)`, given the rows `grid.selection.getSelected()`
returns, the answer of the user to `confirm` and the outcome of the
synchronous `xhr.del` (`none` on success, the text of the error on failure).
The result is what the call does, in order. -/
def deleteGridSelections (userConfirms : String → Bool) (xhrDel : String → Option String)
    (data : List Row) (url confirmationMessageStart : String) : List Effect :=
  if data.length != 0 then
    let confirmationMessage := confirmationMessage confirmationMessageStart data
    if userConfirms confirmationMessage then
      let query := url ++ (queryParam data).getD "undefined"
      [Effect.confirm confirmationMessage, Effect.del query] ++
        (match xhrDel query with
          | none => [Effect.deselectAll, Effect.update]
          | some failureReason => [Effect.alert ("Error:" ++ failureReason)])
    else [Effect.confirm confirmationMessage]
  else []

end Qpid

/-!
## Part 3: `QueryWidget`

The widget is a record of the attributes of its template widgets and of its
inner fields; a method is a state transformer that may raise a TypeError. The
toolkit widgets are attribute stores: `set` stores an attribute and `get`
reads it back; the handlers registered with `on` run in later turns and are
transitions of their own.
-/

namespace Qpid

/-- The read `v.k` on a value known to be truthy: the own property of an
object, `undefined` otherwise. -/
def Js.get (v : Js) (k : String) : Js :=
  match v with
  | .obj ps => (ps.lookup k).getD Js.undef
  | _ => Js.undef

/-- The call `v.hasOwnProperty(k)` on a truthy value: a TypeError when an own
property of `v` shadows the method, whose value is data and no function. -/
def Js.hasOwn (v : Js) (k : String) : Except String Bool :=
  match v with
  | .obj ps => if (ps.lookup "hasOwnProperty").isSome then .error "TypeError"
      else .ok (ps.lookup k).isSome
  | _ => .ok false

/-- The function `lang.mixin(dest, source)` on an object `dest`: the
properties of an object `source` are assigned one by one; any other source
contributes nothing. -/
def mixin (dest : List (String × Js)) (source : Js) : List (String × Js) :=
  match source with
  | .obj ps => ps.foldl (fun d p => upsert d p.1 p.2) dest
  | _ => dest

/-- A text box of the template. -/
structure TextBox where
  value : Js
  disabled : Bool
deriving Repr

/-- A button of the template. -/
structure Button where
  disabled : Bool
  title : String
  label : String
  iconClass : String
deriving Repr

/-- A column chooser (`DropDownSelect`): the items and the selection it was
given with `set("data", ...)` and the items `get("selectedItems")` returns. -/
structure Chooser where
  items : List Js
  selected : List Js
  selectedItems : List Js
  disabled : Bool
deriving Repr

/-- The page the grid opens on: the first one, or the one computed as
`offset / rowsPerPage + 1`. -/
inductive Page where
  | first
  | fromOffset (offset rowsPerPage : Js)
deriving Repr

/-- A column definition built by `_getColumns`. -/
structure GridColumn where
  label : Js
  field : String
  sortable : Bool
  reorderable : Bool
  unhidable : Bool
  render : String
deriving Repr

/-- The attributes of the result grid (`QueryGrid`) the widget sets and reads.
`restoreCurrentPage` holds the page whose comparison with 1 is the flag, or
`none` once the flag is `false`. -/
structure Grid where
  category : Js
  rowsPerPage : Js
  currentPage : Page
  restoreCurrentPage : Option Page
  select : Js
  whereExpr : Js
  orderBy : Js
  sort : Js
  useCachedResults : Bool
  columns : List GridColumn
  hiderToggleDisplay : String
  hiderToggleTitle : String
  refreshes : Nat
  resizes : Nat
deriving Repr

/-- The state of a `QueryWidget`. -/
structure Widget where
  preference : Js
  parentObject : Js
  advancedSearchDisplay : String
  advancedSelect : TextBox
  advancedWhere : TextBox
  advancedOrderBy : TextBox
  advancedSearchButton : Button
  standardSearchDisplay : String
  standardSelectChooser : Chooser
  standardWhereChooser : Chooser
  standardSearchButton : Button
  whereBuilderDisplay : String
  whereCriteria : List Js
  modeButton : Button
  deleteButton : Button
  resultsGrid : Grid
  standardMode : Bool
  categoryName : Js
  selectClause : Js
  lastStandardModeSelect : Js
  lastHeaders : List Js
  columns : Option (List (String × Js))
  innerHTML : Option String
  cloneDialogOpen : Bool
  emitted : List (String × Js)
deriving Repr

/-- The metadata of an attribute of a type of a category. -/
structure AttributeMeta where
  type : Js
  validValues : Js
  description : Js
deriving Repr

/-- The metadata of a type of a category: its attributes and statistics, in
enumeration order. -/
structure TypeMeta where
  attributes : List (String × AttributeMeta)
  statistics : List (String × AttributeMeta)
deriving Repr

/-- What the widget is given from outside the scripts at hand: the rule by
which a chooser turns the items and the selection it was given into its
selected items, the metadata of the categories
(`management.metadata.metadata[category]`), a freshly built `QueryGrid`, the
query the grid reports (`getQuery()`) and the HTML encoder. -/
structure Env where
  resolve : List Js → List Js → List Js
  metadata : String → Option (List (String × TypeMeta))
  newGrid : Grid
  gridQuery : Grid → Js
  encode : String → String

/-- A method of the widget: from a state to a result or a TypeError, and the
state it leaves. -/
def Act (α : Type) : Type := Widget → Except String α × Widget

/-- A method returning `a` without touching the state. -/
def Act.pure {α : Type} (a : α) : Act α := fun w => (.ok a, w)

/-- One method after another; an error ends the sequence and keeps the state
reached. -/
def Act.bind {α β : Type} (m : Act α) (f : α → Act β) : Act β := fun w =>
  match m w with
  | (.ok a, w1) => f a w1
  | (.error e, w1) => (.error e, w1)

instance : Monad Act where
  pure := Act.pure
  bind := Act.bind

/-- A state change. -/
def Act.modify (f : Widget → Widget) : Act Unit := fun w => (.ok (), f w)

/-- The current state. -/
def Act.read : Act Widget := fun w => (.ok w, w)

/-- A computation that may raise, run as a method. -/
def Act.lift {α : Type} (x : Except String α) : Act α := fun w => (x, w)

/-- The call `this.emit(name, payload)`. -/
def emit (name : String) (payload : Js) : Act Unit :=
  Act.modify fun w => { w with emitted := w.emitted ++ [(name, payload)] }

/-- The call `chooser.set("data", ...)` with the given selection and, when
given, items. -/
def Chooser.setData (env : Env) (c : Chooser) (items : Option (List Js)) (selected : List Js) :
    Chooser :=
  { c with
    items := items.getD c.items
    selected := selected
    selectedItems := env.resolve (items.getD c.items) selected }

/-- The method `getDefaultColumns(category)`. -/
def getDefaultColumns (_category : Js) : List Js := [.str "id", .str "name"]

/-- The method `_setSelectClause(select)`. -/
def setSelectClause (select : Js) : Act Unit :=
  Act.modify fun w =>
    { w with
      selectClause := select
      resultsGrid := { w.resultsGrid with
        select := if select.truthy then .str (select.toStr ++ ",id") else .str "" } }

/-- The method `_toggleSearchButton(select)`. -/
def toggleSearchButton (select : Js) : Act Unit := do
  let criteriaNotSet := !select.truthy
  Act.modify fun w => { w with
    advancedSearchButton := { w.advancedSearchButton with disabled := criteriaNotSet } }
  Act.modify fun w => { w with
    advancedSearchButton := { w.advancedSearchButton with
      title := if criteriaNotSet then "Please, choose fields to display in order to enable search"
        else "Search" } }
  Act.modify fun w => { w with
    standardSearchButton := { w.standardSearchButton with disabled := criteriaNotSet } }
  Act.modify fun w => { w with
    standardSearchButton := { w.standardSearchButton with
      title := if criteriaNotSet then "Please, choose fields to display in order to enable search"
        else "Search" } }

/-- One round of the loop of `_buildSelectExpression`. -/
def selectStep (acc : String × Nat) (item : Js) : Except String (String × Nat) := do
  let own ← if item.truthy then item.hasOwn "attributeName" else pure false
  let selection := if own then item.get "attributeName" else item
  pure (acc.1 ++ (if acc.2 > 0 then "," else "") ++ selection.toStr, acc.2 + 1)

/-- The method `_buildSelectExpression(value)`. -/
def buildSelectExpression (value : Js) : Except String String :=
  match value with
  | .arr xs => (xs.foldlM selectStep ("", 0)).map Prod.fst
  | _ => pure ""

/-- The method `search()`. -/
def search : Act Unit :=
  Act.modify fun w => { w with
    resultsGrid := { w.resultsGrid with refreshes := w.resultsGrid.refreshes + 1 } }

/-- The comparison `v == name` with the name of a type, which is no numeral. -/
def Js.looseEq (v : Js) (name : String) : Bool :=
  match v with
  | .str s => s == name
  | .arr xs => (Js.arr xs).toStr == name
  | _ => false

/-- The renderer `_getColumns` gives a column of the given metadata. -/
def renderOf (columnData : Js) : String :=
  if columnData.truthy then
    if (columnData.get "type").looseEq "Date" then "date"
    else if (columnData.get "type").looseEq "Map" then "map"
    else if (columnData.get "type").looseEq "List" || (columnData.get "type").looseEq "Set"
    then "list"
    else "plain"
  else "plain"

/-- The method `_getColumns(headers)`. -/
def getColumns (w : Widget) (headers : List Js) : List GridColumn :=
  headers.enum.map fun ih =>
    { label := ih.2
      field := toString (ih.1 + 1)
      sortable := true
      reorderable := w.standardMode
      unhidable := !w.standardMode
      render := match w.columns with
        | some columns => renderOf ((columns.lookup ih.2.toStr).getD Js.undef)
        | none => "plain" }

/-- The method `_getQuery(queryObject)`. -/
def getQuery (env : Env) (queryObject : Js) : Act Js := do
  let w ← Act.read
  let query := [("where", Js.str ""), ("orderBy", Js.str "")]
  let query := mixin query (if queryObject.truthy then queryObject else env.gridQuery w.resultsGrid)
  let query := upsert query "select" w.selectClause
  let query := upsert query "category" w.categoryName
  pure (.obj query)

/-- The query `_getQuery(queryObject)` returns in the state `w`. -/
def queryOf (env : Env) (queryObject : Js) (w : Widget) : Js :=
  .obj (upsert (upsert
    (mixin [("where", Js.str ""), ("orderBy", Js.str "")]
      (if queryObject.truthy then queryObject else env.gridQuery w.resultsGrid))
    "select" w.selectClause) "category" w.categoryName)

/-- The method `_queryChanged(query)`. -/
def queryChanged (env : Env) (query : Js) : Act Unit := do
  let queryParameters ← getQuery env query
  let w ← Act.read
  let pref := w.preference
  let pref ← Act.lift (pref.setProp "value" queryParameters)
  emit "change" (.obj [("preference", pref)])

/-- The method `_modeChanged()`. -/
def modeChanged (env : Env) : Act Unit := do
  Act.modify fun w => { w with standardMode := !w.standardMode }
  let w ← Act.read
  if !w.standardMode then
    Act.modify fun w => { w with modeButton := { w.modeButton with label := "Standard View" } }
    Act.modify fun w => { w with
      modeButton := { w.modeButton with title := "Switch to 'Standard View' search" } }
    Act.modify fun w => { w with
      modeButton := { w.modeButton with iconClass := "dijitIconApplication" } }
    Act.modify fun w => { w with advancedSelect := { w.advancedSelect with disabled := false } }
    Act.modify fun w => { w with advancedWhere := { w.advancedWhere with disabled := false } }
    Act.modify fun w => { w with standardSearchDisplay := "none" }
    Act.modify fun w => { w with whereBuilderDisplay := "none" }
    Act.modify fun w => { w with advancedSearchDisplay := "" }
    let w ← Act.read
    let select ← Act.lift (buildSelectExpression (.arr w.standardSelectChooser.selectedItems))
    Act.modify fun w => { w with advancedSelect := { w.advancedSelect with value := .str select } }
    Act.modify fun w => { w with
      advancedWhere := { w.advancedWhere with value := w.resultsGrid.whereExpr } }
    Act.modify fun w => { w with
      advancedOrderBy := { w.advancedOrderBy with value := w.resultsGrid.orderBy } }
    Act.modify fun w => { w with
      resultsGrid := { w.resultsGrid with hiderToggleDisplay := "none" } }
    let w ← Act.read
    if w.lastHeaders.length != 0 then
      Act.modify fun w => { w with resultsGrid := { w.resultsGrid with useCachedResults := true } }
      Act.modify fun w => { w with
        resultsGrid := { w.resultsGrid with columns := getColumns w w.lastHeaders } }
      Act.modify fun w => { w with
        resultsGrid := { w.resultsGrid with resizes := w.resultsGrid.resizes + 1 } }
  else
    Act.modify fun w => { w with modeButton := { w.modeButton with label := "Advanced View" } }
    Act.modify fun w => { w with
      modeButton := { w.modeButton with
        title := "Switch to 'Advanced View' search using SQL-like expressions" } }
    Act.modify fun w => { w with
      modeButton := { w.modeButton with iconClass := "advancedViewIcon ui-icon" } }
    Act.modify fun w => { w with advancedSelect := { w.advancedSelect with disabled := true } }
    Act.modify fun w => { w with advancedWhere := { w.advancedWhere with disabled := true } }
    Act.modify fun w => { w with standardSearchDisplay := "" }
    Act.modify fun w => { w with whereBuilderDisplay := "" }
    Act.modify fun w => { w with advancedSearchDisplay := "none" }
    let w ← Act.read
    let category := w.categoryName
    let selectedItems := getDefaultColumns category
    Act.modify fun w => { w with
      standardSelectChooser := w.standardSelectChooser.setData env none selectedItems }
    Act.modify fun w => { w with
      standardWhereChooser := w.standardWhereChooser.setData env none [] }
    Act.modify fun w => { w with whereCriteria := [] }
    Act.modify fun w => { w with
      lastStandardModeSelect := .arr w.standardSelectChooser.selectedItems }
    Act.modify fun w => { w with lastHeaders := [] }
    let w ← Act.read
    let select ← Act.lift (buildSelectExpression w.lastStandardModeSelect)
    setSelectClause (.str select)
    Act.modify fun w => { w with resultsGrid := { w.resultsGrid with whereExpr := .str "" } }
    Act.modify fun w => { w with resultsGrid := { w.resultsGrid with orderBy := .str "" } }
    Act.modify fun w => { w with resultsGrid := { w.resultsGrid with sort := .arr [] } }
    toggleSearchButton (.str select)
    Act.modify fun w => { w with resultsGrid := { w.resultsGrid with hiderToggleDisplay := "" } }
    search
    queryChanged env Js.undef

/-- The names the operator `in` finds in every object: the properties of
`Object.prototype`. -/
def objectPrototypeKeys : List String :=
  ["constructor", "__defineGetter__", "__defineSetter__", "hasOwnProperty",
   "__lookupGetter__", "__lookupSetter__", "isPrototypeOf", "propertyIsEnumerable",
   "toString", "valueOf", "__proto__", "toLocaleString"]

/-- The test `name in columnsObject`. -/
def inColumns (columnsObject : List (String × Js)) (name : String) : Bool :=
  (columnsObject.lookup name).isSome || objectPrototypeKeys.contains name

/-- The variables of `_combineTypeAttributesAndStatistics`; `typeAttribute`
tells whether the variable of that name refers to the column `type`. -/
structure Columns where
  columnsArray : List Js
  columnsObject : List (String × Js)
  validTypes : List Js
  typeAttribute : Bool
deriving Repr

/-- One round of the loop over the attributes of a type. -/
def attributeStep (c : Columns) (na : String × AttributeMeta) : Columns :=
  if !inColumns c.columnsObject na.1 then
    let attributeData := Js.obj [("id", .str na.1), ("attributeName", .str na.1),
      ("type", na.2.type), ("validValues", na.2.validValues),
      ("description", na.2.description), ("columnType", .str "attribute")]
    { c with
      typeAttribute := if na.1 = "type" then true else c.typeAttribute
      columnsObject := upsert c.columnsObject na.1 attributeData
      columnsArray := c.columnsArray ++ [attributeData] }
  else c

/-- One round of the loop over the statistics of a type. -/
def statisticStep (c : Columns) (ns : String × AttributeMeta) : Columns :=
  if !inColumns c.columnsObject ns.1 then
    let statisticData := Js.obj [("id", .str ns.1), ("attributeName", .str ns.1),
      ("type", ns.2.type), ("description", ns.2.description),
      ("columnType", .str "statistics")]
    { c with
      columnsArray := c.columnsArray ++ [statisticData]
      columnsObject := upsert c.columnsObject ns.1 statisticData }
  else c

/-- One round of the loop over the types of a category. -/
def typeStep (c : Columns) (it : String × TypeMeta) : Columns :=
  let c := { c with validTypes := c.validTypes ++ [Js.str it.1] }
  let c := it.2.attributes.foldl attributeStep c
  it.2.statistics.foldl statisticStep c

/-- The assignment `typeAttribute.validValues = validTypes` seen from a
column: the column `type` is the object `typeAttribute` refers to. -/
def giveValidTypes (validTypes : List Js) (column : Js) : Js :=
  match column.get "id" with
  | .str "type" =>
    match column with
    | .obj ps => .obj (upsert ps "validValues" (.arr validTypes))
    | w => w
  | _ => column

/-- The method `_combineTypeAttributesAndStatistics(metadata)`: the pair
`asArray`, `asObject`. -/
def combineTypeAttributesAndStatistics (metadata : List (String × TypeMeta)) :
    List Js × List (String × Js) :=
  let c := metadata.foldl typeStep ⟨[], [], [], false⟩
  if c.typeAttribute &&
      !(((c.columnsObject.lookup "type").getD Js.undef).get "validValues").truthy then
    (c.columnsArray.map (giveValidTypes c.validTypes),
      c.columnsObject.map fun p => (p.1, giveValidTypes c.validTypes p.2))
  else (c.columnsArray, c.columnsObject)

/-- The expression `value.charAt(0).toUpperCase() + value.substring(1)` on a
string (letters of the ASCII range). -/
def capitalizeFirst (s : String) : String :=
  match s.data with
  | [] => ""
  | c :: cs => String.mk (c.toUpper :: cs)

/-- The method `_getCategoryMetadata(value)`: `none` is `undefined`. -/
def getCategoryMetadata (env : Env) (value : Js) :
    Except String (Option (List (String × TypeMeta))) :=
  if value.truthy then
    match value with
    | .str s => .ok (env.metadata (capitalizeFirst s))
    | _ => .error "TypeError"
  else .ok none

/-- The method `_initCategory(value, newPreference)`. -/
def initCategory (env : Env) (value : Js) (newPreference : Bool) : Act Unit := do
  let metadata ← Act.lift (getCategoryMetadata env value)
  match metadata with
  | none =>
    Act.modify fun w => { w with
      innerHTML := some ("<b>Invalid category " ++ env.encode value.toStr ++ "</b>") }
  | some metadata =>
    let data := combineTypeAttributesAndStatistics metadata
    let columns := data.2
    let items := data.1
    let selectedItems := if newPreference then getDefaultColumns value else []
    Act.modify fun w => { w with
      standardSelectChooser := w.standardSelectChooser.setData env (some items) selectedItems }
    Act.modify fun w => { w with
      standardWhereChooser := w.standardWhereChooser.setData env (some items) [] }
    Act.modify fun w => { w with columns := some columns }
    Act.modify fun w => { w with
      lastStandardModeSelect := .arr w.standardSelectChooser.selectedItems }
    if newPreference then
      Act.modify fun w => { w with whereCriteria := [] }
      Act.modify fun w => { w with advancedWhere := { w.advancedWhere with value := .str "" } }
      Act.modify fun w => { w with advancedOrderBy := { w.advancedOrderBy with value := .str "" } }
      let w ← Act.read
      let select ← Act.lift (buildSelectExpression w.lastStandardModeSelect)
      Act.modify fun w => { w with advancedSelect := { w.advancedSelect with value := .str select } }
      setSelectClause (.str select)
      Act.modify fun w => { w with resultsGrid := { w.resultsGrid with whereExpr := .str "" } }
      Act.modify fun w => { w with resultsGrid := { w.resultsGrid with orderBy := .str "" } }
      Act.modify fun w => { w with resultsGrid := { w.resultsGrid with sort := .arr [] } }
      Act.modify fun w => { w with resultsGrid := { w.resultsGrid with category := value } }
      let disableMetadataDependant := false
      Act.modify fun w => { w with
        standardWhereChooser := { w.standardWhereChooser with disabled := disableMetadataDependant } }
      Act.modify fun w => { w with
        standardSelectChooser := { w.standardSelectChooser with disabled := disableMetadataDependant } }
      Act.modify fun w => { w with
        modeButton := { w.modeButton with disabled := disableMetadataDependant } }
      Act.modify fun w => { w with
        advancedSelect := { w.advancedSelect with disabled := disableMetadataDependant } }
      Act.modify fun w => { w with
        advancedWhere := { w.advancedWhere with disabled := disableMetadataDependant } }
      Act.modify fun w => { w with
        advancedOrderBy := { w.advancedOrderBy with disabled := disableMetadataDependant } }
      toggleSearchButton Js.undef

/-- The call `this.categoryName.toLowerCase()`: a TypeError on anything but a
string (letters of the ASCII range). -/
def toLowerCase (v : Js) : Except String String :=
  match v with
  | .str s => .ok (String.mk (s.data.map Char.toLower))
  | _ => .error "TypeError"

/-- The flag `_restoreCurrentPage: currentPage > 1` of a new grid: `none` is
`false`, else the page to compare with 1. -/
def restoreFlag : Page → Option Page
  | .first => none
  | p => some p

/-- The method `_buildGrid(currentPage, rowsPerPage)`: the grid is built from
`categoryName` in lower case, the page and the page size, the rest being what
a new `QueryGrid` has; its hider node gets its title. -/
def buildGrid (env : Env) (currentPage : Page) (rowsPerPage : Js) : Act Unit := do
  let w ← Act.read
  let category ← Act.lift (toLowerCase w.categoryName)
  Act.modify fun w => { w with
    resultsGrid := { env.newGrid with
      category := .str category
      rowsPerPage := rowsPerPage
      currentPage := currentPage
      restoreCurrentPage := restoreFlag currentPage } }
  Act.modify fun w => { w with
    resultsGrid := { w.resultsGrid with hiderToggleTitle := "Remove columns" } }

/-- The method `_postCreate()`, run on the widget as its template and its
constructor parameters left it. The dialogs it creates and the handlers it
registers change nothing by themselves. -/
def postCreate (env : Env) : Act Unit := do
  let w ← Act.read
  let valuePresent := if w.preference.truthy then w.preference.get "value" else w.preference
  let selectPresent :=
    if valuePresent.truthy then (w.preference.get "value").get "select" else valuePresent
  Act.modify fun w => { w with
    categoryName :=
      if valuePresent.truthy && ((w.preference.get "value").get "category").truthy
      then (w.preference.get "value").get "category" else .str "Queue" }
  Act.modify fun w => { w with lastStandardModeSelect := .arr [] }
  Act.modify fun w => { w with lastHeaders := [] }
  let rowsPerPage :=
    if valuePresent.truthy && ((w.preference.get "value").get "limit").truthy
    then (w.preference.get "value").get "limit" else .num 100
  let currentPage :=
    if valuePresent.truthy && ((w.preference.get "value").get "offset").truthy
    then Page.fromOffset ((w.preference.get "value").get "offset") rowsPerPage else Page.first
  buildGrid env currentPage rowsPerPage
  let openingPreference :=
    if w.preference.truthy then
      if (w.preference.get "value").truthy then (w.preference.get "value").get "select"
      else w.preference.get "value"
    else w.preference
  let w1 ← Act.read
  initCategory env w1.categoryName (!openingPreference.truthy)
  toggleSearchButton Js.undef
  if selectPresent.truthy then
    modeChanged env
    Act.modify fun w => { w with
      advancedSelect := { w.advancedSelect with
        value := (w.preference.get "value").get "select" } }
    Act.modify fun w => { w with
      advancedWhere := { w.advancedWhere with
        value := (w.preference.get "value").get "where" } }
    Act.modify fun w => { w with
      advancedOrderBy := { w.advancedOrderBy with
        value := (w.preference.get "value").get "orderBy" } }
    let w2 ← Act.read
    setSelectClause w2.advancedSelect.value
    Act.modify fun w => { w with
      resultsGrid := { w.resultsGrid with whereExpr := w.advancedWhere.value } }
    Act.modify fun w => { w with
      resultsGrid := { w.resultsGrid with orderBy := w.advancedOrderBy.value } }
  Act.modify fun w => { w with
    deleteButton := { w.deleteButton with
      disabled :=
        if w.preference.notNull && (w.preference.get "id").notNull then false else true } }

/-- The method `_onQueryClone(e)`. -/
def onQueryClone (env : Env) (e : Js) : Act Unit := do
  let w ← Act.read
  let preference := w.preference
  let visibilityList ← Act.lift (preference.prop "visibilityList")
  let preference := if visibilityList.truthy then preference.deleteProp "visibilityList"
    else preference
  let name ← Act.lift (preference.prop "name")
  let preference := if name.truthy then preference.deleteProp "name" else preference
  let id ← Act.lift (preference.prop "id")
  let preference := if id.truthy then preference.deleteProp "id" else preference
  let query ← getQuery env Js.undef
  let preference ← Act.lift (preference.setProp "value" query)
  Act.modify fun w => { w with cloneDialogOpen := false }
  let parentObject ← Act.lift (e.prop "parentObject")
  emit "clone" (.obj [("preference", preference), ("parentObject", parentObject)])

/-- The statement `if (preference.k) delete preference.k` on the properties of
an object. -/
def deleteIfTruthy (k : String) (ps : List (String × Js)) : List (String × Js) :=
  if ((ps.lookup k).getD Js.undef).truthy then ps.filter fun p => p.1 != k else ps

/-- The item the grid transformer makes of a row of the results. -/
def transformRow (result : List Js) : List (String × Js) :=
  let item := [("id", (result.get? (result.length - 1)).getD Js.undef)]
  (List.range (result.length - 1)).foldl
    (fun item j => upsert item (toString (j + 1)) ((result.get? j).getD Js.undef)) item

/-- The function `transformer(data)` of the result grid, on the rows
`data.results`. -/
def transformer (dataResults : List (List Js)) : List (List (String × Js)) :=
  dataResults.foldl (fun results result => results ++ [transformRow result]) []

/-- A selected item that is a column object of the attribute `name`: an object
with that `attributeName` and without an own property `hasOwnProperty`. -/
def IsColumn (x : Js) (name : String) : Prop :=
  ∃ ps, x = Js.obj ps ∧ ps.lookup "attributeName" = some (Js.str name) ∧
    ps.lookup "hasOwnProperty" = none

/-- A value whose method `hasOwnProperty` no own property shadows. -/
def Js.unshadowed : Js → Bool
  | .obj ps => (ps.lookup "hasOwnProperty").isNone
  | _ => true

/-! ### A widget for the examples -/

/-- The column object `_combineTypeAttributesAndStatistics` builds for an
attribute of type `String` without valid values or description. -/
def columnObject (name : String) : Js :=
  .obj [("id", .str name), ("attributeName", .str name), ("type", .str "String"),
    ("validValues", Js.undef), ("description", Js.undef), ("columnType", .str "attribute")]

/-- Whether the `id` of an item is the selected value. -/
def hasId (selected item : Js) : Bool :=
  match item.get "id", selected with
  | .str a, .str b => a == b
  | _, _ => false

/-- A chooser rule: for each selected value the first item with that `id`. -/
def sampleResolve (items selected : List Js) : List Js :=
  selected.filterMap fun s => items.find? (hasId s)

/-- The metadata of a category with one type, three attributes and one
statistic. -/
def queueMetadata : List (String × TypeMeta) :=
  [("standard",
    { attributes := [("id", ⟨.str "String", Js.undef, Js.undef⟩),
        ("name", ⟨.str "String", Js.undef, Js.undef⟩),
        ("durable", ⟨.str "Boolean", Js.undef, Js.undef⟩)]
      statistics := [("queueDepthMessages", ⟨.str "Long", Js.undef, Js.undef⟩)] })]

/-- A new grid without query. -/
def sampleGrid : Grid :=
  { category := Js.undef, rowsPerPage := .num 100, currentPage := .first,
    restoreCurrentPage := none, select := .str "", whereExpr := .str "", orderBy := .str "",
    sort := .arr [], useCachedResults := false, columns := [], hiderToggleDisplay := "",
    hiderToggleTitle := "", refreshes := 0, resizes := 0 }

/-- Surroundings with the category `Queue` only. -/
def sampleEnv : Env :=
  { resolve := sampleResolve
    metadata := fun category => if category = "Queue" then some queueMetadata else none
    newGrid := sampleGrid
    gridQuery := fun g => .obj [("select", g.select), ("where", g.whereExpr),
      ("orderBy", g.orderBy)]
    encode := fun s => s }

/-- A widget in Standard view with the columns `id` and `name` selected. -/
def sampleWidget (preference : Js) : Widget :=
  { preference := preference, parentObject := .obj [("type", .str "broker")],
    advancedSearchDisplay := "none",
    advancedSelect := ⟨.str "", true⟩, advancedWhere := ⟨.str "", true⟩,
    advancedOrderBy := ⟨.str "", false⟩,
    advancedSearchButton := ⟨false, "Search", "Search", ""⟩,
    standardSearchDisplay := "",
    standardSelectChooser :=
      { items := [columnObject "id", columnObject "name", columnObject "durable"],
        selected := [.str "id", .str "name"],
        selectedItems := [columnObject "id", columnObject "name"], disabled := false },
    standardWhereChooser :=
      { items := [columnObject "id", columnObject "name", columnObject "durable"],
        selected := [], selectedItems := [], disabled := false },
    standardSearchButton := ⟨false, "Search", "Search", ""⟩,
    whereBuilderDisplay := "", whereCriteria := [],
    modeButton := ⟨false, "", "Advanced View", ""⟩,
    deleteButton := ⟨false, "", "Delete", ""⟩,
    resultsGrid := sampleGrid, standardMode := true, categoryName := .str "Queue",
    selectClause := .str "id,name", lastStandardModeSelect := .arr [], lastHeaders := [],
    columns := none, innerHTML := none, cloneDialogOpen := true, emitted := [] }

/-- The properties of a saved preference holding a query. -/
def savedProperties : List (String × Js) :=
  [("id", .str "7f2c"), ("name", .str "durable queues"), ("type", .str "query"),
    ("visibilityList", .arr []),
    ("value", .obj [("select", .str "name,durable"), ("category", .str "queue"),
      ("where", .str "durable = true"), ("orderBy", .str "name")])]

/-- A saved preference holding a query. -/
def savedPreference : Js := .obj savedProperties

/-- Two rows of a query result, the id in the last place. -/
def sampleRows : List (List Js) :=
  [[.str "orders", .num 3, .str "id-1"], [.str "id-2"]]

/-- The event of the clone dialog. -/
def cloneEvent : Js := .obj [("parentObject", .str "broker")]

/-- A preference whose `id` is `null` and whose `name` is the empty string. -/
def unnamedPreference : Js :=
  .obj [("id", .null), ("name", .str ""), ("type", .str "query")]

end Qpid

/-!
## Part 4: deleting a query

`QueryWidget._deleteQuery` asks the user, calls the preference store and emits
an event. The store answers with a promise; its handler runs once the promise
is fulfilled and never when it is rejected or left pending.
-/

namespace Qpid

/-- A call `_deleteQuery` makes to its surroundings. -/
inductive QueryCall where
  | confirm (message : String)
  | deletePreference (parentObject type name : Js)
deriving Repr

/-- The method `_deleteQuery()`, given the answer of the user to `confirm` and
whether the promise `management.deletePreference` returns for its arguments is
fulfilled. The result lists the calls made, in order; the event is added to
the emitted events of the widget. -/
def deleteQuery (userConfirms : String → Bool) (deleted : Js → Js → Js → Bool) :
    Act (List QueryCall) := do
  let w ← Act.read
  let message := "Are you sure you want to delete the query?"
  let id ← Act.lift (w.preference.prop "id")
  let message := if id.truthy
    then message ++ "\nQuery information will be removed from preferences." else message
  if userConfirms message then
    let id ← Act.lift (w.preference.prop "id")
    if id.truthy then
      let type ← Act.lift (w.preference.prop "type")
      let name ← Act.lift (w.preference.prop "name")
      if deleted w.parentObject type name then
        emit "delete" Js.undef
      pure [QueryCall.confirm message, QueryCall.deletePreference w.parentObject type name]
    else
      emit "delete" Js.undef
      pure [QueryCall.confirm message]
  else
    pure [QueryCall.confirm message]

end Qpid

/-!
## Part 5: the widget templates

The template strings of the query widgets are the template texts with
`replace(/<!--[\s\S]*?-->/g, "")` applied. A text is the list of its
characters; the replacement scans it once from left to right.
-/

namespace Qpid

/-- The characters `<!--`. -/
def commentOpen : List Char := ['<', '!', '-', '-']

/-- The characters `-->`. -/
def commentClose : List Char := ['-', '-', '>']

/-- The text after the first `-->` of a text, if it has one. -/
def afterClose : List Char → Option (List Char)
  | [] => none
  | c :: cs => if commentClose.isPrefixOf (c :: cs) then some (cs.drop 2) else afterClose cs

/-- The replacement of every match of `/<!--[\s\S]*?-->/g` by the empty
string. At a position where the expression matches, from `<!--` up to the
first `-->` after it, the match is left out and the scan goes on behind it;
elsewhere the character is kept. The first argument bounds the number of
steps; the length of the text is enough. -/
def stripComments : Nat → List Char → List Char
  | 0, _ => []
  | _ + 1, [] => []
  | n + 1, c :: cs =>
    if commentOpen.isPrefixOf (c :: cs) then
      match afterClose (cs.drop 3) with
      | some rest => stripComments n rest
      | none => c :: stripComments n cs
    else c :: stripComments n cs

/-- The expression `template.replace(/<!--[\s\S]*?-->/g, "")`. -/
def templateString (template : String) : String :=
  String.mk (stripComments template.data.length template.data)

/-- Whether a text has an HTML comment: an occurrence of `<!--` followed,
behind its four characters, by `-->`. -/
def hasComment : List Char → Bool
  | [] => false
  | c :: cs =>
    (commentOpen.isPrefixOf (c :: cs) && (afterClose (cs.drop 3)).isSome) || hasComment cs

/-- Whether some `<!--` of a text comes directly after one of the characters
`<`, `!` and `-`. -/
def gluedOpen : List Char → Bool
  | [] => false
  | c :: cs => ((c == '<' || c == '!' || c == '-') && commentOpen.isPrefixOf cs) || gluedOpen cs

/-- A template text in which the removal of a comment joins `<!-` and `-` into
a new comment. -/
def splicedTemplate : String := "<!-<!---->-x-->"

/-- A template text with two comments. -/
def commentedTemplate : String := "<!-- licence --><div class=\"a-b\"><!-- x --><b>!</b></div>"

end Qpid

/-!
## Part 6: the dialog `editBroker`

The dialog is the record of what `_show` and `_save` read and write: the
baseline `initialData`, the form widgets stored under their field names, and
the calls made to the dialog, to the helpers of `util` and to the management
client. A widget of the toolkit is the list of the calls it has received. A
TypeError ends a call; the state it leaves behind is not represented.
-/

namespace Qpid

/-- A call to a form widget. -/
inductive WidgetCall where
  | reset
  | set (name : String) (value : Js)
deriving Repr

/-- A form widget: whether it is an instance of `dijit.form.CheckBox`, and the
calls it has received, in order. -/
structure FormWidget where
  isCheckBox : Bool
  calls : List WidgetCall
deriving Repr

/-- A call the dialog makes besides those to its form widgets. -/
inductive EditorCall where
  | applyMetadataToWidgets (metadata : Js)
  | setContextData (actualData effectiveData : Js)
  | dialogStartup
  | dialogShow
  | resizeContentAreaAndRepositionDialog
  | update (data : Js)
  | alert (message : String)
deriving Repr

/-- The state of the object `brokerEditor`. -/
structure BrokerEditor where
  management : Js
  initialData : Js
  widgets : List (String × FormWidget)
  resizeEventRegistered : Bool
  calls : List EditorCall
deriving Repr

/-- The list `fields` of `editBroker.js`. -/
def fields : List String :=
  ["name", "defaultVirtualHost", "statisticsReportingPeriod", "statisticsReportingResetEnabled",
    "connection.sessionCountLimit", "connection.heartBeatDelay"]

/-- The read `v[0]` on a truthy value. -/
def Js.first : Js → Js
  | .arr xs => xs.head?.getD Js.undef
  | .str s => (s.data.head?.map fun c => Js.str (String.singleton c)).getD Js.undef
  | .obj ps => (ps.lookup "0").getD Js.undef
  | _ => Js.undef

/-- One round of the loop of `_show` over the nodes. -/
def hostStep (data : List Js) (node : Js) : Except String (List Js) := do
  let virtualhosts ← node.prop "virtualhosts"
  if virtualhosts.truthy then
    let name ← virtualhosts.first.prop "name"
    pure (data ++ [Js.obj [("id", name), ("name", name)]])
  else pure data

/-- The array `data` that `_show` builds from `effectiveData.virtualhostnodes`.
A truthy value that is no array has no element with a property
`virtualhosts`, unless it is an object with an own property `length`, which
is outside the model. -/
def hostChoices (effectiveData : Js) : Except String (List Js) := do
  let nodes ← effectiveData.prop "virtualhostnodes"
  if nodes.truthy then
    match nodes with
    | .arr xs => xs.foldlM hostStep []
    | .obj ps => if (ps.lookup "length").isSome then .error "outside the model" else pure []
    | _ => pure []
  else pure []

/-- The store `new dojo.store.Memory({ data: data })`, kept as the options it
is built from. -/
def memoryStore (data : List Js) : Js := .obj [("data", .arr data)]

/-- The call `this[fieldName].method(...)`: a TypeError where the dialog has
no such widget. -/
def BrokerEditor.call (ed : BrokerEditor) (fieldName : String) (c : WidgetCall) :
    Except String BrokerEditor :=
  match ed.widgets.lookup fieldName with
  | some widget =>
    .ok { ed with widgets := upsert ed.widgets fieldName { widget with calls := widget.calls ++ [c] } }
  | none => .error "TypeError"

/-- One round of the loop of `_show` over the fields. -/
def fillStep (actualData : Js) (ed : BrokerEditor) (fieldName : String) :
    Except String BrokerEditor := do
  let ed ← ed.call fieldName .reset
  let value ← actualData.prop fieldName
  match ed.widgets.lookup fieldName with
  | some widget =>
    if widget.isCheckBox then ed.call fieldName (.set "checked" value)
    else ed.call fieldName (.set "value" value)
  | none => .error "TypeError"

/-- The calls one round of the loop over the fields adds to the calls of a widget. -/
def filled (actualData : Js) (f : String) (w : FormWidget) : FormWidget :=
  { w with calls := w.calls ++
      [WidgetCall.reset, WidgetCall.set (if w.isCheckBox then "checked" else "value")
        (actualData.get f)] }

/-- The method `_show(actualData, effectiveData)`. -/
def BrokerEditor.show (ed : BrokerEditor) (actualData effectiveData : Js) :
    Except String BrokerEditor := do
  let ed := { ed with initialData := actualData }
  let data ← hostChoices effectiveData
  let hostsStore := memoryStore data
  let ed ← ed.call "defaultVirtualHost" (.set "store" hostsStore)
  let ed ← fields.foldlM (fillStep actualData) ed
  let metadata ← ed.management.prop "metadata"
  let ed := { ed with calls := ed.calls ++ [EditorCall.applyMetadataToWidgets metadata] }
  let ed := { ed with calls := ed.calls ++ [EditorCall.setContextData actualData effectiveData] }
  let ed := { ed with calls := ed.calls ++ [EditorCall.dialogStartup] }
  let ed := { ed with calls := ed.calls ++ [EditorCall.dialogShow] }
  if !ed.resizeEventRegistered then
    let ed := { ed with resizeEventRegistered := true }
    pure { ed with calls := ed.calls ++ [EditorCall.resizeContentAreaAndRepositionDialog] }
  else pure ed

/-- The method `_save(e)`, given the outcome of `this.form.validate()`, the
function `util.getFormWidgetValues(this.form, ·)` of the baseline, the value
`this.context.get("value")` and the function `util.equals`. -/
def BrokerEditor.save (valid : Bool) (getFormWidgetValues : Js → Js) (context : Js)
    (equals : Js → Js → Bool) (ed : BrokerEditor) : Except String BrokerEditor := do
  if valid then
    let data := getFormWidgetValues ed.initialData
    let changed ← if context.truthy then do
        let initialContext ← ed.initialData.prop "context"
        pure (!equals context initialContext)
      else pure false
    let data ← if changed then data.setProp "context" context else pure data
    pure { ed with calls := ed.calls ++ [EditorCall.update data] }
  else
    pure { ed with calls := ed.calls ++ [EditorCall.alert "Form contains invalid data.  Please correct first"] }

/-- The name of the first virtual host of a node with a non-empty array
`virtualhosts` of objects; `none` for a node without the property. -/
def firstHostName (node : List (String × Js)) : Option Js :=
  match node.lookup "virtualhosts" with
  | some (.arr (.obj host :: _)) => some ((host.lookup "name").getD Js.undef)
  | _ => none

/-- A node as the management interface reports it: without the property
`virtualhosts`, or with a non-empty array of objects under it. -/
def NodeShape (node : List (String × Js)) : Prop :=
  node.lookup "virtualhosts" = none ∨
    ∃ host rest, node.lookup "virtualhosts" = some (.arr (.obj host :: rest))

/-- A dialog with its six form widgets, opened for the first time. -/
def sampleEditor : BrokerEditor :=
  { management := .obj [("metadata", .obj [])]
    initialData := Js.undef
    widgets := [("name", ⟨false, []⟩), ("defaultVirtualHost", ⟨false, []⟩),
      ("statisticsReportingPeriod", ⟨false, []⟩),
      ("statisticsReportingResetEnabled", ⟨true, []⟩),
      ("connection.sessionCountLimit", ⟨false, []⟩),
      ("connection.heartBeatDelay", ⟨false, []⟩)]
    resizeEventRegistered := false
    calls := [] }

/-- The actual values of a broker. -/
def actualBroker : Js :=
  .obj [("name", .str "Broker"), ("statisticsReportingPeriod", .num 0),
    ("statisticsReportingResetEnabled", .bool false),
    ("connection.sessionCountLimit", .num 256)]

/-- The nodes of a broker: one with a virtual host, one without. -/
def sampleNodes : List (List (String × Js)) :=
  [[("name", .str "node1"), ("virtualhosts", .arr [.obj [("name", .str "default")]])],
    [("name", .str "node2")]]

/-- The properties of the effective values of a broker with the nodes
`sampleNodes`. -/
def effectiveProperties : List (String × Js) :=
  [("name", .str "Broker"), ("defaultVirtualHost", .str "default"),
    ("virtualhostnodes", .arr (sampleNodes.map Js.obj))]

/-- The effective values of a broker with the nodes `sampleNodes`. -/
def effectiveBroker : Js := .obj effectiveProperties

end Qpid

/-!
## Part 7: `PreferencesProvider` and its updater

The controller is the record of the fields `update` writes, of the nodes of
its template it styles, and of the calls it makes: modules requested with
`require`, requests to the management client, calls to the dialogs and to the
toolkit. The handlers given to `require` and to the promises run in later
turns and are functions of their own. A TypeError ends a call; the state it
leaves behind is not represented.
-/

namespace Qpid

/-- The details object `new PreferencesProviderDetails(preferencesDetailsDiv)`
of a loaded module: the module that built it and the data handed to its
`update`, in order. -/
structure DetailsView where
  module : String
  updates : List Js
deriving Repr

/-- A call of the controller to its surroundings. -/
inductive ProviderCall where
  | confirm (message : String)
  | remove (modelObj : Js)
  | showEditDialog (modelObj : Js)
  | load (modelObj : Js)
  | updaterRemove
  | paneOnClose
  | tabRemoveChild
  | paneDestroyRecursive
  | destroyWidgets
  | emptyContainer
  | parentDeleted
deriving Repr

/-- The state of a `PreferencesProvider`. `details` is `none` while the field
is `null` or `undefined`; `required` lists the modules requested with
`require`, each with the data its handler holds. -/
structure Provider where
  name : Js
  modelObj : Js
  preferencesProviderData : Js
  attributesDisplay : String
  editButtonDisplay : String
  deleteButtonDisplay : String
  typeHTML : String
  stateHTML : String
  details : Option DetailsView
  contentPane : Js
  parentObject : Js
  hasUpdater : Bool
  required : List (String × Js)
  calls : List ProviderCall
deriving Repr

/-- The method `update(data)`, given the HTML encoder. -/
def Provider.update (encode : String → String) (p : Provider) (data : Js) :
    Except String Provider := do
  let p := { p with preferencesProviderData := data }
  if data.truthy then
    let name ← data.prop "name"
    let p := { p with name := name }
    let p := { p with attributesDisplay := "block" }
    let p := { p with editButtonDisplay := "inline" }
    let p := { p with deleteButtonDisplay := "inline" }
    let type ← data.prop "type"
    let p := { p with typeHTML := encode type.toStr }
    let state ← data.prop "state"
    let p := { p with stateHTML := encode state.toStr }
    match p.details with
    | none =>
      let lower ← toLowerCase type
      pure { p with
        required := p.required ++ [("qpid/management/preferencesprovider/" ++ lower ++ "/show", data)] }
    | some details =>
      pure { p with details := some { details with updates := details.updates ++ [data] } }
  else
    let p := { p with editButtonDisplay := "none" }
    let p := { p with deleteButtonDisplay := "none" }
    let p := { p with attributesDisplay := "none" }
    pure { p with details := none }

/-- The handler given to `require` in `update`, run when the module `module`
requested for `data` is loaded. -/
def Provider.detailsLoaded (p : Provider) (module : String) (data : Js) : Provider :=
  { p with details := some { module := module, updates := [data] } }

/-- The method `editPreferencesProvider()`. -/
def Provider.editPreferencesProvider (p : Provider) : Provider :=
  if p.preferencesProviderData.truthy then
    { p with calls := p.calls ++ [ProviderCall.showEditDialog p.modelObj] }
  else p

/-- The method `deletePreferencesProvider()` up to the request
`management.remove`, given the answer of the user to `confirm`. -/
def Provider.deletePreferencesProvider (userConfirms : String → Bool) (p : Provider) :
    Except String Provider := do
  if p.preferencesProviderData.truthy then
    let preferencesProviderData := p.preferencesProviderData
    let name ← preferencesProviderData.prop "name"
    let message := "Are you sure you want to delete preferences provider '" ++ name.toStr ++ "'?"
    if userConfirms message then
      pure { p with
        calls := p.calls ++ [ProviderCall.confirm message, ProviderCall.remove p.modelObj] }
    else pure { p with calls := p.calls ++ [ProviderCall.confirm message] }
  else pure p

/-- The method `close()`. -/
def Provider.close (p : Provider) : Provider :=
  if p.hasUpdater then { p with calls := p.calls ++ [ProviderCall.updaterRemove] } else p

/-- The handler of `deletePreferencesProvider`, run when the removal has
succeeded. -/
def Provider.removed (encode : String → String) (p : Provider) : Except String Provider := do
  let p ← p.update encode Js.null
  if p.contentPane.truthy then
    let p := p.close
    pure { p with
      calls := p.calls ++ [ProviderCall.paneOnClose, ProviderCall.tabRemoveChild,
        ProviderCall.paneDestroyRecursive] }
  else
    let p := { p with calls := p.calls ++ [ProviderCall.destroyWidgets, ProviderCall.emptyContainer] }
    if p.parentObject.truthy then
      pure { p with calls := p.calls ++ [ProviderCall.parentDeleted] }
    else pure p

/-- The method `reload()` up to the request `management.load`. -/
def Provider.reload (p : Provider) : Provider :=
  { p with calls := p.calls ++ [ProviderCall.load p.modelObj] }

/-- The state of a `PreferencesProviderUpdater`. -/
structure ProviderUpdater where
  preferencesProvider : Provider
  contentPane : Js
deriving Repr

/-- The method `PreferencesProviderUpdater.prototype.update()`. -/
def ProviderUpdater.update (u : ProviderUpdater) : Except String ProviderUpdater := do
  let selected ← u.contentPane.prop "selected"
  if !selected.truthy then
    pure u
  else
    pure { u with preferencesProvider := u.preferencesProvider.reload }

/-- A preferences provider opened in a tab, before its data arrive. -/
def sampleProvider : Provider :=
  { name := .str "prefs"
    modelObj := .obj [("type", .str "preferencesprovider"), ("name", .str "prefs")]
    preferencesProviderData := Js.undef
    attributesDisplay := "", editButtonDisplay := "", deleteButtonDisplay := ""
    typeHTML := "", stateHTML := ""
    details := none
    contentPane := .obj [("selected", .bool true)]
    parentObject := Js.undef
    hasUpdater := true
    required := []
    calls := [] }

/-- The properties of the data of a preferences provider. -/
def providerProperties : List (String × Js) :=
  [("name", .str "prefs"), ("type", .str "FileSystemPreferences"), ("state", .str "ACTIVE")]

/-- The updater of `sampleProvider`. -/
def sampleUpdater : ProviderUpdater :=
  { preferencesProvider := sampleProvider, contentPane := sampleProvider.contentPane }

end Qpid

/-!
## Part 8: `PortUpdater.updateHeader`

The updater is the record of the port data and of the nodes of its template:
for a slot the value assigned to its `innerHTML`, for a row the value of its
`style.display`. A TypeError ends the call; the state it leaves behind is not
represented.
-/

namespace Qpid

/-- The state of a `PortUpdater`. -/
structure PortUpdater where
  keyStoreData : Js
  nameValue : Js
  stateValue : Js
  portValue : Js
  authenticationProviderValue : Js
  protocolsValue : Js
  transportsValue : Js
  bindingAddressValue : Js
  keyStoreValue : Js
  needClientAuthValue : Js
  wantClientAuthValue : Js
  trustStoresValue : Js
  trustStoresValueDisplay : String
  bindingAddressDisplay : String
  keyStoreDisplay : String
  needClientAuthDisplay : String
  wantClientAuthDisplay : String
  trustStoresDisplay : String
deriving Repr

/-- The elements `v[0]`, ..., `v[v.length - 1]` of a truthy value: those of an
array, the characters of a string, none where `length` is `undefined`. An
object with an own property `length` is outside the model (`none`). -/
def Js.indexed : Js → Option (List Js)
  | .arr xs => some xs
  | .str s => some (s.data.map fun c => Js.str (String.singleton c))
  | .obj ps => if (ps.lookup "length").isSome then none else some []
  | _ => some []

/-- The inner function `printArray(fieldName, object)`. -/
def printArray (fieldName : String) (object : Js) : Except String String := do
  let array ← object.prop fieldName
  let data := "<div>"
  let data ← if array.truthy then
      match array.indexed with
      | some xs => pure (xs.foldl (fun data x => data ++ ("<div>" ++ x.toStr ++ "</div>")) data)
      | none => .error "outside the model"
    else pure data
  pure (data ++ "</div>")

/-- The read `v[0]`: a TypeError on `null` and `undefined`. -/
def Js.item0 (v : Js) : Except String Js :=
  if v.notNull then .ok v.first else .error "TypeError"

/-- The test `v.indexOf(text) == 0` on a truthy value: whether a string starts
with the text, whether the first element of an array is the text; a TypeError
on a value without the method `indexOf`. -/
def indexOfIsZero (v : Js) (text : String) : Except String Bool :=
  match v with
  | .str s => .ok (text.data.isPrefixOf s.data)
  | .arr (.str s :: _) => .ok (s == text)
  | .arr _ => .ok false
  | _ => .error "TypeError"

/-- The expression `v ? v : ""`. -/
def orEmpty (v : Js) : Js := if v.truthy then v else .str ""

/-- The text of the disabled check box showing a flag. -/
def checkBoxHTML (v : Js) : String :=
  "<input type='checkbox' disabled='disabled' " ++ (if v.truthy then "checked='checked'" else "")
    ++ " />"

/-- The method `PortUpdater.prototype.updateHeader()`. -/
def PortUpdater.updateHeader (u : PortUpdater) : Except String PortUpdater := do
  let name ← u.keyStoreData.prop "name"
  let u : PortUpdater := { u with nameValue := name }
  let state ← u.keyStoreData.prop "state"
  let u : PortUpdater := { u with stateValue := state }
  let port ← u.keyStoreData.prop "port"
  let u : PortUpdater := { u with portValue := port }
  let authenticationProvider ← u.keyStoreData.prop "authenticationProvider"
  let u : PortUpdater := { u with authenticationProviderValue := orEmpty authenticationProvider }
  let protocols ← printArray "protocols" u.keyStoreData
  let u : PortUpdater := { u with protocolsValue := .str protocols }
  let transports ← printArray "transports" u.keyStoreData
  let u : PortUpdater := { u with transportsValue := .str transports }
  let bindingAddress ← u.keyStoreData.prop "bindingAddress"
  let u : PortUpdater := { u with bindingAddressValue := orEmpty bindingAddress }
  let keyStore ← u.keyStoreData.prop "keyStore"
  let u : PortUpdater := { u with keyStoreValue := orEmpty keyStore }
  let needClientAuth ← u.keyStoreData.prop "needClientAuth"
  let u : PortUpdater := { u with needClientAuthValue := .str (checkBoxHTML needClientAuth) }
  let wantClientAuth ← u.keyStoreData.prop "wantClientAuth"
  let u : PortUpdater := { u with wantClientAuthValue := .str (checkBoxHTML wantClientAuth) }
  let trustStores ← printArray "trustStores" u.keyStoreData
  let u : PortUpdater := { u with trustStoresValue := .str trustStores }
  let protocolList ← u.keyStoreData.prop "protocols"
  let protocol ← protocolList.item0
  let amqpProtocol ← if protocol.truthy then indexOfIsZero protocol "AMQP" else pure false
  let u : PortUpdater := { u with bindingAddressDisplay := if amqpProtocol then "block" else "none" }
  let transportList ← u.keyStoreData.prop "transports"
  let transport ← transportList.item0
  let sslTransport := transport.truthy && transport.looseEq "SSL"
  let displayStyle := if sslTransport then "block" else "none"
  let u : PortUpdater := { u with trustStoresValueDisplay := displayStyle }
  let u : PortUpdater := { u with keyStoreDisplay := displayStyle }
  let u : PortUpdater := { u with needClientAuthDisplay := displayStyle }
  let u : PortUpdater := { u with wantClientAuthDisplay := displayStyle }
  pure { u with trustStoresDisplay := displayStyle }

/-- An updater whose template has not been filled, holding the given port
data. -/
def samplePortUpdater (keyStoreData : Js) : PortUpdater :=
  { keyStoreData := keyStoreData
    nameValue := .str "", stateValue := .str "", portValue := .str ""
    authenticationProviderValue := .str "", protocolsValue := .str ""
    transportsValue := .str "", bindingAddressValue := .str "", keyStoreValue := .str ""
    needClientAuthValue := .str "", wantClientAuthValue := .str "", trustStoresValue := .str ""
    trustStoresValueDisplay := "", bindingAddressDisplay := "", keyStoreDisplay := ""
    needClientAuthDisplay := "", wantClientAuthDisplay := "", trustStoresDisplay := "" }

/-- The properties of an AMQP port with SSL transport. -/
def sslPortProperties : List (String × Js) :=
  [("name", .str "amqps"), ("state", .str "ACTIVE"), ("port", .num 5671),
    ("protocols", .arr [.str "AMQP_0_10", .str "AMQP_1_0"]), ("transports", .arr [.str "SSL"]),
    ("keyStore", .str "default"), ("needClientAuth", .bool false)]

end Qpid

/-!
## Part 9: `util.showSetAttributesDialog`

The dialog keeps the widgets its factories create in the object `widgets`.
A widget is the record of the fields the submit handler reads. The layout of
the dialog and the `required` flags of dependent widgets, which enter only
into `form.validate()`, are not represented.
-/

namespace Qpid

/-- A widget of the dialog: its `name`, its `value`, the `initialValue` the
dialog gave it, its `checked` state, and whether it is an instance of
`dijit.form.CheckBox` or `dijit.form.RadioButton`. -/
structure AttributeWidget where
  name : String
  value : Js
  initialValue : Js
  checked : Bool
  isCheckOrRadio : Bool
deriving Repr

/-- An attribute widget factory: its `name` and the widget `createWidget(data)`
returns. -/
structure WidgetFactory where
  name : Js
  widget : AttributeWidget
deriving Repr

/-- The loop of `showSetAttributesDialog` over the factories, as far as the
object `widgets` goes: each widget is stored under the name of its factory,
or under its own name where the factory has none, and its `initialValue` is
set to its `value`. -/
def buildWidgets (attributeWidgetFactories : List WidgetFactory) :
    List (String × AttributeWidget) :=
  attributeWidgetFactories.foldl
    (fun widgets attributeWidgetFactory =>
      let widget := attributeWidgetFactory.widget
      let name := if attributeWidgetFactory.name.truthy then attributeWidgetFactory.name.toStr
        else widget.name
      upsert widgets name { widget with initialValue := widget.value })
    []

/-- The comparison `x == y` of two values. Outside the model (`none`) are the
comparisons that turn a string into a number and those of two objects, which
go by identity. -/
def Js.looseEquals : Js → Js → Option Bool
  | .undef, .undef => some true
  | .undef, .null => some true
  | .null, .undef => some true
  | .null, .null => some true
  | .undef, _ => some false
  | .null, _ => some false
  | _, .undef => some false
  | _, .null => some false
  | .bool a, .bool b => some (a == b)
  | .num a, .num b => some (a == b)
  | .str a, .str b => some (a == b)
  | .bool a, .num b => some ((if a then 1 else 0) == b)
  | .num a, .bool b => some (a == (if b then 1 else 0))
  | .arr xs, .str b => some ((Js.arr xs).toStr == b)
  | .str a, .arr ys => some (a == (Js.arr ys).toStr)
  | .obj ps, .str b => some ((Js.obj ps).toStr == b)
  | .str a, .obj qs => some (a == (Js.obj qs).toStr)
  | _, _ => none

/-- One round of the loop of the submit handler over `widgets`. -/
def valueStep (values : List (String × Js)) (entry : String × AttributeWidget) :
    Option (List (String × Js)) := do
  let widget := entry.2
  let value := widget.value
  let propName := widget.name
  if widget.isCheckOrRadio then
    pure (upsert values propName (.bool widget.checked))
  else
    let equal ← value.looseEquals widget.initialValue
    if !equal then pure (upsert values propName (if value.truthy then value else .null))
    else pure values

/-- What the submit handler does to its surroundings. -/
inductive DialogEffect where
  | put (url : String) (values : List (String × Js))
  | destroy
  | alert (message : String)
deriving Repr

/-- The handler of `submit`, given the outcome of `form.validate()`, the
outcome of the synchronous `xhr.put` (`none` on success, the text of the
error on failure) and the object `widgets`. The request is kept with the
object `values` its body is the JSON text of. The result is what the handler
does, in order; `none` where a comparison is outside the model. -/
def submitForm (valid : Bool) (putError : Option String)
    (widgets : List (String × AttributeWidget)) (putURL : String) : Option (List DialogEffect) :=
  if valid then do
    let values ← widgets.foldlM valueStep []
    pure (DialogEffect.put putURL values ::
      (match putError with
        | none => [DialogEffect.destroy]
        | some failureReason => [DialogEffect.alert ("Error:" ++ failureReason)]))
  else
    pure [DialogEffect.alert "Form contains invalid data.  Please correct first"]

/-- The value sent for a widget: its checked state for a check box or radio
button; for another widget whose value is unequal (`!=`) to its initial value
the value itself, or `null` when the value is falsy; nothing otherwise. -/
def sentValue (w : AttributeWidget) : Option Js :=
  if w.isCheckOrRadio then some (.bool w.checked)
  else if w.value.looseEquals w.initialValue = some false
    then some (if w.value.truthy then w.value else .null)
    else none

/-- An empty value: `null`, `undefined` or the empty string. -/
def Js.isEmptyValue : Js → Bool
  | .undef => true
  | .null => true
  | .str s => s == ""
  | _ => false

/-- A number spinner whose value was 5 when the dialog was built and is 0
now. -/
def zeroedSpinner : AttributeWidget :=
  { name := "statisticsReportingPeriod", value := .num 0, initialValue := .num 5,
    checked := false, isCheckOrRadio := false }

/-- The widgets of a dialog: a changed text box, an unchanged one, a cleared
one and a check box. -/
def sampleWidgets : List (String × AttributeWidget) :=
  [("name", ⟨"name", .str "Broker2", .str "Broker", false, false⟩),
    ("defaultVirtualHost", ⟨"defaultVirtualHost", .str "test", .str "test", false, false⟩),
    ("description", ⟨"description", .str "", .str "old", false, false⟩),
    ("statisticsReportingResetEnabled",
      ⟨"statisticsReportingResetEnabled", .bool true, .bool true, true, true⟩)]

end Qpid

/-!
## Part 10: the sort and the selection of `QueryWidget`

`_normalizeSorting` carries the sort of the grid over to a new selection of
columns; `_processStandardModeSelectChange` and `_standardModeSelectChanged`
are the handlers of a change of the selection.
-/

namespace Qpid

/-- The number `parseInt` reads off a text: `some none` is `NaN`. The digits
up to the first other character count; a text that starts with a letter, and
the empty text, give `NaN`. Outside the model (`none`) are the texts that
start with `0x`, with a sign, with white space or with any other character. -/
def parseIntChars : List Char → Option (Option Int)
  | [] => some none
  | c :: cs =>
    if c.isDigit then
      if c == '0' && (cs.head? == some 'x' || cs.head? == some 'X') then none
      else some (some (digitsVal ((c :: cs).takeWhile Char.isDigit)))
    else if c.isAlpha then some none
    else none

/-- The call `parseInt(v)`: `some none` is `NaN`, `none` is outside the model
(see `parseIntChars`; a number of 22 digits or more is written with an
exponent). -/
def parseInt : Js → Option (Option Int)
  | .num n => if n.natAbs < 10 ^ 21 then some (some n) else none
  | .str s => parseIntChars s.data
  | .arr xs => parseIntChars (Js.arr xs).toStr.data
  | _ => some none

/-- The comparison `x === y`. Outside the model (`none`) is the comparison of
two arrays or of two objects, which goes by identity. -/
def Js.strictEquals : Js → Js → Option Bool
  | .undef, .undef => some true
  | .null, .null => some true
  | .bool a, .bool b => some (a == b)
  | .num a, .num b => some (a == b)
  | .str a, .str b => some (a == b)
  | .arr _, .arr _ => none
  | .obj _, .obj _ => none
  | _, _ => some false

/-- The inner loop of `_normalizeSorting`: the first index `j`, counted from
the given one, with `selectedColumns[j].attributeName === name`. -/
def findColumn (oldSortedColumnName : Js) : List Js → Nat → Except String (Option Nat)
  | [], _ => .ok none
  | column :: columns, j => do
    let attributeName ← column.prop "attributeName"
    match attributeName.strictEquals oldSortedColumnName with
    | some true => pure (some j)
    | some false => findColumn oldSortedColumnName columns (j + 1)
    | none => .error "outside the model"

/-- One round of the outer loop of `_normalizeSorting`, given the value of
`this._lastStandardModeSelect`. -/
def sortStep (last : Js) (selectedColumns : List Js) (newSort : List Js) (entry : Js) :
    Except String (List Js) := do
  let property ← entry.prop "property"
  match parseInt property with
  | none => .error "outside the model"
  | some parsed =>
    let sortDescending ← entry.prop "descending"
    match last with
    | .arr previous =>
      match parsed with
      | none => pure newSort
      | some number =>
        let sortColumnIndex := number - 1
        if sortColumnIndex < previous.length then
          let column := if 0 ≤ sortColumnIndex
            then (previous.get? sortColumnIndex.toNat).getD Js.undef else Js.undef
          let oldSortedColumnName ← column.prop "attributeName"
          match ← findColumn oldSortedColumnName selectedColumns 0 with
          | some j =>
            pure (newSort ++
              [Js.obj [("property", .str (toString (j + 1))), ("descending", sortDescending)]])
          | none => pure newSort
        else pure newSort
    | .undef => .error "TypeError"
    | .null => .error "TypeError"
    | _ => .error "outside the model"

/-- The method `_normalizeSorting(selectedColumns)` on an array of columns; a
sort of the grid that is no array is outside the model. -/
def normalizeSorting (selectedColumns : List Js) : Act Unit := do
  let w ← Act.read
  match w.resultsGrid.sort with
  | .arr sort =>
    let newSort ← Act.lift (sort.foldlM (sortStep w.lastStandardModeSelect selectedColumns) [])
    Act.modify fun w => { w with resultsGrid := { w.resultsGrid with sort := .arr newSort } }
  | _ => Act.lift (.error "outside the model")

/-- The method `_processStandardModeSelectChange(selectedColumns)` on an array
of columns. -/
def processStandardModeSelectChange (selectedColumns : List Js) : Act Unit := do
  normalizeSorting selectedColumns
  let selectClause ← Act.lift (buildSelectExpression (.arr selectedColumns))
  setSelectClause (.str selectClause)
  Act.modify fun w => { w with lastStandardModeSelect := .arr selectedColumns }
  toggleSearchButton (.str selectClause)

/-- The method `_standardModeSelectChanged(selectedColumns)`, the handler of
the event `change` of the standard chooser. -/
def standardModeSelectChanged (env : Env) (selectedColumns : List Js) : Act Unit := do
  processStandardModeSelectChange selectedColumns
  search
  queryChanged env Js.undef

/-- The handler `lang.hitch(this, this._toggleSearchButton)` of the event
`change` of the advanced select box, which the toolkit calls with the value
of the box in a later turn. -/
def advancedSelectChange : Act Unit := do
  let w ← Act.read
  toggleSearchButton w.advancedSelect.value

/-- The sort as the specification words it, on the names of the previous and
of the new selection and on the pairs of a column number and a direction: an
entry whose number `k` is in `1..length previous` becomes `(j + 1, direction)`
for the first index `j` at which the new selection has the name the previous
one has at `k - 1`; any other entry is dropped. -/
def retargetedSort (previous selected : List String) (sort : List (Nat × Js)) :
    List (Nat × Js) :=
  sort.filterMap fun e =>
    if 1 ≤ e.1 ∧ e.1 ≤ previous.length then
      match previous.get? (e.1 - 1) with
      | some name =>
        if selected.indexOf name < selected.length then some (selected.indexOf name + 1, e.2)
        else none
      | none => none
    else none

/-- The entry `attributeData` of an attribute. -/
def attributeData (na : String × AttributeMeta) : Js :=
  .obj [("id", .str na.1), ("attributeName", .str na.1),
    ("type", na.2.type), ("validValues", na.2.validValues),
    ("description", na.2.description), ("columnType", .str "attribute")]

/-- The entry `statisticData` of a statistic. -/
def statisticData (ns : String × AttributeMeta) : Js :=
  .obj [("id", .str ns.1), ("attributeName", .str ns.1),
    ("type", ns.2.type), ("description", ns.2.description),
    ("columnType", .str "statistics")]

/-- The definitions of a category as the specification orders them: the types
in order, within a type the attributes before the statistics; each name with
the entry built from that definition. -/
def definitions : List (String × TypeMeta) → List (String × Js)
  | [] => []
  | it :: rest =>
    it.2.attributes.map (fun na => (na.1, attributeData na)) ++
      (it.2.statistics.map (fun ns => (ns.1, statisticData ns)) ++ definitions rest)

/-- Whether an entry was built from an attribute. -/
def isAttributeEntry (entry : Js) : Bool :=
  (entry.get "columnType").looseEq "attribute"

/-- The invariant of the loops of `_combineTypeAttributesAndStatistics`, with
the definitions met so far and the names of the types met so far: the array
holds the entries of the object in order, no name is kept twice, a name has
the entry of its first definition, and `typeAttribute` is set exactly when
the first definition of `type` is an attribute. -/
def ColumnsInv (c : Columns) (met : List (String × Js)) (types : List Js) : Prop :=
  c.columnsArray = c.columnsObject.map Prod.snd ∧
  (c.columnsObject.map Prod.fst).Nodup ∧
  (∀ name, c.columnsObject.lookup name = met.lookup name) ∧
  c.typeAttribute = ((met.lookup "type").map isAttributeEntry).getD false ∧
  c.validTypes = types

/-- An entry of the sort of the grid. -/
def sortEntry (column : Nat) (descending : Js) : Js :=
  .obj [("property", .str (toString column)), ("descending", descending)]

/-- A widget with the columns `id` and `name` selected and a grid sorted by
the second column, then the first, then a third one. -/
def sortedWidget : Widget :=
  { sampleWidget Js.null with
    lastStandardModeSelect := .arr [columnObject "id", columnObject "name"]
    resultsGrid := { sampleGrid with
      sort := .arr [sortEntry 2 (.bool true), sortEntry 1 (.bool false),
        sortEntry 3 (.bool false)] } }

/-- A widget in Advanced view on a saved query: the column `durable` was
selected last in Standard view, the query has a where clause and an order-by,
the grid is sorted and has shown the headers `name` and `durable`. -/
def advancedWidget : Widget :=
  { sampleWidget savedPreference with
    standardMode := false
    advancedSearchDisplay := ""
    standardSearchDisplay := "none"
    whereBuilderDisplay := "none"
    advancedSelect := ⟨.str "name,durable", false⟩
    advancedWhere := ⟨.str "durable = true", false⟩
    advancedOrderBy := ⟨.str "name", false⟩
    modeButton := ⟨false, "Switch to 'Standard View' search", "Standard View",
      "dijitIconApplication"⟩
    standardSelectChooser :=
      { items := [columnObject "id", columnObject "name", columnObject "durable"],
        selected := [.str "durable"], selectedItems := [columnObject "durable"],
        disabled := false }
    standardWhereChooser :=
      { items := [columnObject "id", columnObject "name", columnObject "durable"],
        selected := [.str "durable"], selectedItems := [columnObject "durable"],
        disabled := false }
    whereCriteria := [.obj [("name", .str "durable"), ("value", .bool true)]]
    resultsGrid := { sampleGrid with
      category := .str "queue"
      select := .str "name,durable,id"
      whereExpr := .str "durable = true"
      orderBy := .str "name"
      sort := .arr [sortEntry 2 (.bool true)]
      hiderToggleDisplay := "none" }
    selectClause := .str "name,durable"
    lastStandardModeSelect := .arr [columnObject "durable"]
    lastHeaders := [.str "name", .str "durable"]
    cloneDialogOpen := false }

/-- The effective values of a broker one of whose nodes has an empty list of
virtual hosts. -/
def emptyHostsBroker : Js :=
  .obj [("name", .str "Broker"),
    ("virtualhostnodes", .arr [
      .obj [("name", .str "node1"), ("virtualhosts", .arr [.obj [("name", .str "default")]])],
      .obj [("name", .str "node2"), ("virtualhosts", .arr [])]])]

/-- The metadata of a category with two types that both define the attribute
`type`, without valid values. -/
def typedMetadata : List (String × TypeMeta) :=
  [("standard",
    { attributes := [("name", ⟨.str "String", Js.undef, Js.undef⟩),
        ("type", ⟨.str "String", Js.undef, Js.undef⟩)]
      statistics := [("bytesIn", ⟨.str "Long", Js.undef, .str "received"⟩)] }),
   ("priority",
    { attributes := [("type", ⟨.str "String", Js.undef, .str "second"⟩),
        ("priorities", ⟨.str "Integer", Js.undef, Js.undef⟩)]
      statistics := [("bytesIn", ⟨.str "Long", Js.undef, .str "again"⟩)] })]

/-- The metadata of a category with an attribute and a statistic named after
properties of `Object.prototype`. -/
def prototypeNamedMetadata : List (String × TypeMeta) :=
  [("standard",
    { attributes := [("name", ⟨.str "String", Js.undef, Js.undef⟩),
        ("constructor", ⟨.str "String", Js.undef, Js.undef⟩)]
      statistics := [("valueOf", ⟨.str "Long", Js.undef, Js.undef⟩)] })]

end Qpid

namespace Qpid

/-! ### Decimal numerals -/

theorem digitChar_isDigit (n : Nat) (h : n < 10) : (Nat.digitChar n).isDigit = true := by
  interval_cases n <;> decide

theorem toDigitsCore_isDigit : ∀ (fuel n : Nat) (ds : List Char),
    (∀ c ∈ ds, c.isDigit = true) → ∀ c ∈ Nat.toDigitsCore 10 fuel n ds, c.isDigit = true := by
  intro fuel
  induction fuel with
  | zero => intro n ds h c hc; simpa [Nat.toDigitsCore] using h c (by simpa [Nat.toDigitsCore] using hc)
  | succ fuel ih =>
    intro n ds h c hc
    have hd : (Nat.digitChar (n % 10)).isDigit = true := digitChar_isDigit _ (Nat.mod_lt _ (by decide))
    have hds : ∀ c ∈ Nat.digitChar (n % 10) :: ds, c.isDigit = true := by
      intro c hc
      rcases List.mem_cons.1 hc with rfl | hc
      · exact hd
      · exact h c hc
    simp only [Nat.toDigitsCore] at hc
    split at hc
    · exact hds c hc
    · exact ih _ _ hds c hc

theorem digitChar_val (n : Nat) (h : n < 10) : (Nat.digitChar n).toNat - 48 = n := by
  interval_cases n <;> decide

theorem toDigitsCore_val : ∀ (fuel n : Nat) (ds : List Char), n < fuel →
    digitsVal (Nat.toDigitsCore 10 fuel n ds) = n * 10 ^ ds.length + digitsVal ds := by
  intro fuel
  induction fuel with
  | zero => intro n ds h; omega
  | succ fuel ih =>
    intro n ds h
    simp only [Nat.toDigitsCore]
    split
    · rename_i h0
      have hn : n % 10 = n := by omega
      have hv := digitChar_val _ (Nat.mod_lt n (by decide : 0 < 10))
      simp only [digitsVal, hv]
      rw [hn]
    · rename_i h0
      rw [ih _ _ (by omega)]
      simp only [digitsVal, List.length_cons, digitChar_val _ (Nat.mod_lt n (by decide : 0 < 10))]
      have : n = 10 * (n / 10) + n % 10 := (Nat.div_add_mod n 10).symm
      generalize n / 10 = q at *
      generalize n % 10 = r at *
      subst this
      ring

theorem toString_nat_injective (a b : Nat) (h : toString a = toString b) : a = b := by
  have h1 : Nat.toDigits 10 a = Nat.toDigits 10 b := by
    have := congrArg String.data h
    simpa [toString, Nat.repr, List.asString] using this
  have ha := toDigitsCore_val (a + 1) a [] (by omega)
  have hb := toDigitsCore_val (b + 1) b [] (by omega)
  simp only [Nat.toDigits] at h1
  rw [h1] at ha
  simp [digitsVal] at ha hb
  omega

theorem toString_nat_ne_of_nondigit (i : Nat) (s : String) (c : Char) (hc : c ∈ s.data)
    (hd : c.isDigit = false) : toString i ≠ s := by
  intro h
  have h1 : Nat.toDigits 10 i = s.data := by
    have := congrArg String.data h
    simpa [toString, Nat.repr, List.asString] using this
  have := toDigitsCore_isDigit (i + 1) i [] (by simp) c (by
    rw [← h1] at hc
    exact hc)
  rw [hd] at this
  cases this

theorem toString_nat_ne_statistics (i : Nat) : toString i ≠ "statistics" :=
  toString_nat_ne_of_nondigit i "statistics" 's' (by decide) (by decide)

theorem indexKeys_nodup (n : Nat) : (indexKeys n).Nodup :=
  List.Nodup.map (fun a b h => toString_nat_injective a b h) (List.nodup_range n)

theorem statistics_not_mem_indexKeys (n : Nat) : "statistics" ∉ indexKeys n := by
  intro h
  rcases List.mem_map.1 h with ⟨i, _, hi⟩
  exact toString_nat_ne_statistics i hi

theorem indexKeys_length (n : Nat) : (indexKeys n).length = n := by
  simp [indexKeys]

theorem plainKey_indexKeys (n : Nat) : ∀ k ∈ indexKeys n, plainKey k = true := by
  intro k hk
  rcases List.mem_map.1 hk with ⟨i, _, rfl⟩
  unfold plainKey
  rw [Bool.and_eq_true, bne_iff_ne, bne_iff_ne]
  exact ⟨toString_nat_ne_of_nondigit i "hasOwnProperty" 'h' (by decide) (by decide),
    toString_nat_ne_of_nondigit i "__proto__" '_' (by decide) (by decide)⟩

theorem plainKey_ne {k : String} (h : plainKey k = true) :
    k ≠ "hasOwnProperty" ∧ k ≠ "__proto__" := by
  unfold plainKey at h
  rw [Bool.and_eq_true, bne_iff_ne, bne_iff_ne] at h
  exact h

/-! ### Property lists -/

theorem lookup_isSome_of_mem_keys {β : Type} {k : String} :
    ∀ {l : List (String × β)}, k ∈ l.map Prod.fst → (l.lookup k).isSome = true
  | [], h => by simp at h
  | (k', x) :: l, h => by
    by_cases hk : k = k'
    · subst hk; simp [List.lookup]
    · have hm : k ∈ l.map Prod.fst := by
        rcases List.mem_cons.1 h with h | h
        · exact absurd h hk
        · exact h
      have hb : (k == k') = false := by simpa using hk
      simp only [List.lookup, hb]
      exact lookup_isSome_of_mem_keys hm

theorem lookup_eq_none_of_not_mem_keys {β : Type} {k : String} :
    ∀ {l : List (String × β)}, k ∉ l.map Prod.fst → l.lookup k = none
  | [], _ => rfl
  | (k', x) :: l, h => by
    have hk : k ≠ k' := fun e => h (by simp [e])
    have hm : k ∉ l.map Prod.fst := fun e => h (by simp at e ⊢; exact Or.inr e)
    have hb : (k == k') = false := by simpa using hk
    simp only [List.lookup, hb]
    exact lookup_eq_none_of_not_mem_keys hm

theorem mem_of_lookup_eq_some {β : Type} {k : String} {x : β} :
    ∀ {l : List (String × β)}, l.lookup k = some x → (k, x) ∈ l
  | [], h => by simp [List.lookup] at h
  | (k', y) :: l, h => by
    by_cases hk : k = k'
    · subst hk
      simp [List.lookup] at h
      subst h
      exact List.mem_cons_self _ _
    · have hb : (k == k') = false := by simpa using hk
      simp only [List.lookup, hb] at h
      exact List.mem_cons_of_mem _ (mem_of_lookup_eq_some h)

theorem lookup_eq_some_of_nodup {β : Type} {k : String} {x : β} :
    ∀ {l : List (String × β)}, (l.map Prod.fst).Nodup → (k, x) ∈ l → l.lookup k = some x
  | [], _, h => by simp at h
  | (k', y) :: l, hn, h => by
    simp only [List.map_cons, List.nodup_cons] at hn
    rcases List.mem_cons.1 h with h1 | h1
    · cases h1
      simp [List.lookup]
    · have hk : k ≠ k' := by
        intro e
        exact hn.1 (List.mem_map.2 ⟨(k, x), h1, e⟩)
      have hb : (k == k') = false := by simpa using hk
      simp only [List.lookup, hb]
      exact lookup_eq_some_of_nodup hn.2 h1

theorem lookup_upsert {β : Type} (k : String) (x : β) (k' : String) :
    ∀ (ps : List (String × β)),
      (upsert ps k x).lookup k' = if k' = k then some x else ps.lookup k'
  | [] => by
    by_cases h : k' = k
    · simp [upsert, List.lookup, h]
    · have hb : (k' == k) = false := by simpa using h
      simp [upsert, List.lookup, h, hb]
  | (k0, y) :: ps => by
    simp only [upsert]
    by_cases h0 : k0 = k
    · subst h0
      by_cases h : k' = k0
      · simp [List.lookup, h]
      · have hb : (k' == k0) = false := by simpa using h
        simp [List.lookup, h, hb]
    · simp only [h0, if_false]
      by_cases h : k' = k0
      · subst h
        simp [List.lookup, h0]
      · have hb : (k' == k0) = false := by simpa using h
        simp only [List.lookup, hb]
        exact lookup_upsert k x k' ps

theorem lookup_upsertAll (g : String → Val) (k : String) :
    ∀ (ks : List String) (ps : List (String × Val)),
      (upsertAll g ks ps).lookup k = if k ∈ ks then some (g k) else ps.lookup k
  | [], ps => by simp [upsertAll]
  | k0 :: ks, ps => by
    simp only [upsertAll]
    rw [lookup_upsertAll g k ks, lookup_upsert]
    by_cases h1 : k ∈ ks
    · simp [h1]
    · by_cases h0 : k = k0
      · subst h0; simp
      · simp [h1, h0]

end Qpid

namespace Qpid

/-! ### Reading the heap -/

theorem entries_congr {h h1 : Heap} {a : Nat} (e : h1[a]? = h[a]?) :
    entries h1 (Val.ref a) = entries h (Val.ref a) := by
  simp only [entries, e]

theorem arrayElems_congr {h h1 : Heap} {a : Nat} (e : h1[a]? = h[a]?) :
    arrayElems h1 (Val.ref a) = arrayElems h (Val.ref a) := by
  simp only [arrayElems, e]

theorem entries_prim {v : Val} (hv : IsPrim v) (h h1 : Heap) : entries h1 v = entries h v := by
  cases v with
  | ref a => exact absurd rfl (hv a)
  | _ => rfl

theorem arrayElems_prim {v : Val} (hv : IsPrim v) (h : Heap) : arrayElems h v = none := by
  cases v with
  | ref a => exact absurd rfl (hv a)
  | _ => rfl

theorem entries_prim_keys {v : Val} (hv : IsPrim v) (h : Heap) :
    ∃ n, (entries h v).map Prod.fst = indexKeys n := by
  cases v with
  | ref a => exact absurd rfl (hv a)
  | str s =>
    refine ⟨s.length, ?_⟩
    simp only [entries]
    rw [List.map_fst_zip]
    rw [indexKeys_length, List.length_map]
    exact le_refl _
  | _ => exact ⟨0, rfl⟩

theorem entries_prim_vals {v : Val} (hv : IsPrim v) (h : Heap) :
    ∀ kx ∈ entries h v, IsPrim kx.2 := by
  cases v with
  | ref a => exact absurd rfl (hv a)
  | str s =>
    intro kx hkx
    simp only [entries] at hkx
    have := (List.of_mem_zip hkx).2
    rcases List.mem_map.1 this with ⟨c, _, hc⟩
    intro a e
    rw [← hc] at e
    cases e
  | _ => intro kx hkx; simp [entries] at hkx

theorem entries_of_arrayElems {h : Heap} {v : Val} {es : List Val}
    (e : arrayElems h v = some es) : entries h v = (indexKeys es.length).zip es := by
  cases v with
  | ref a =>
    simp only [arrayElems] at e
    simp only [entries]
    split at e
    · rename_i es' he
      cases e
      simp [he]
    · cases e
  | _ => simp [arrayElems] at e

theorem getProp_undef_or_mem (h : Heap) (v : Val) (k : String) :
    getProp h v k = Val.undef ∨ (k, getProp h v k) ∈ entries h v := by
  unfold getProp
  cases e : (entries h v).lookup k with
  | none => exact Or.inl rfl
  | some x => exact Or.inr (mem_of_lookup_eq_some e)

/-! ### Address ranges -/

theorem chain_bounds {P : Nat → Nat → Val → Prop} (hP : ∀ l r v, P l r v → l ≤ r) :
    ∀ (ts : List Target) (lo hi : Nat), Chain P lo hi ts →
      lo ≤ hi ∧ ∀ t ∈ ts, lo ≤ t.lo ∧ t.lo ≤ t.hi ∧ t.hi ≤ hi ∧ P t.lo t.hi t.val
  | [], lo, hi, hc => by
    simp only [Chain] at hc
    exact ⟨by omega, by simp⟩
  | t :: ts, lo, hi, hc => by
    simp only [Chain] at hc
    obtain ⟨h1, h2, h3⟩ := hc
    have ih := chain_bounds hP ts t.hi hi h3
    have := hP _ _ _ h2
    refine ⟨by omega, ?_⟩
    intro t' ht'
    rcases List.mem_cons.1 ht' with rfl | ht'
    · exact ⟨by omega, this, ih.1, h2⟩
    · have := ih.2 t' ht'
      exact ⟨by omega, this.2.1, this.2.2.1, this.2.2.2⟩

theorem chain_pairwise {P : Nat → Nat → Val → Prop} (hP : ∀ l r v, P l r v → l ≤ r) :
    ∀ (ts : List Target) (lo hi : Nat), Chain P lo hi ts →
      ts.Pairwise (fun a b => a.hi ≤ b.lo)
  | [], _, _, _ => List.Pairwise.nil
  | t :: ts, lo, hi, hc => by
    simp only [Chain] at hc
    obtain ⟨_, _, h3⟩ := hc
    refine List.Pairwise.cons ?_ (chain_pairwise hP ts t.hi hi h3)
    intro t' ht'
    exact ((chain_bounds hP ts t.hi hi h3).2 t' ht').1

theorem chain_imp {P Q : Nat → Nat → Val → Prop} (hP : ∀ l r v, P l r v → l ≤ r) :
    ∀ (ts : List Target) (lo hi : Nat),
      (∀ l r v, lo ≤ l → r ≤ hi → P l r v → Q l r v) → Chain P lo hi ts → Chain Q lo hi ts
  | [], _, _, _, hc => hc
  | t :: ts, lo, hi, hPQ, hc => by
    simp only [Chain] at hc ⊢
    obtain ⟨h1, h2, h3⟩ := hc
    have hb := chain_bounds hP ts t.hi hi h3
    have hle := hP _ _ _ h2
    refine ⟨h1, hPQ _ _ _ (by omega) hb.1 h2, ?_⟩
    exact chain_imp hP ts t.hi hi (fun l r v hl hr hp => hPQ l r v (by omega) hr hp) h3

theorem treeAt_le (h : Heap) : ∀ (n lo hi : Nat) (v : Val), TreeAt h n lo hi v → lo ≤ hi
  | 0, lo, hi, v, ht => by
    simp only [TreeAt] at ht
    omega
  | n + 1, lo, hi, v, ht => by
    simp only [TreeAt] at ht
    rcases ht with ⟨e, _⟩ | ⟨a, ts, _, e, _, _, _, hc⟩
    · omega
    · have := (chain_bounds (fun l r v => treeAt_le h n l r v) ts lo a hc).1
      omega

theorem treeAt_prim (h : Heap) {v : Val} (hv : IsPrim v) (lo : Nat) : ∀ n, TreeAt h n lo lo v
  | 0 => by unfold TreeAt; exact ⟨rfl, hv⟩
  | n + 1 => by unfold TreeAt; exact Or.inl ⟨rfl, hv⟩

theorem treeAt_mono (h : Heap) : ∀ (n lo hi : Nat) (v : Val),
    TreeAt h n lo hi v → TreeAt h (n + 1) lo hi v
  | 0, lo, hi, v, ht => by
    simp only [TreeAt] at ht ⊢
    exact Or.inl ht
  | n + 1, lo, hi, v, ht => by
    rw [TreeAt] at ht ⊢
    rcases ht with hp | ⟨a, ts, e1, e2, e3, e4, e5, hc⟩
    · exact Or.inl hp
    · refine Or.inr ⟨a, ts, e1, e2, e3, e4, e5, ?_⟩
      exact chain_imp (fun l r v => treeAt_le h n l r v) ts lo a
        (fun l r v _ _ hp => treeAt_mono h n l r v hp) hc

theorem treeAt_frame {h h1 : Heap} : ∀ (n lo hi : Nat) (v : Val),
    TreeAt h n lo hi v → (∀ i, lo ≤ i → i < hi → h1[i]? = h[i]?) → TreeAt h1 n lo hi v
  | 0, lo, hi, v, ht, _ => by
    simp only [TreeAt] at ht ⊢
    exact ht
  | n + 1, lo, hi, v, ht, hag => by
    rw [TreeAt] at ht ⊢
    rcases ht with hp | ⟨a, ts, e1, e2, e3, e4, e5, hc⟩
    · exact Or.inl hp
    · have hla := (chain_bounds (fun l r v => treeAt_le h n l r v) ts lo a hc).1
      refine Or.inr ⟨a, ts, e1, e2, ?_, e4, e5, ?_⟩
      · rw [entries_congr (hag a hla (by omega))]
        exact e3
      · exact chain_imp (fun l r v => treeAt_le h n l r v) ts lo a
          (fun l r v hl hr hp => treeAt_frame n l r v hp
            (fun i hi1 hi2 => hag i (by omega) (by omega))) hc

theorem chain_frame {h h1 : Heap} {n : Nat} (ts : List Target) (lo hi : Nat)
    (hc : Chain (TreeAt h n) lo hi ts) (hag : ∀ i, lo ≤ i → i < hi → h1[i]? = h[i]?) :
    Chain (TreeAt h1 n) lo hi ts :=
  chain_imp (fun l r v => treeAt_le h n l r v) ts lo hi
    (fun l r v hl hr hp => treeAt_frame n l r v hp
      (fun i hi1 hi2 => hag i (by omega) (by omega))) hc

/-- The root of a tree is a primitive or an address of its range. -/
theorem treeAt_root {h : Heap} {n lo hi : Nat} {v : Val} (ht : TreeAt h n lo hi v) :
    IsPrim v ∨ ∃ a, v = Val.ref a ∧ lo ≤ a ∧ a < hi := by
  cases n with
  | zero =>
    simp only [TreeAt] at ht
    exact Or.inl ht.2
  | succ n =>
    rw [TreeAt] at ht
    rcases ht with hp | ⟨a, ts, e1, e2, e3, e4, e5, hc⟩
    · exact Or.inl hp.2
    · have hla := (chain_bounds (fun l r v => treeAt_le h n l r v) ts lo a hc).1
      exact Or.inr ⟨a, e1, hla, by omega⟩

/-- The entries of the root of a tree are determined by the cells of its range. -/
theorem entries_frame {h0 h h1 : Heap} {n lo hi : Nat} {v : Val} (ht : TreeAt h0 n lo hi v)
    (hag : ∀ i, lo ≤ i → i < hi → h1[i]? = h[i]?) : entries h1 v = entries h v := by
  rcases treeAt_root ht with hp | ⟨a, e, h1a, h2a⟩
  · exact entries_prim hp h h1
  · subst e
    exact entries_congr (hag a h1a h2a)

theorem arrayElems_frame {h0 h h1 : Heap} {n lo hi : Nat} {v : Val} (ht : TreeAt h0 n lo hi v)
    (hag : ∀ i, lo ≤ i → i < hi → h1[i]? = h[i]?) : arrayElems h1 v = arrayElems h v := by
  rcases treeAt_root ht with hp | ⟨a, e, h1a, h2a⟩
  · rw [arrayElems_prim hp, arrayElems_prim hp]
  · subst e
    exact arrayElems_congr (hag a h1a h2a)

/-- The children of the root of a tree: its entries with their ranges. -/
theorem treeAt_children {h : Heap} {n lo hi : Nat} {v : Val} (ht : TreeAt h (n + 1) lo hi v) :
    ∃ ts : List Target, entries h v = ts.map Target.kv ∧ (ts.map Target.key).Nodup ∧
      (∀ k ∈ ts.map Target.key, plainKey k = true) ∧
      ts.Pairwise (fun a b => a.hi ≤ b.lo) ∧
      ∀ t ∈ ts, lo ≤ t.lo ∧ t.hi ≤ hi ∧ TreeAt h n t.lo t.hi t.val := by
  rw [TreeAt] at ht
  rcases ht with hp | ⟨a, ts, e1, e2, e3, e4, e5, hc⟩
  · have hk := entries_prim_keys hp.2 h
    have hvals := entries_prim_vals hp.2 h
    obtain ⟨m, hm⟩ := hk
    have hkeys : ((entries h v).map (fun kx => (⟨kx.1, kx.2, lo, lo⟩ : Target))).map Target.key
        = indexKeys m := by
      rw [List.map_map]
      have : (Target.key ∘ fun kx : String × Val => (⟨kx.1, kx.2, lo, lo⟩ : Target)) = Prod.fst := rfl
      rw [this, hm]
    refine ⟨(entries h v).map (fun kx => ⟨kx.1, kx.2, lo, lo⟩), ?_, ?_, ?_, ?_, ?_⟩
    · rw [List.map_map]
      conv_lhs => rw [← List.map_id (entries h v)]
      apply List.map_congr_left
      intro kx _
      rfl
    · rw [hkeys]
      exact indexKeys_nodup m
    · rw [hkeys]
      exact plainKey_indexKeys m
    · rw [List.pairwise_map]
      exact List.pairwise_of_forall (fun _ _ => le_refl lo)
    · intro t ht
      rcases List.mem_map.1 ht with ⟨kx, hkx, rfl⟩
      have hlh := hp.1
      refine ⟨le_refl _, ?_, treeAt_prim h (hvals kx hkx) lo n⟩
      show lo ≤ hi
      omega
  · have hb := chain_bounds (fun l r v => treeAt_le h n l r v) ts lo a hc
    subst e1
    refine ⟨ts, e3, e4, e5, chain_pairwise (fun l r v => treeAt_le h n l r v) ts lo a hc, ?_⟩
    intro t ht
    have := hb.2 t ht
    exact ⟨this.1, by omega, this.2.2.2⟩

end Qpid

namespace Qpid

/-! ### The postcondition depends on the range of the tree only -/

theorem all_congr_mem {α : Type} {f g : α → Bool} :
    ∀ {l : List α}, (∀ x ∈ l, f x = g x) → l.all f = l.all g
  | [], _ => rfl
  | x :: l, h => by
    simp only [List.all_cons]
    rw [h x (List.mem_cons_self _ _), all_congr_mem (fun y hy => h y (List.mem_cons_of_mem _ hy))]

theorem mem_zip_of_mem_right {α β : Type} {y : β} :
    ∀ {l1 : List α} {l2 : List β}, l1.length = l2.length → y ∈ l2 → ∃ x, (x, y) ∈ l1.zip l2
  | [], [], _, h => by simp at h
  | [], _ :: _, hl, _ => by simp at hl
  | _ :: _, [], hl, _ => by simp at hl
  | x :: l1, y' :: l2, hl, h => by
    rcases List.mem_cons.1 h with rfl | h
    · exact ⟨x, by simp⟩
    · obtain ⟨x', hx'⟩ := mem_zip_of_mem_right (by simpa using hl) h
      exact ⟨x', by simp [hx']⟩

/-- A child of the root of a tree, found by its entry. -/
theorem treeAt_child {h : Heap} {n lo hi : Nat} {v : Val} (ht : TreeAt h n lo hi v)
    {kx : String × Val} (hkx : kx ∈ entries h v) :
    ∃ l r, lo ≤ l ∧ r ≤ hi ∧ TreeAt h n l r kx.2 := by
  obtain ⟨ts, e, _, _, _, hts⟩ := treeAt_children (treeAt_mono h n lo hi v ht)
  rw [e] at hkx
  rcases List.mem_map.1 hkx with ⟨t, ht1, rfl⟩
  have := hts t ht1
  exact ⟨t.lo, t.hi, this.1, this.2.1, this.2.2⟩

/-- An element of an array that is the root of a tree. -/
theorem treeAt_elem {h : Heap} {n lo hi : Nat} {v : Val} (ht : TreeAt h n lo hi v)
    {es : List Val} (he : arrayElems h v = some es) {e : Val} (hm : e ∈ es) :
    ∃ l r, lo ≤ l ∧ r ≤ hi ∧ TreeAt h n l r e := by
  have hen := entries_of_arrayElems he
  obtain ⟨k, hk⟩ := mem_zip_of_mem_right (indexKeys_length es.length) hm
  rw [← hen] at hk
  exact treeAt_child ht hk

theorem getProp_frame {h0 h h1 : Heap} {n lo hi : Nat} {v : Val} (ht : TreeAt h0 n lo hi v)
    (hag : ∀ i, lo ≤ i → i < hi → h1[i]? = h[i]?) (k : String) : getProp h1 v k = getProp h v k := by
  unfold getProp
  rw [entries_frame ht hag]

/-- The statistics value of the root of a tree is the root of a tree of the range. -/
theorem treeAt_statistics {h : Heap} {n lo hi : Nat} {v : Val} (ht : TreeAt h n lo hi v) (k : String) :
    ∃ l r, lo ≤ l ∧ r ≤ hi ∧ TreeAt h n l r (getProp h v k) := by
  rcases getProp_undef_or_mem h v k with e | hm
  · rw [e]
    exact ⟨lo, lo, le_refl _, treeAt_le h n lo hi v ht, treeAt_prim h (fun a e => by cases e) lo n⟩
  · exact treeAt_child ht hm

theorem statisticsAtTop_frame {h0 h1 h0' h1' : Heap} {n lo hi : Nat} {v : Val}
    (ht : TreeAt h0 n lo hi v)
    (hag0 : ∀ i, lo ≤ i → i < hi → h0'[i]? = h0[i]?)
    (hag1 : ∀ i, lo ≤ i → i < hi → h1'[i]? = h1[i]?) :
    statisticsAtTop h0' h1' v = statisticsAtTop h0 h1 v := by
  obtain ⟨l, r, hl, hr, hs⟩ := treeAt_statistics ht "statistics"
  have e1 : getProp h0' v "statistics" = getProp h0 v "statistics" := getProp_frame ht hag0 _
  have e2 : entries h0' (getProp h0 v "statistics") = entries h0 (getProp h0 v "statistics") :=
    entries_frame hs (fun i hi1 hi2 => hag0 i (by omega) (by omega))
  have e3 : entries h1' v = entries h1 v := entries_frame ht hag1
  unfold statisticsAtTop
  rw [e1]
  generalize getProp h0 v "statistics" = sv at e2
  unfold ownKeys ownsKey getProp
  rw [e2, e3]

theorem flattened_frame : ∀ (k n : Nat) (h0 h1 h0' h1' : Heap) (lo hi : Nat) (v : Val),
    TreeAt h0 n lo hi v →
    (∀ i, lo ≤ i → i < hi → h0'[i]? = h0[i]?) →
    (∀ i, lo ≤ i → i < hi → h1'[i]? = h1[i]?) →
    flattened h0' h1' k v = flattened h0 h1 k v
  | 0, n, h0, h1, h0', h1', lo, hi, v, ht, hag0, hag1 => by
    simp only [flattened]
    exact statisticsAtTop_frame ht hag0 hag1
  | k + 1, n, h0, h1, h0', h1', lo, hi, v, ht, hag0, hag1 => by
    simp only [flattened]
    rw [statisticsAtTop_frame ht hag0 hag1]
    congr 1
    obtain ⟨l, r, hl, hr, hs⟩ := treeAt_statistics ht "statistics"
    have e1 : getProp h0' v "statistics" = getProp h0 v "statistics" := getProp_frame ht hag0 _
    have e2 : ownKeys h0' (getProp h0 v "statistics") = ownKeys h0 (getProp h0 v "statistics") := by
      unfold ownKeys
      rw [entries_frame hs (fun i hi1 hi2 => hag0 i (by omega) (by omega))]
    rw [entries_frame ht hag0, e1, e2]
    apply all_congr_mem
    intro kx hkx
    obtain ⟨l1, r1, hl1, hr1, hc⟩ := treeAt_child ht hkx
    have e3 : arrayElems h0' kx.2 = arrayElems h0 kx.2 :=
      arrayElems_frame hc (fun i hi1 hi2 => hag0 i (by omega) (by omega))
    rw [e3]
    split
    · rfl
    · cases he : arrayElems h0 kx.2 with
      | none => rfl
      | some es =>
        simp only
        apply all_congr_mem
        intro e hm
        obtain ⟨l2, r2, hl2, hr2, hce⟩ := treeAt_elem hc he hm
        exact flattened_frame k n h0 h1 h0' h1' l2 r2 e hce
          (fun i hi1 hi2 => hag0 i (by omega) (by omega))
          (fun i hi1 hi2 => hag1 i (by omega) (by omega))

/-! ### Running a loop over disjoint ranges -/

theorem foldlM_map_option {α β σ : Type} (g : α → β) (f : σ → β → Option σ) :
    ∀ (l : List α) (s : σ), (l.map g).foldlM f s = l.foldlM (fun s a => f s (g a)) s
  | [], _ => rfl
  | a :: l, s => by
    simp only [List.map_cons, List.foldlM_cons]
    cases f s (g a) with
    | none => rfl
    | some s1 => exact foldlM_map_option g f l s1

theorem foldlM_regions {ι : Type} (f : Heap → ι → Option Heap) (lo hi : ι → Nat)
    (Out : Nat → Prop) (Pre : Heap → ι → Prop) (Post : Heap → Heap → ι → Prop)
    (run : ∀ h t, Pre h t → ∃ h1, f h t = some h1 ∧ h1.length = h.length ∧
      (∀ i, ¬(lo t ≤ i ∧ i < hi t) → h1[i]? = h[i]?) ∧ Post h h1 t)
    (preStable : ∀ h h1 t, Pre h t → (∀ i, lo t ≤ i → i < hi t → h1[i]? = h[i]?) →
      (∀ i, Out i → h1[i]? = h[i]?) → Pre h1 t)
    (postStable : ∀ h0 h1 h0' h1' t, Pre h0 t → Post h0 h1 t →
      (∀ i, lo t ≤ i → i < hi t → h0'[i]? = h0[i]?) →
      (∀ i, lo t ≤ i → i < hi t → h1'[i]? = h1[i]?) → Post h0' h1' t) :
    ∀ (ts : List ι) (h : Heap), (∀ t ∈ ts, Pre h t) →
      (∀ t ∈ ts, ∀ i, Out i → ¬(lo t ≤ i ∧ i < hi t)) →
      ts.Pairwise (fun a b => hi a ≤ lo b ∨ hi b ≤ lo a) →
      ∃ h1, ts.foldlM f h = some h1 ∧ h1.length = h.length ∧
        (∀ i, (∀ t ∈ ts, ¬(lo t ≤ i ∧ i < hi t)) → h1[i]? = h[i]?) ∧
        ∀ t ∈ ts, Post h h1 t
  | [], h, _, _, _ => ⟨h, rfl, rfl, fun _ _ => rfl, by simp⟩
  | t :: ts, h, hpre, hout, hpw => by
    obtain ⟨h1, e1, len1, fr1, post1⟩ := run h t (hpre t (List.mem_cons_self _ _))
    rw [List.pairwise_cons] at hpw
    have hpre1 : ∀ t' ∈ ts, Pre h1 t' := by
      intro t' ht'
      refine preStable h h1 t' (hpre t' (List.mem_cons_of_mem _ ht')) ?_ ?_
      · intro i hi1 hi2
        apply fr1
        have := hpw.1 t' ht'
        omega
      · intro i hi
        exact fr1 i (hout t (List.mem_cons_self _ _) i hi)
    obtain ⟨h2, e2, len2, fr2, post2⟩ := foldlM_regions f lo hi Out Pre Post run preStable
      postStable ts h1 hpre1 (fun t' ht' => hout t' (List.mem_cons_of_mem _ ht')) hpw.2
    refine ⟨h2, ?_, by omega, ?_, ?_⟩
    · simp only [List.foldlM_cons, e1]
      exact e2
    · intro i hi
      rw [fr2 i (fun t' ht' => hi t' (List.mem_cons_of_mem _ ht'))]
      exact fr1 i (hi t (List.mem_cons_self _ _))
    · intro t' ht'
      rcases List.mem_cons.1 ht' with rfl | ht'
      · refine postStable h h1 h h2 t' (hpre t' (List.mem_cons_self _ _)) post1 (fun _ _ _ => rfl) ?_
        intro i hi1 hi2
        apply fr2
        intro t'' ht''
        have := hpw.1 t'' ht''
        omega
      · refine postStable h1 h2 h h2 t' (hpre1 t' ht') (post2 t' ht') ?_ (fun _ _ _ => rfl)
        intro i hi1 hi2
        symm
        apply fr1
        have := hpw.1 t' ht'
        omega

theorem flattenStatistics_succ (m : Nat) (h : Heap) (data : Val) :
    flattenStatistics (m + 1) h data
      = (ownKeys h data).foldlM (attrStep (flattenStatistics m) data) h := rfl

end Qpid

namespace Qpid

/-! ### The loops of `flattenStatistics` -/

theorem flatten_elems {m n : Nat} (IH : FlattensAt m n) (ts : List Target) (h : Heap)
    (lo hi : Nat) (hc : Chain (TreeAt h n) lo hi ts) :
    ∃ h1, (ts.map Target.val).foldlM (fun h e => flattenStatistics m h e) h = some h1 ∧
      h1.length = h.length ∧ (∀ i, ¬(lo ≤ i ∧ i < hi) → h1[i]? = h[i]?) ∧
      ∀ t ∈ ts, ∀ k, flattened h h1 k t.val = true := by
  have hb := chain_bounds (fun l r v => treeAt_le h n l r v) ts lo hi hc
  have hpw := chain_pairwise (fun l r v => treeAt_le h n l r v) ts lo hi hc
  obtain ⟨h1, e, len, fr, post⟩ := foldlM_regions
    (fun h t => flattenStatistics m h t.val) Target.lo Target.hi (fun _ => False)
    (fun h t => TreeAt h n t.lo t.hi t.val)
    (fun h h1 t => ∀ k, flattened h h1 k t.val = true)
    (fun h t hpre => IH h t.lo t.hi t.val hpre)
    (fun h h1 t hpre hag _ => treeAt_frame n t.lo t.hi t.val hpre hag)
    (fun h0 h1 h0' h1' t hpre hpost hag0 hag1 k => by
      rw [flattened_frame k n h0 h1 h0' h1' t.lo t.hi t.val hpre hag0 hag1]
      exact hpost k)
    ts h (fun t ht => (hb.2 t ht).2.2.2) (fun _ _ _ hf => hf.elim)
    (hpw.imp (fun hab => Or.inl hab))
  refine ⟨h1, ?_, len, ?_, post⟩
  · rw [foldlM_map_option]
    exact e
  · intro i hi
    apply fr
    intro t ht
    have := hb.2 t ht
    omega

theorem visit_array {m n : Nat} (IH : FlattensAt m n) (h : Heap) (lo hi : Nat) (x : Val)
    (ht : TreeAt h (n + 1) lo hi x) :
    ∃ h1, (match arrayElems h x with
        | some theList => theList.foldlM (fun h e => flattenStatistics m h e) h
        | none => some h) = some h1 ∧
      h1.length = h.length ∧ (∀ i, ¬(lo ≤ i ∧ i < hi) → h1[i]? = h[i]?) ∧
      ∀ es, arrayElems h x = some es → ∀ e ∈ es, ∀ k, flattened h h1 k e = true := by
  cases he : arrayElems h x with
  | none => exact ⟨h, rfl, rfl, fun _ _ => rfl, fun es e => by cases e⟩
  | some es =>
    rw [TreeAt] at ht
    rcases ht with hp | ⟨a, ts, e1, e2, e3, e4, e5, hc⟩
    · rw [arrayElems_prim hp.2] at he
      cases he
    · subst e1
      have hen := entries_of_arrayElems he
      have hes : es = ts.map Target.val := by
        have := congrArg (List.map Prod.snd) (hen.symm.trans e3)
        rw [List.map_snd_zip _ _ (by rw [indexKeys_length]), List.map_map] at this
        exact this
      obtain ⟨h1, e, len, fr, post⟩ := flatten_elems IH ts h lo a hc
      refine ⟨h1, ?_, len, ?_, ?_⟩
      · simp only
        rw [hes]
        exact e
      · intro i hi
        apply fr
        omega
      · intro es' hes' e' he' k
        cases hes'
        rw [hes] at he'
        rcases List.mem_map.1 he' with ⟨t, ht, rfl⟩
        exact post t ht k

theorem entries_of_fixed {h h1 : Heap} {data : Val}
    (hag : ∀ i, data = Val.ref i → h1[i]? = h[i]?) : entries h1 data = entries h data := by
  cases data with
  | ref a => exact entries_congr (hag a rfl)
  | _ => rfl

theorem visit_targets {m n : Nat} (IH : FlattensAt m n) (data : Val) (ts : List Target)
    (h : Heap)
    (hpre : ∀ t ∈ ts, (ownsKey h data "hasOwnProperty" = false ∧ t.key ≠ "statistics") ∧
      (entries h data).lookup t.key = some t.val ∧ TreeAt h (n + 1) t.lo t.hi t.val)
    (hout : ∀ t ∈ ts, ∀ i, data = Val.ref i → ¬(t.lo ≤ i ∧ i < t.hi))
    (hpw : ts.Pairwise (fun a b => a.hi ≤ b.lo ∨ b.hi ≤ a.lo)) :
    ∃ h1, (ts.map Target.key).foldlM (attrStep (flattenStatistics m) data) h = some h1 ∧
      h1.length = h.length ∧
      (∀ i, (∀ t ∈ ts, ¬(t.lo ≤ i ∧ i < t.hi)) → h1[i]? = h[i]?) ∧
      ∀ t ∈ ts, ∀ es, arrayElems h t.val = some es → ∀ e ∈ es, ∀ k, flattened h h1 k e = true := by
  obtain ⟨h1, e, len, fr, post⟩ := foldlM_regions
    (fun h t => attrStep (flattenStatistics m) data h t.key) Target.lo Target.hi
    (fun i => data = Val.ref i)
    (fun h t => (ownsKey h data "hasOwnProperty" = false ∧ t.key ≠ "statistics") ∧
      (entries h data).lookup t.key = some t.val ∧ TreeAt h (n + 1) t.lo t.hi t.val)
    (fun h h1 t => ∀ es, arrayElems h t.val = some es → ∀ e ∈ es, ∀ k, flattened h h1 k e = true)
    (fun h t hp => by
      obtain ⟨⟨hno, hk⟩, hl, htree⟩ := hp
      have hown : hasOwnProperty h data t.key = some true := by
        unfold hasOwnProperty
        rw [hno]
        unfold ownsKey
        rw [hl]
        rfl
      have hget : getProp h data t.key = t.val := by
        unfold getProp
        rw [hl]
        rfl
      beta_reduce
      unfold attrStep
      rw [hown]
      simp only
      rw [if_neg hk, hget]
      exact visit_array IH h t.lo t.hi t.val htree)
    (fun h h1 t hp hag hfix => by
      obtain ⟨⟨hno, hk⟩, hl, htree⟩ := hp
      refine ⟨⟨?_, hk⟩, ?_, treeAt_frame (n + 1) t.lo t.hi t.val htree hag⟩
      · unfold ownsKey
        rw [entries_of_fixed hfix]
        exact hno
      · rw [entries_of_fixed hfix]
        exact hl)
    (fun h0 h1 h0' h1' t hp hpost hag0 hag1 es hes e he k => by
      obtain ⟨_, hl, htree⟩ := hp
      have hes0 : arrayElems h0 t.val = some es := by
        rw [← arrayElems_frame htree hag0]
        exact hes
      obtain ⟨l, r, hl1, hr1, hte⟩ := treeAt_elem htree hes0 he
      rw [flattened_frame k (n + 1) h0 h1 h0' h1' l r e hte
        (fun i hi1 hi2 => hag0 i (by omega) (by omega))
        (fun i hi1 hi2 => hag1 i (by omega) (by omega))]
      exact hpost es hes0 e he k)
    ts h hpre hout hpw
  refine ⟨h1, ?_, len, fr, post⟩
  rw [foldlM_map_option]
  exact e

theorem set_eq_self_of_getElem? {α : Type} :
    ∀ {l : List α} {i : Nat} {c : α}, l[i]? = some c → l.set i c = l
  | [], _, _, h => by simp at h
  | x :: l, 0, c, h => by
    simp at h
    simp [h]
  | x :: l, i + 1, c, h => by
    simp at h
    simp [set_eq_self_of_getElem? h]

theorem copy_loop (h : Heap) (d : Nat) (sv : Val) (hd : d < h.length)
    (hsv : ∀ c, entries (h.set d c) sv = entries h sv)
    (hno : ownsKey h sv "hasOwnProperty" = false) :
    ∀ (ks : List String) (ps : List (String × Val)),
      (∀ k ∈ ks, k ∈ ownKeys h sv ∧ k ≠ "__proto__") →
      ks.foldlM (fun h propName =>
          match hasOwnProperty h sv propName with
          | none => none
          | some true => setProp h (Val.ref d) propName (getProp h sv propName)
          | some false => some h) (h.set d (Cell.obj ps))
        = some (h.set d (Cell.obj (upsertAll (getProp h sv) ks ps)))
  | [], ps, _ => rfl
  | k :: ks, ps, hks => by
    have hown : hasOwnProperty (h.set d (Cell.obj ps)) sv k = some true := by
      unfold hasOwnProperty ownsKey
      rw [hsv]
      unfold ownsKey at hno
      rw [hno, lookup_isSome_of_mem_keys (hks k (List.mem_cons_self _ _)).1]
      rfl
    have hget : getProp (h.set d (Cell.obj ps)) sv k = getProp h sv k := by
      unfold getProp
      rw [hsv]
    have hcell : (h.set d (Cell.obj ps))[d]? = some (Cell.obj ps) := by
      rw [List.getElem?_set_self]
      simp [hd]
    simp only [List.foldlM_cons, hown, hget, setProp, hcell, List.set_set,
      if_neg (hks k (List.mem_cons_self _ _)).2]
    exact copy_loop h d sv hd hsv hno ks _ (fun k' hk' => hks k' (List.mem_cons_of_mem _ hk'))

theorem copyStatistics_eq (h : Heap) (d : Nat) (sv : Val) (ps : List (String × Val))
    (hcell : h[d]? = some (Cell.obj ps))
    (hsv : ∀ c, entries (h.set d c) sv = entries h sv)
    (hno : ownsKey h sv "hasOwnProperty" = false)
    (hkeys : ∀ k ∈ ownKeys h sv, k ≠ "__proto__") :
    copyStatistics (Val.ref d) sv h
      = some (h.set d (Cell.obj (upsertAll (getProp h sv) (ownKeys h sv) ps))) := by
  have hd : d < h.length := by
    by_contra hn
    rw [List.getElem?_eq_none (by omega)] at hcell
    cases hcell
  have := copy_loop h d sv hd hsv hno (ownKeys h sv) ps (fun k hk => ⟨hk, hkeys k hk⟩)
  rw [set_eq_self_of_getElem? hcell] at this
  exact this

end Qpid

namespace Qpid

/-! ### `flattenStatistics` on the nodes of a tree -/

theorem foldlM_fixed {α σ : Type} (f : σ → α → Option σ) (s : σ) :
    ∀ (l : List α), (∀ a ∈ l, f s a = some s) → l.foldlM f s = some s
  | [], _ => rfl
  | a :: l, h => by
    simp only [List.foldlM_cons, h a (List.mem_cons_self _ _)]
    exact foldlM_fixed f s l (fun b hb => h b (List.mem_cons_of_mem _ hb))

theorem getProp_prim {v : Val} (hv : IsPrim v) (h : Heap) (k : String) :
    IsPrim (getProp h v k) := by
  rcases getProp_undef_or_mem h v k with e | hm
  · rw [e]
    intro a e
    cases e
  · exact entries_prim_vals hv h _ hm

theorem getProp_statistics_prim {v : Val} (hv : IsPrim v) (h : Heap) :
    getProp h v "statistics" = Val.undef := by
  obtain ⟨n, hn⟩ := entries_prim_keys hv h
  unfold getProp
  rw [lookup_eq_none_of_not_mem_keys (by rw [hn]; exact statistics_not_mem_indexKeys n)]
  rfl

theorem statisticsAtTop_of_undef {h h1 : Heap} {v : Val}
    (e : getProp h v "statistics" = Val.undef) : statisticsAtTop h h1 v = true := by
  unfold statisticsAtTop
  rw [e]
  rfl

theorem flattened_of_rec {h h1 : Heap} {v : Val} (htop : statisticsAtTop h h1 v = true)
    (hrec : ∀ kx ∈ entries h v, kx.1 ≠ "statistics" →
      kx.1 ∉ ownKeys h (getProp h v "statistics") →
      ∀ es, arrayElems h kx.2 = some es → ∀ e ∈ es, ∀ k, flattened h h1 k e = true) :
    ∀ k, flattened h h1 k v = true
  | 0 => by simp only [flattened]; exact htop
  | k + 1 => by
    simp only [flattened, htop, Bool.true_and, List.all_eq_true]
    intro kx hkx
    split
    · rfl
    · rename_i hcond
      simp only [Bool.or_eq_true, decide_eq_true_eq, List.contains_eq_any_beq, List.any_eq_true,
        beq_iff_eq, not_or, not_exists, not_and] at hcond
      have hk2 : kx.1 ∉ ownKeys h (getProp h v "statistics") := by
        intro hm
        exact hcond.2 kx.1 hm rfl
      cases he : arrayElems h kx.2 with
      | none => rfl
      | some es =>
        simp only [List.all_eq_true]
        intro e hm
        exact hrec kx hkx hcond.1 hk2 es he e hm k

theorem flatten_prim (m : Nat) (h : Heap) {v : Val} (hv : IsPrim v) :
    flattenStatistics (m + 1) h v = some h ∧ ∀ k, flattened h h k v = true := by
  constructor
  · rw [flattenStatistics_succ]
    apply foldlM_fixed
    intro k hk
    obtain ⟨n, hn⟩ := entries_prim_keys hv h
    have hne : k ≠ "statistics" := by
      intro e
      subst e
      unfold ownKeys at hk
      rw [hn] at hk
      exact statistics_not_mem_indexKeys n hk
    have hno : ownsKey h v "hasOwnProperty" = false := by
      unfold ownsKey
      rw [lookup_eq_none_of_not_mem_keys]
      · rfl
      · rw [hn]
        intro hm
        exact (plainKey_ne (plainKey_indexKeys n _ hm)).1 rfl
    unfold attrStep hasOwnProperty
    rw [hno, if_neg hne, arrayElems_prim (getProp_prim hv h k)]
    simp only [Bool.false_eq_true, if_false]
    split <;> first | rfl | contradiction
  · apply flattened_of_rec (statisticsAtTop_of_undef (getProp_statistics_prim hv h))
    intro kx hkx _ _ es he
    rw [arrayElems_prim (entries_prim_vals hv h kx hkx)] at he
    cases he

theorem ownsKey_of_plain {h : Heap} {v : Val} {ts : List Target}
    (e : entries h v = ts.map Target.kv) (hp : ∀ k ∈ ts.map Target.key, plainKey k = true) :
    ownsKey h v "hasOwnProperty" = false := by
  unfold ownsKey
  rw [lookup_eq_none_of_not_mem_keys]
  · rfl
  · rw [e, List.map_map]
    intro hm
    exact (plainKey_ne (hp _ hm)).1 rfl

theorem map_kv_fst (ts : List Target) : (ts.map Target.kv).map Prod.fst = ts.map Target.key := by
  rw [List.map_map]
  rfl

theorem lookup_target {ts : List Target} (hn : (ts.map Target.key).Nodup) {t : Target}
    (ht : t ∈ ts) : (ts.map Target.kv).lookup t.key = some t.val :=
  lookup_eq_some_of_nodup (by rw [map_kv_fst]; exact hn) (List.mem_map.2 ⟨t, ht, rfl⟩)

/-- A cell with a `statistics` property is an object. -/
theorem cell_of_statistics {h : Heap} {a : Nat} {ts : List Target}
    (e : entries h (Val.ref a) = ts.map Target.kv) (hs : "statistics" ∈ ts.map Target.key) :
    h[a]? = some (Cell.obj (ts.map Target.kv)) := by
  have hk : "statistics" ∈ (entries h (Val.ref a)).map Prod.fst := by
    rw [e, map_kv_fst]
    exact hs
  simp only [entries] at e hk
  split at e
  · rename_i ps hps
    rw [hps, e]
  · rename_i es hes
    rw [hes] at hk
    simp only at hk
    rw [List.map_fst_zip _ _ (by rw [indexKeys_length])] at hk
    exact absurd hk (statistics_not_mem_indexKeys _)
  · rename_i hnone
    rw [hnone] at hk
    simp at hk

end Qpid

namespace Qpid

theorem retarget_key (sts : List Target) (t : Target) : (retarget sts t).key = t.key := by
  unfold retarget
  split <;> rfl

theorem retarget_cases (sts : List Target) (t : Target) :
    (retarget sts t = t ∧ t.key ∉ sts.map Target.key) ∨
    ∃ s ∈ sts, s.key = t.key ∧ retarget sts t = ⟨t.key, s.val, s.lo, s.hi⟩ := by
  unfold retarget
  cases hf : sts.find? (fun s => s.key == t.key) with
  | none =>
    left
    refine ⟨rfl, ?_⟩
    intro hm
    rcases List.mem_map.1 hm with ⟨s, hs, hk⟩
    have := List.find?_eq_none.1 hf s hs
    simp [hk] at this
  | some s =>
    right
    have h1 := List.find?_some hf
    have h2 := List.mem_of_find?_eq_some hf
    exact ⟨s, h2, by simpa using h1, rfl⟩

/-- A node without a `statistics` property. -/
theorem flatten_node_plain {m n : Nat} (IH : FlattensAt m n) (h : Heap) (lo a : Nat)
    (ts : List Target) (e3 : entries h (Val.ref a) = ts.map Target.kv)
    (e4 : (ts.map Target.key).Nodup) (e5 : ∀ k ∈ ts.map Target.key, plainKey k = true)
    (hc : Chain (TreeAt h n) lo a ts) (hs : "statistics" ∉ ts.map Target.key) :
    ∃ h1, flattenStatistics (m + 1) h (Val.ref a) = some h1 ∧ h1.length = h.length ∧
      (∀ i, ¬(lo ≤ i ∧ i < a + 1) → h1[i]? = h[i]?) ∧
      ∀ k, flattened h h1 k (Val.ref a) = true := by
  have hb := chain_bounds (fun l r v => treeAt_le h n l r v) ts lo a hc
  have hpw := chain_pairwise (fun l r v => treeAt_le h n l r v) ts lo a hc
  obtain ⟨h1, e, len, fr, post⟩ := visit_targets IH (Val.ref a) ts h
    (fun t ht => ⟨⟨ownsKey_of_plain e3 e5, fun ek => hs (List.mem_map.2 ⟨t, ht, ek⟩)⟩,
      by rw [e3]; exact lookup_target e4 ht,
      treeAt_mono h n _ _ _ (hb.2 t ht).2.2.2⟩)
    (fun t ht i hi => by
      cases hi
      have := hb.2 t ht
      omega)
    (hpw.imp (fun hab => Or.inl hab))
  refine ⟨h1, ?_, len, ?_, ?_⟩
  · rw [flattenStatistics_succ]
    unfold ownKeys
    rw [e3, map_kv_fst]
    exact e
  · intro i hi
    apply fr
    intro t ht
    have := hb.2 t ht
    omega
  · have hundef : getProp h (Val.ref a) "statistics" = Val.undef := by
      unfold getProp
      rw [lookup_eq_none_of_not_mem_keys (by rw [e3, map_kv_fst]; exact hs)]
      rfl
    apply flattened_of_rec (statisticsAtTop_of_undef hundef)
    intro kx hkx _ _ es he e' he' k
    rw [e3] at hkx
    rcases List.mem_map.1 hkx with ⟨t, ht, rfl⟩
    exact post t ht es he e' he' k

end Qpid

namespace Qpid

theorem getElem?_set_cell {h : Heap} {a : Nat} {c0 : Cell} (hc : h[a]? = some c0) (c : Cell) :
    (h.set a c)[a]? = some c := by
  have hd : a < h.length := by
    by_contra hn
    rw [List.getElem?_eq_none (by omega)] at hc
    cases hc
  rw [List.getElem?_set_self]
  exact hd

/-- A node with a `statistics` property: the attributes before it, the copy of
the statistics, the attributes after it. -/
theorem flatten_node_statistics {m n : Nat} (IH : FlattensAt m n) (h : Heap) (lo a : Nat)
    (ts1 ts2 : List Target) (tS : Target) (hS : tS.key = "statistics")
    (e3 : entries h (Val.ref a) = (ts1 ++ tS :: ts2).map Target.kv)
    (e4 : ((ts1 ++ tS :: ts2).map Target.key).Nodup)
    (e5 : ∀ k ∈ (ts1 ++ tS :: ts2).map Target.key, plainKey k = true)
    (hc : Chain (TreeAt h n) lo a (ts1 ++ tS :: ts2)) :
    ∃ h1, flattenStatistics (m + 1) h (Val.ref a) = some h1 ∧ h1.length = h.length ∧
      (∀ i, ¬(lo ≤ i ∧ i < a + 1) → h1[i]? = h[i]?) ∧
      ∀ k, flattened h h1 k (Val.ref a) = true := by
  have hb := chain_bounds (fun l r v => treeAt_le h n l r v) _ lo a hc
  have hpw := chain_pairwise (fun l r v => treeAt_le h n l r v) _ lo a hc
  obtain ⟨pw1, pwS2, cross⟩ := List.pairwise_append.1 hpw
  obtain ⟨hS2, pw2⟩ := List.pairwise_cons.1 pwS2
  have m1 : ∀ t ∈ ts1, t ∈ ts1 ++ tS :: ts2 := fun t ht => List.mem_append_left _ ht
  have mS : tS ∈ ts1 ++ tS :: ts2 := List.mem_append_right _ (List.mem_cons_self _ _)
  have m2 : ∀ t ∈ ts2, t ∈ ts1 ++ tS :: ts2 :=
    fun t ht => List.mem_append_right _ (List.mem_cons_of_mem _ ht)
  have e4' := e4
  rw [List.map_append, List.map_cons] at e4'
  obtain ⟨nd1, ndS2, disj⟩ := List.nodup_append.1 e4'
  obtain ⟨hnotin, nd2⟩ := List.nodup_cons.1 ndS2
  have k1 : ∀ t ∈ ts1, t.key ≠ "statistics" := by
    intro t ht ek
    exact disj (List.mem_map.2 ⟨t, ht, rfl⟩) (by rw [ek, ← hS]; exact List.mem_cons_self _ _)
  have k2 : ∀ t ∈ ts2, t.key ≠ "statistics" := by
    intro t ht ek
    exact hnotin (by rw [hS, ← ek]; exact List.mem_map.2 ⟨t, ht, rfl⟩)
  have bS := hb.2 tS mS
  have hcell : h[a]? = some (Cell.obj ((ts1 ++ tS :: ts2).map Target.kv)) :=
    cell_of_statistics e3 (List.mem_map.2 ⟨tS, mS, hS⟩)
  -- the attributes before `statistics`
  obtain ⟨h1, e1, len1, fr1, post1⟩ := visit_targets IH (Val.ref a) ts1 h
    (fun t ht => ⟨⟨ownsKey_of_plain e3 e5, k1 t ht⟩, by rw [e3]; exact lookup_target e4 (m1 t ht),
      treeAt_mono h n _ _ _ (hb.2 t (m1 t ht)).2.2.2⟩)
    (fun t ht i hi => by
      cases hi
      have := hb.2 t (m1 t ht)
      omega)
    (pw1.imp (fun hab => Or.inl hab))
  have fr1' : ∀ i, (i < lo ∨ tS.lo ≤ i) → h1[i]? = h[i]? := by
    intro i hi
    apply fr1
    intro t ht
    have := hb.2 t (m1 t ht)
    have := cross t ht tS (List.mem_cons_self _ _)
    omega
  -- the copy of the statistics
  have hsvT : TreeAt h n tS.lo tS.hi tS.val := bS.2.2.2
  have ha1 : h1[a]? = h[a]? := fr1' a (Or.inr (by omega))
  have hcell1 : h1[a]? = some (Cell.obj ((ts1 ++ tS :: ts2).map Target.kv)) := ha1.trans hcell
  have ent1 : entries h1 (Val.ref a) = (ts1 ++ tS :: ts2).map Target.kv :=
    (entries_congr ha1).trans e3
  have hgetS : getProp h1 (Val.ref a) "statistics" = tS.val := by
    unfold getProp
    rw [ent1, ← hS, lookup_target e4 mS]
    rfl
  have hownS : hasOwnProperty h1 (Val.ref a) "statistics" = some true := by
    unfold hasOwnProperty
    rw [ownsKey_of_plain ent1 e5]
    unfold ownsKey
    rw [ent1, ← hS, lookup_target e4 mS]
    rfl
  have entS1 : entries h1 tS.val = entries h tS.val :=
    entries_frame hsvT (fun i hi1 _ => fr1' i (Or.inr hi1))
  have hsv : ∀ c, entries (h1.set a c) tS.val = entries h1 tS.val := fun c =>
    entries_frame hsvT (fun i _ hi2 => by
      rw [List.getElem?_set_ne]
      omega)
  obtain ⟨sts, es1, snd, spl, spw, sb⟩ := treeAt_children (treeAt_mono h n _ _ _ hsvT)
  have keysS : ownKeys h1 tS.val = sts.map Target.key := by
    unfold ownKeys
    rw [entS1, es1, map_kv_fst]
  have hcopy := copyStatistics_eq h1 a tS.val _ hcell1 hsv
    (ownsKey_of_plain (entS1.trans es1) spl)
    (fun k hk => (plainKey_ne (spl k (by rw [← keysS]; exact hk))).2)
  generalize hps2 : upsertAll (getProp h1 tS.val) (ownKeys h1 tS.val)
    ((ts1 ++ tS :: ts2).map Target.kv) = ps2 at hcopy
  generalize hh2 : h1.set a (Cell.obj ps2) = h2 at hcopy
  have fr2 : ∀ i, i ≠ a → h2[i]? = h1[i]? := by
    intro i hi
    rw [← hh2, List.getElem?_set_ne]
    omega
  have len2 : h2.length = h1.length := by
    rw [← hh2, List.length_set]
  have ent2 : entries h2 (Val.ref a) = ps2 := by
    have : h2[a]? = some (Cell.obj ps2) := by
      rw [← hh2]
      exact getElem?_set_cell hcell1 _
    simp only [entries, this]
  have look : ∀ k, ps2.lookup k = if k ∈ ownKeys h1 tS.val then some (getProp h1 tS.val k)
      else ((ts1 ++ tS :: ts2).map Target.kv).lookup k := by
    intro k
    rw [← hps2]
    exact lookup_upsertAll _ k _ _
  have step2 : attrStep (flattenStatistics m) (Val.ref a) h1 tS.key = some h2 := by
    unfold attrStep
    rw [hS, hownS]
    simp only [↓reduceIte, hgetS]
    exact hcopy
  -- the attributes after `statistics`
  have hno2 : ownsKey h2 (Val.ref a) "hasOwnProperty" = false := by
    unfold ownsKey
    rw [ent2, look, if_neg (by
      rw [keysS]
      intro hm
      exact (plainKey_ne (spl _ hm)).1 rfl)]
    have := ownsKey_of_plain e3 e5
    unfold ownsKey at this
    rw [e3] at this
    exact this
  have getS : ∀ s ∈ sts, getProp h1 tS.val s.key = s.val := by
    intro s hs
    unfold getProp
    rw [entS1, es1, lookup_target snd hs]
    rfl
  have agree2 : ∀ i, tS.lo ≤ i → i < a → h2[i]? = h[i]? := fun i hi1 hi2 =>
    (fr2 i (by omega)).trans (fr1' i (Or.inr hi1))
  have keys3 : (ts2.map (retarget sts)).map Target.key = ts2.map Target.key := by
    rw [List.map_map]
    apply List.map_congr_left
    intro t _
    exact retarget_key sts t
  have pre3 : ∀ t3 ∈ ts2.map (retarget sts),
      ((ownsKey h2 (Val.ref a) "hasOwnProperty" = false ∧ t3.key ≠ "statistics") ∧
        (entries h2 (Val.ref a)).lookup t3.key = some t3.val ∧
        TreeAt h2 (n + 1) t3.lo t3.hi t3.val) ∧ tS.lo ≤ t3.lo ∧ t3.hi ≤ a := by
    intro t3 ht3
    rcases List.mem_map.1 ht3 with ⟨t, ht, rfl⟩
    have bt := hb.2 t (m2 t ht)
    have hSt := hS2 t ht
    rcases retarget_cases sts t with ⟨er, hk⟩ | ⟨s, hs, hk, er⟩
    · rw [er]
      refine ⟨⟨⟨hno2, k2 t ht⟩, ?_, ?_⟩, by omega, bt.2.2.1⟩
      · rw [ent2, look, if_neg (by rw [keysS]; exact hk)]
        exact lookup_target e4 (m2 t ht)
      · exact treeAt_frame (n + 1) _ _ _ (treeAt_mono h n _ _ _ bt.2.2.2)
          (fun i hi1 hi2 => agree2 i (by omega) (by omega))
    · rw [er]
      have bs := sb s hs
      refine ⟨⟨⟨hno2, k2 t ht⟩, ?_, ?_⟩, bs.1, ?_⟩
      · show (entries h2 (Val.ref a)).lookup t.key = some s.val
        rw [ent2, look, if_pos (by rw [keysS, ← hk]; exact List.mem_map.2 ⟨s, hs, rfl⟩), ← hk,
          getS s hs]
      · show TreeAt h2 (n + 1) s.lo s.hi s.val
        exact treeAt_frame (n + 1) _ _ _ (treeAt_mono h n _ _ _ bs.2.2)
          (fun i hi1 hi2 => agree2 i (by omega) (by omega))
      · show s.hi ≤ a
        omega
  have spw' : ∀ s ∈ sts, ∀ s' ∈ sts, s ≠ s' → s.hi ≤ s'.lo ∨ s'.hi ≤ s.lo := by
    have hsym : Symmetric (fun a b : Target => a.hi ≤ b.lo ∨ b.hi ≤ a.lo) :=
      fun _ _ hab => hab.symm
    intro s hs s' hs' hne
    exact List.Pairwise.forall hsym (spw.imp (fun hab => Or.inl hab)) hs hs' hne
  have pw3 : (ts2.map (retarget sts)).Pairwise (fun a b => a.hi ≤ b.lo ∨ b.hi ≤ a.lo) := by
    rw [List.pairwise_map]
    have hkeys : ts2.Pairwise (fun a b => a.key ≠ b.key) := List.pairwise_map.1 nd2
    refine List.Pairwise.imp_of_mem ?_ (pw2.and hkeys)
    intro t t' ht ht' hR
    obtain ⟨hle, hne⟩ := hR
    have bt := hb.2 t (m2 t ht)
    have bt' := hb.2 t' (m2 t' ht')
    have hSt := hS2 t ht
    have hSt' := hS2 t' ht'
    rcases retarget_cases sts t with ⟨er, _⟩ | ⟨s, hs, hk, er⟩ <;>
      rcases retarget_cases sts t' with ⟨er', _⟩ | ⟨s', hs', hk', er'⟩ <;> rw [er, er']
    · exact Or.inl hle
    · have bs' := sb s' hs'
      right
      show s'.hi ≤ t.lo
      omega
    · have bs := sb s hs
      left
      show s.hi ≤ t'.lo
      omega
    · have hss : s ≠ s' := by
        intro e
        apply hne
        rw [← hk, ← hk', e]
      exact spw' s hs s' hs' hss
  obtain ⟨h3, e3', len3, fr3, post3⟩ := visit_targets IH (Val.ref a) (ts2.map (retarget sts)) h2
    (fun t3 ht3 => (pre3 t3 ht3).1)
    (fun t3 ht3 i hi => by
      cases hi
      have := (pre3 t3 ht3).2
      omega)
    pw3
  have fr3' : ∀ i, (i < tS.lo ∨ a ≤ i) → h3[i]? = h2[i]? := by
    intro i hi
    apply fr3
    intro t3 ht3
    have := (pre3 t3 ht3).2
    omega
  have ent3 : entries h3 (Val.ref a) = ps2 :=
    (entries_congr (fr3' a (Or.inr (le_refl a)))).trans ent2
  have hget0 : getProp h (Val.ref a) "statistics" = tS.val := by
    unfold getProp
    rw [e3, ← hS, lookup_target e4 mS]
    rfl
  have keys0 : ownKeys h tS.val = ownKeys h1 tS.val := by
    unfold ownKeys
    rw [entS1]
  refine ⟨h3, ?_, by omega, ?_, ?_⟩
  · rw [flattenStatistics_succ]
    unfold ownKeys
    rw [e3, map_kv_fst, List.map_append, List.map_cons, List.foldlM_append, e1]
    simp only [Option.bind_eq_bind, Option.some_bind, List.foldlM_cons, step2]
    rw [← keys3]
    exact e3'
  · intro i hi
    have h1' := bS.1
    have h2' := bS.2.1
    have h3' := bS.2.2.1
    rw [fr3' i (by omega), fr2 i (by omega), fr1' i (by omega)]
  · apply flattened_of_rec
    · unfold statisticsAtTop
      rw [hget0, List.all_eq_true]
      intro k hk
      rw [keys0] at hk
      have hg : getProp h tS.val k = getProp h1 tS.val k := by
        unfold getProp
        rw [entS1]
      rw [Bool.and_eq_true, beq_iff_eq]
      constructor
      · unfold ownsKey
        rw [ent3, look, if_pos hk]
        rfl
      · rw [hg]
        conv_lhs => unfold getProp
        rw [ent3, look, if_pos hk]
        rfl
    · intro kx hkx hk1 hk2 es he e hm k
      rw [hget0, keys0, keysS] at hk2
      rw [e3] at hkx
      rcases List.mem_map.1 hkx with ⟨t, ht, rfl⟩
      have bt := hb.2 t ht
      obtain ⟨l, r, hl, hr, hte⟩ := treeAt_elem bt.2.2.2 he hm
      rcases List.mem_append.1 ht with ht1 | htS2
      · have hcr := cross t ht1 tS (List.mem_cons_self _ _)
        rw [flattened_frame k n h h1 h h3 l r e hte (fun _ _ _ => rfl)
          (fun i hi1 hi2 => by rw [fr3' i (by omega), fr2 i (by omega)])]
        exact post1 t ht1 es he e hm k
      · rcases List.mem_cons.1 htS2 with rfl | ht2
        · exact absurd hS hk1
        · have hSt := hS2 t ht2
          rcases retarget_cases sts t with ⟨er, _⟩ | ⟨s, hs, hk, _⟩
          · have hmem : t ∈ ts2.map (retarget sts) := List.mem_map.2 ⟨t, ht2, er⟩
            have he2 : arrayElems h2 t.val = some es := by
              rw [arrayElems_frame bt.2.2.2 (fun i hi1 hi2 => agree2 i (by omega) (by omega))]
              exact he
            rw [← flattened_frame k n h h3 h2 h3 l r e hte
              (fun i hi1 hi2 => agree2 i (by omega) (by omega)) (fun _ _ _ => rfl)]
            exact post3 t hmem es he2 e hm k
          · exact absurd (List.mem_map.2 ⟨s, hs, hk⟩) hk2

end Qpid

namespace Qpid

/-- With more fuel than the depth of the tree, `flattenStatistics` succeeds. -/
theorem flattensAt : ∀ (n m : Nat), n < m → FlattensAt m n
  | 0, m, hm => by
    intro h lo hi v ht
    simp only [TreeAt] at ht
    obtain ⟨m', rfl⟩ : ∃ m', m = m' + 1 := ⟨m - 1, by omega⟩
    obtain ⟨e, hfl⟩ := flatten_prim m' h ht.2
    exact ⟨h, e, rfl, fun _ _ => rfl, hfl⟩
  | n + 1, m, hm => by
    intro h lo hi v ht
    obtain ⟨m', rfl⟩ : ∃ m', m = m' + 1 := ⟨m - 1, by omega⟩
    have IH : FlattensAt m' n := flattensAt n m' (by omega)
    rw [TreeAt] at ht
    rcases ht with hp | ⟨a, ts, e1, e2, e3, e4, e5, hc⟩
    · obtain ⟨e, hfl⟩ := flatten_prim m' h hp.2
      exact ⟨h, e, rfl, fun _ _ => rfl, hfl⟩
    · subst e1
      subst e2
      by_cases hs : "statistics" ∈ ts.map Target.key
      · rcases List.mem_map.1 hs with ⟨tS, htS, hS⟩
        obtain ⟨ts1, ts2, rfl⟩ := List.append_of_mem htS
        exact flatten_node_statistics IH h lo a ts1 ts2 tS hS e3 e4 e5 hc
      · exact flatten_node_plain IH h lo a ts e3 e4 e5 hc hs

theorem treeAt_mono_le (h : Heap) {n n' : Nat} (hle : n ≤ n') {lo hi : Nat} {v : Val}
    (ht : TreeAt h n lo hi v) : TreeAt h n' lo hi v := by
  induction hle with
  | refl => exact ht
  | step _ ih => exact treeAt_mono h _ lo hi v ih

theorem chain_mono_le {h : Heap} {n n' : Nat} (hle : n ≤ n') (ts : List Target) (lo hi : Nat)
    (hc : Chain (TreeAt h n) lo hi ts) : Chain (TreeAt h n') lo hi ts :=
  chain_imp (fun l r v => treeAt_le h n l r v) ts lo hi
    (fun _ _ _ _ _ hp => treeAt_mono_le h hle hp) hc

theorem zip_key_val (ts : List Target) :
    (ts.map Target.key).zip (ts.map Target.val) = ts.map Target.kv := by
  induction ts with
  | nil => rfl
  | cons t ts ih => simp only [List.map_cons, List.zip_cons_cons, ih]; rfl

/-- A cell put on top of the trees of its properties is the root of a tree. -/
theorem treeAt_node {h ext : Heap} {n : Nat} {ts : List Target} (c : Cell)
    (hc : Chain (TreeAt (h ++ ext) n) h.length (h.length + ext.length) ts)
    (hn : (ts.map Target.key).Nodup) (hp : ∀ k ∈ ts.map Target.key, plainKey k = true)
    (he : entries ((h ++ ext) ++ [c]) (Val.ref (h ++ ext).length) = ts.map Target.kv) :
    TreeAt (h ++ (ext ++ [c])) (n + 1) h.length (h.length + (ext ++ [c]).length)
      (Val.ref (h ++ ext).length) := by
  rw [TreeAt]
  right
  refine ⟨(h ++ ext).length, ts, rfl, ?_, ?_, hn, hp, ?_⟩
  · simp only [List.length_append, List.length_singleton]
    omega
  · rw [← List.append_assoc]
    exact he
  · rw [← List.append_assoc]
    have hlen : (h ++ ext).length = h.length + ext.length := List.length_append _ _
    rw [hlen]
    refine chain_frame ts _ _ hc ?_
    intro i _ hi2
    rw [List.getElem?_append_left (by omega)]

mutual
theorem alloc_spec : ∀ (t : Json) (h : Heap), t.distinctKeys = true → t.plainKeys = true →
    ∃ ext, (alloc t h).2 = h ++ ext ∧
      TreeAt (h ++ ext) t.cells h.length (h.length + ext.length) (alloc t h).1
  | .null, h, _, _ => ⟨[], by simp [alloc], by
      simpa [alloc] using @treeAt_prim h (Val.null) (fun a e => by cases e) h.length _⟩
  | .bool b, h, _, _ => ⟨[], by simp [alloc], by
      simpa [alloc] using @treeAt_prim h (Val.bool b) (fun a e => by cases e) h.length _⟩
  | .num n, h, _, _ => ⟨[], by simp [alloc], by
      simpa [alloc] using @treeAt_prim h (Val.num n) (fun a e => by cases e) h.length _⟩
  | .str s, h, _, _ => ⟨[], by simp [alloc], by
      simpa [alloc] using @treeAt_prim h (Val.str s) (fun a e => by cases e) h.length _⟩
  | .arr xs, h, hd, hp => by
    simp only [Json.distinctKeys] at hd
    simp only [Json.plainKeys] at hp
    obtain ⟨ext, ts, e1, e2, e3, hc⟩ :=
      allocList_spec xs h (indexKeys xs.length) (indexKeys_length _) hd hp
    have hlen : (allocList xs h).1.length = xs.length := by
      rw [← e2, List.length_map, ← List.length_map ts Target.key, e3, indexKeys_length]
    refine ⟨ext ++ [Cell.arr (allocList xs h).1], ?_, ?_⟩
    · simp only [alloc, e1, List.append_assoc]
    · simp only [alloc, e1, Json.cells]
      refine treeAt_node _ hc (by rw [e3]; exact indexKeys_nodup _)
        (by rw [e3]; exact plainKey_indexKeys _) ?_
      simp only [entries, List.getElem?_concat_length]
      rw [hlen, ← e3, ← e2, zip_key_val]
  | .obj ps, h, hd, hp => by
    simp only [Json.distinctKeys, Bool.and_eq_true, decide_eq_true_eq] at hd
    simp only [Json.plainKeys, Bool.and_eq_true, List.all_eq_true] at hp
    obtain ⟨ext, ts, e1, e2, e3, hc⟩ := allocProps_spec ps h hd.2 hp.2
    refine ⟨ext ++ [Cell.obj (allocProps ps h).1], ?_, ?_⟩
    · simp only [alloc, e1, List.append_assoc]
    · simp only [alloc, e1, Json.cells]
      refine treeAt_node _ hc (by rw [e3]; exact hd.1) (by rw [e3]; exact hp.1) ?_
      simp only [entries, List.getElem?_concat_length]
      exact e2.symm
theorem allocList_spec : ∀ (xs : List Json) (h : Heap) (ks : List String),
    ks.length = xs.length → distinctKeysList xs = true → plainKeysList xs = true →
    ∃ ext ts, (allocList xs h).2 = h ++ ext ∧ ts.map Target.val = (allocList xs h).1 ∧
      ts.map Target.key = ks ∧
      Chain (TreeAt (h ++ ext) (cellsList xs)) h.length (h.length + ext.length) ts
  | [], h, ks, hk, _, _ => by
    refine ⟨[], [], by simp [allocList], rfl, ?_, by simp [Chain]⟩
    cases ks with
    | nil => rfl
    | cons _ _ => simp at hk
  | x :: xs, h, ks, hk, hd, hp => by
    cases ks with
    | nil => simp at hk
    | cons k ks =>
      simp only [distinctKeysList, Bool.and_eq_true] at hd
      simp only [plainKeysList, Bool.and_eq_true] at hp
      obtain ⟨ext1, e1, ht1⟩ := alloc_spec x h hd.1 hp.1
      obtain ⟨ext2, ts, e2, e3, e4, hc⟩ :=
        allocList_spec xs (h ++ ext1) ks (by simpa using hk) hd.2 hp.2
      have hl1 : (h ++ ext1).length = h.length + ext1.length := List.length_append _ _
      refine ⟨ext1 ++ ext2, ⟨k, (alloc x h).1, h.length, h.length + ext1.length⟩ :: ts, ?_, ?_, ?_, ?_⟩
      · simp only [allocList, e1, e2, List.append_assoc]
      · simp only [allocList, e1, List.map_cons, e3]
      · simp only [List.map_cons, e4]
      · simp only [Chain, cellsList, true_and]
        rw [← List.append_assoc]
        constructor
        · refine treeAt_frame _ _ _ _ (treeAt_mono_le _ (Nat.le_add_right _ _) ht1) ?_
          intro i _ hi2
          rw [List.getElem?_append_left (by omega)]
        · have := chain_mono_le (Nat.le_add_left (cellsList xs) x.cells) ts _ _ hc
          rw [hl1] at this
          rw [List.length_append, ← Nat.add_assoc]
          exact this
theorem allocProps_spec : ∀ (ps : List (String × Json)) (h : Heap),
    distinctKeysProps ps = true → plainKeysProps ps = true →
    ∃ ext ts, (allocProps ps h).2 = h ++ ext ∧ ts.map Target.kv = (allocProps ps h).1 ∧
      ts.map Target.key = ps.map Prod.fst ∧
      Chain (TreeAt (h ++ ext) (cellsProps ps)) h.length (h.length + ext.length) ts
  | [], h, _, _ => ⟨[], [], by simp [allocProps], rfl, rfl, by simp [Chain]⟩
  | (k, x) :: ps, h, hd, hp => by
    simp only [distinctKeysProps, Bool.and_eq_true] at hd
    simp only [plainKeysProps, Bool.and_eq_true] at hp
    obtain ⟨ext1, e1, ht1⟩ := alloc_spec x h hd.1 hp.1
    obtain ⟨ext2, ts, e2, e3, e4, hc⟩ := allocProps_spec ps (h ++ ext1) hd.2 hp.2
    have hl1 : (h ++ ext1).length = h.length + ext1.length := List.length_append _ _
    refine ⟨ext1 ++ ext2, ⟨k, (alloc x h).1, h.length, h.length + ext1.length⟩ :: ts, ?_, ?_, ?_, ?_⟩
    · simp only [allocProps, e1, e2, List.append_assoc]
    · simp only [allocProps, e1, List.map_cons, e3]
      rfl
    · simp only [List.map_cons, e4]
    · simp only [Chain, cellsProps, true_and]
      rw [← List.append_assoc]
      constructor
      · refine treeAt_frame _ _ _ _ (treeAt_mono_le _ (Nat.le_add_right _ _) ht1) ?_
        intro i _ hi2
        rw [List.getElem?_append_left (by omega)]
      · have := chain_mono_le (Nat.le_add_left (cellsProps ps) x.cells) ts _ _ hc
        rw [hl1] at this
        rw [List.length_append, ← Nat.add_assoc]
        exact this
end

end Qpid

namespace Qpid

/-- C1 (amended): for every JSON tree `d` whose objects have pairwise distinct
property names, none of them `hasOwnProperty` or `__proto__`, built in any
heap, `util.flattenStatistics(d)` returns once the fuel exceeds the number of
cells of `d`, and afterwards every own key `k` of the original `d.statistics`
is a top-level property of `d` with `d[k]` equal to `statistics[k]`; the same
holds, recursively to every depth `n`, for every element of every array-valued
own attribute of `d` other than `statistics` whose name is not a key of
`d.statistics`. -/
theorem flattenStatistics_flattens (d : Json) (hd : d.distinctKeys = true)
    (hp : d.plainKeys = true) (h : Heap) (fuel : Nat) (hf : d.cells < fuel) :
    ∃ h1, flattenStatistics fuel (alloc d h).2 (alloc d h).1 = some h1 ∧
      ∀ n, flattened (alloc d h).2 h1 n (alloc d h).1 = true := by
  obtain ⟨ext, e, ht⟩ := alloc_spec d h hd hp
  rw [← e] at ht
  obtain ⟨h1, e1, _, _, hfl⟩ := flattensAt d.cells fuel hf _ _ _ _ ht
  exact ⟨h1, e1, hfl⟩

/-- Witness for C1: the theorem applied to `shadowedData` in the empty heap
with fuel 15. -/
theorem flattenStatistics_flattens_witness :
    shadowedData.distinctKeys = true ∧ shadowedData.plainKeys = true ∧ shadowedData.cells < 15 ∧
    ∃ h1, flattenStatistics 15 (alloc shadowedData []).2 (alloc shadowedData []).1 = some h1 ∧
      ∀ n, flattened (alloc shadowedData []).2 h1 n (alloc shadowedData []).1 = true :=
  ⟨by decide, by decide, by decide,
    flattenStatistics_flattens shadowedData (by decide) (by decide) [] 15 (by decide)⟩

/-- Counterexample for C1 as stated: on `shadowedData` the call returns, and the
claim fails at depth 2 whether the array-valued attributes are read before or
after the call. The element of the original `p` (address 6) keeps its
statistics nested, because `statistics.p` replaced `p` before the loop reached
it; the element of the final `q` (address 2) keeps them nested, because
`statistics.q` replaced `q` after the loop had passed it; and the element
(address 9) of the array-valued `statistics` of the element of `r` keeps them
nested, because a `statistics` attribute is copied, not descended into. -/
theorem flattenStatistics_shadowed_counterexample :
    ∃ h1, flattenStatistics 4 shadowedHeap shadowedRoot = some h1 ∧
      flattenedAsStated shadowedHeap shadowedHeap h1 2 shadowedRoot = false ∧
      flattenedAsStated h1 shadowedHeap h1 2 shadowedRoot = false ∧
      (arrayElems shadowedHeap (getProp shadowedHeap shadowedRoot "p") = some [Val.ref 6] ∧
        statisticsAtTop shadowedHeap h1 (Val.ref 6) = false) ∧
      (arrayElems h1 (getProp h1 shadowedRoot "q") = some [Val.ref 2] ∧
        statisticsAtTop shadowedHeap h1 (Val.ref 2) = false) ∧
      (arrayElems shadowedHeap (getProp shadowedHeap shadowedRoot "r") = some [Val.ref 11] ∧
        arrayElems shadowedHeap (getProp shadowedHeap (Val.ref 11) "statistics")
          = some [Val.ref 9] ∧
        statisticsAtTop shadowedHeap h1 (Val.ref 9) = false) :=
  ⟨_, rfl, by decide, by decide, ⟨by decide, by decide⟩, ⟨by decide, by decide⟩,
    by decide, by decide, by decide⟩

end Qpid

namespace Qpid

/-! ### `util.deleteGridSelections` -/

/-- C2: `util.deleteGridSelections` issues a DELETE request if and only if the
selection is non-empty and the user accepts the confirmation; for an empty
selection no confirmation is asked; and when the selection is empty or the
confirmation is declined no request is sent, the selection is not cleared and
`updater.update()` is not called. -/
theorem deleteGridSelections_request_iff (userConfirms : String → Bool)
    (xhrDel : String → Option String) (data : List Row) (url start : String) :
    ((∃ u, Effect.del u ∈ deleteGridSelections userConfirms xhrDel data url start) ↔
      (data ≠ [] ∧ userConfirms (confirmationMessage start data) = true)) ∧
    (data = [] → ∀ m, Effect.confirm m ∉ deleteGridSelections userConfirms xhrDel data url start) ∧
    ((data = [] ∨ userConfirms (confirmationMessage start data) = false) →
      (∀ u, Effect.del u ∉ deleteGridSelections userConfirms xhrDel data url start) ∧
      Effect.deselectAll ∉ deleteGridSelections userConfirms xhrDel data url start ∧
      Effect.update ∉ deleteGridSelections userConfirms xhrDel data url start) := by
  unfold deleteGridSelections
  cases data with
  | nil => simp
  | cons r rs =>
    cases hc : userConfirms (confirmationMessage start (r :: rs)) with
    | false => simp [hc]
    | true =>
      cases hx : xhrDel (url ++ (queryParam (r :: rs)).getD "undefined") <;> simp [hc, hx]

/-- C3: once the DELETE request has been issued (a non-empty selection, the
confirmation accepted): if the request succeeds the selection is cleared and
`updater.update()` is called, each exactly once, and no alert is shown; if it
fails with error `e` the selection is not cleared, `updater.update()` is not
called and exactly one alert, with the text `Error:` followed by `e`, is shown. -/
theorem deleteGridSelections_outcome (userConfirms : String → Bool)
    (xhrDel : String → Option String) (data : List Row) (url start : String)
    (hdata : data ≠ [])
    (hconfirm : userConfirms (confirmationMessage start data) = true) :
    (xhrDel (url ++ (queryParam data).getD "undefined") = none →
      (deleteGridSelections userConfirms xhrDel data url start).count Effect.deselectAll = 1 ∧
      (deleteGridSelections userConfirms xhrDel data url start).count Effect.update = 1 ∧
      ∀ m, Effect.alert m ∉ deleteGridSelections userConfirms xhrDel data url start) ∧
    (∀ e, xhrDel (url ++ (queryParam data).getD "undefined") = some e →
      Effect.deselectAll ∉ deleteGridSelections userConfirms xhrDel data url start ∧
      Effect.update ∉ deleteGridSelections userConfirms xhrDel data url start ∧
      (deleteGridSelections userConfirms xhrDel data url start).filter
          (fun x => match x with
            | Effect.alert _ => true
            | _ => false)
        = [Effect.alert ("Error:" ++ e)]) := by
  unfold deleteGridSelections
  cases data with
  | nil => exact absurd rfl hdata
  | cons r rs =>
    constructor
    · intro hx
      simp [hconfirm, hx, List.count_cons]
    · intro e hx
      simp [hconfirm, hx, List.filter]

theorem deleteGridSelections_outcome_witness :
    (deleteGridSelections (fun _ => true) (fun _ => some "404") [⟨Js.str "q1", Js.num 7⟩]
        "api/queue" "Delete queue").filter
          (fun x => match x with
            | Effect.alert _ => true
            | _ => false)
      = [Effect.alert ("Error:" ++ "404")] :=
  ((deleteGridSelections_outcome (fun _ => true) (fun _ => some "404")
    [⟨Js.str "q1", Js.num 7⟩] "api/queue" "Delete queue" (by simp) rfl).2 "404" rfl).2.2

end Qpid

namespace Qpid

/-! ### The query widget -/

/-! ### Running the methods of the widget -/

@[simp] theorem run_pure {α : Type} (a : α) (w : Widget) :
    (pure a : Act α) w = (Except.ok a, w) := rfl

@[simp] theorem run_act_pure {α : Type} (a : α) (w : Widget) :
    Act.pure a w = (Except.ok a, w) := rfl

@[simp] theorem run_bind {α β : Type} (m : Act α) (f : α → Act β) (w : Widget) :
    (m >>= f) w = match m w with
      | (Except.ok a, w1) => f a w1
      | (Except.error e, w1) => (Except.error e, w1) := rfl

@[simp] theorem run_modify (f : Widget → Widget) (w : Widget) :
    Act.modify f w = (Except.ok (), f w) := rfl

@[simp] theorem run_read (w : Widget) : Act.read w = (Except.ok w, w) := rfl

@[simp] theorem run_lift {α : Type} (x : Except String α) (w : Widget) :
    Act.lift x w = (x, w) := rfl

@[simp] theorem run_emit (name : String) (payload : Js) (w : Widget) :
    emit name payload w = (Except.ok (), { w with emitted := w.emitted ++ [(name, payload)] }) :=
  rfl

theorem run_toggleSearchButton (select : Js) (w : Widget) :
    toggleSearchButton select w = (Except.ok (), { w with
      advancedSearchButton := { w.advancedSearchButton with
        disabled := !select.truthy
        title := if (!select.truthy) = true
          then "Please, choose fields to display in order to enable search" else "Search" }
      standardSearchButton := { w.standardSearchButton with
        disabled := !select.truthy
        title := if (!select.truthy) = true
          then "Please, choose fields to display in order to enable search" else "Search" } }) := by
  simp [toggleSearchButton]

/-- C8: `_toggleSearchButton(select)` leaves both search buttons disabled
exactly when `select` is falsy, both then titled "Please, choose fields to
display in order to enable search"; otherwise both are enabled and titled
"Search"; the two buttons end with the same `disabled` and `title`. -/
theorem toggleSearchButton_buttons (select : Js) (w : Widget) :
    (toggleSearchButton select w).1 = Except.ok () ∧
    ((toggleSearchButton select w).2.advancedSearchButton.disabled = true ↔ select.truthy = false) ∧
    ((toggleSearchButton select w).2.standardSearchButton.disabled = true ↔ select.truthy = false) ∧
    (select.truthy = false →
      (toggleSearchButton select w).2.advancedSearchButton.title
        = "Please, choose fields to display in order to enable search" ∧
      (toggleSearchButton select w).2.standardSearchButton.title
        = "Please, choose fields to display in order to enable search") ∧
    (select.truthy = true →
      (toggleSearchButton select w).2.advancedSearchButton.title = "Search" ∧
      (toggleSearchButton select w).2.standardSearchButton.title = "Search") ∧
    (toggleSearchButton select w).2.advancedSearchButton.disabled
      = (toggleSearchButton select w).2.standardSearchButton.disabled ∧
    (toggleSearchButton select w).2.advancedSearchButton.title
      = (toggleSearchButton select w).2.standardSearchButton.title := by
  rw [run_toggleSearchButton]
  cases h : select.truthy <;> simp



@[simp] theorem run_setSelectClause (select : Js) (w : Widget) :
    setSelectClause select w = (Except.ok (), { w with
      selectClause := select
      resultsGrid := { w.resultsGrid with
        select := if select.truthy then .str (select.toStr ++ ",id") else .str "" } }) := rfl

@[simp] theorem run_search (w : Widget) :
    search w = (Except.ok (), { w with
      resultsGrid := { w.resultsGrid with refreshes := w.resultsGrid.refreshes + 1 } }) := rfl

@[simp] theorem run_getQuery (env : Env) (queryObject : Js) (w : Widget) :
    getQuery env queryObject w = (Except.ok (queryOf env queryObject w), w) := rfl

theorem run_queryChanged (env : Env) (query : Js) (w : Widget) :
    queryChanged env query w =
      match w.preference.setProp "value" (queryOf env query w) with
      | .ok pref => (Except.ok (),
          { w with emitted := w.emitted ++ [("change", Js.obj [("preference", pref)])] })
      | .error e => (Except.error e, w) := by
  simp only [queryChanged, run_bind, run_getQuery, run_read, run_lift]
  cases w.preference.setProp "value" (queryOf env query w) <;> simp

/-- The fields `_queryChanged` leaves alone: all but the emitted events. -/
theorem queryChanged_frame (env : Env) (query : Js) (w : Widget) :
    ∃ ev, (queryChanged env query w).2 = { w with emitted := ev } := by
  rw [run_queryChanged]
  cases w.preference.setProp "value" (queryOf env query w) with
  | ok pref => exact ⟨_, rfl⟩
  | error e => exact ⟨w.emitted, rfl⟩

@[simp] theorem queryChanged_standardSelectChooser (env : Env) (query : Js) (w : Widget) :
    (queryChanged env query w).2.standardSelectChooser = w.standardSelectChooser := by
  obtain ⟨ev, h⟩ := queryChanged_frame env query w
  rw [h]

@[simp] theorem queryChanged_selectClause (env : Env) (query : Js) (w : Widget) :
    (queryChanged env query w).2.selectClause = w.selectClause := by
  obtain ⟨ev, h⟩ := queryChanged_frame env query w
  rw [h]

@[simp] theorem queryChanged_resultsGrid (env : Env) (query : Js) (w : Widget) :
    (queryChanged env query w).2.resultsGrid = w.resultsGrid := by
  obtain ⟨ev, h⟩ := queryChanged_frame env query w
  rw [h]

@[simp] theorem queryChanged_whereCriteria (env : Env) (query : Js) (w : Widget) :
    (queryChanged env query w).2.whereCriteria = w.whereCriteria := by
  obtain ⟨ev, h⟩ := queryChanged_frame env query w
  rw [h]

@[simp] theorem queryChanged_lastHeaders (env : Env) (query : Js) (w : Widget) :
    (queryChanged env query w).2.lastHeaders = w.lastHeaders := by
  obtain ⟨ev, h⟩ := queryChanged_frame env query w
  rw [h]

@[simp] theorem queryChanged_standardMode (env : Env) (query : Js) (w : Widget) :
    (queryChanged env query w).2.standardMode = w.standardMode := by
  obtain ⟨ev, h⟩ := queryChanged_frame env query w
  rw [h]

@[simp] theorem queryChanged_advancedSelect (env : Env) (query : Js) (w : Widget) :
    (queryChanged env query w).2.advancedSelect = w.advancedSelect := by
  obtain ⟨ev, h⟩ := queryChanged_frame env query w
  rw [h]

@[simp] theorem queryChanged_advancedWhere (env : Env) (query : Js) (w : Widget) :
    (queryChanged env query w).2.advancedWhere = w.advancedWhere := by
  obtain ⟨ev, h⟩ := queryChanged_frame env query w
  rw [h]

@[simp] theorem queryChanged_advancedOrderBy (env : Env) (query : Js) (w : Widget) :
    (queryChanged env query w).2.advancedOrderBy = w.advancedOrderBy := by
  obtain ⟨ev, h⟩ := queryChanged_frame env query w
  rw [h]

@[simp] theorem queryChanged_advancedSearchButton (env : Env) (query : Js) (w : Widget) :
    (queryChanged env query w).2.advancedSearchButton = w.advancedSearchButton := by
  obtain ⟨ev, h⟩ := queryChanged_frame env query w
  rw [h]

@[simp] theorem queryChanged_standardSearchButton (env : Env) (query : Js) (w : Widget) :
    (queryChanged env query w).2.standardSearchButton = w.standardSearchButton := by
  obtain ⟨ev, h⟩ := queryChanged_frame env query w
  rw [h]

@[simp] theorem queryChanged_standardSearchDisplay (env : Env) (query : Js) (w : Widget) :
    (queryChanged env query w).2.standardSearchDisplay = w.standardSearchDisplay := by
  obtain ⟨ev, h⟩ := queryChanged_frame env query w
  rw [h]

@[simp] theorem queryChanged_whereBuilderDisplay (env : Env) (query : Js) (w : Widget) :
    (queryChanged env query w).2.whereBuilderDisplay = w.whereBuilderDisplay := by
  obtain ⟨ev, h⟩ := queryChanged_frame env query w
  rw [h]

@[simp] theorem queryChanged_advancedSearchDisplay (env : Env) (query : Js) (w : Widget) :
    (queryChanged env query w).2.advancedSearchDisplay = w.advancedSearchDisplay := by
  obtain ⟨ev, h⟩ := queryChanged_frame env query w
  rw [h]

@[simp] theorem queryChanged_preference (env : Env) (query : Js) (w : Widget) :
    (queryChanged env query w).2.preference = w.preference := by
  obtain ⟨ev, h⟩ := queryChanged_frame env query w
  rw [h]

@[simp] theorem queryChanged_categoryName (env : Env) (query : Js) (w : Widget) :
    (queryChanged env query w).2.categoryName = w.categoryName := by
  obtain ⟨ev, h⟩ := queryChanged_frame env query w
  rw [h]

@[simp] theorem queryChanged_deleteButton (env : Env) (query : Js) (w : Widget) :
    (queryChanged env query w).2.deleteButton = w.deleteButton := by
  obtain ⟨ev, h⟩ := queryChanged_frame env query w
  rw [h]

@[simp] theorem queryChanged_modeButton (env : Env) (query : Js) (w : Widget) :
    (queryChanged env query w).2.modeButton = w.modeButton := by
  obtain ⟨ev, h⟩ := queryChanged_frame env query w
  rw [h]

theorem string_empty_append (s : String) : "" ++ s = s := by
  apply String.ext
  simp

theorem selectStep_column {x : Js} {name : String} (hx : IsColumn x name) (acc : String)
    (i : Nat) :
    selectStep (acc, i) x = .ok (acc ++ (if i > 0 then "," else "") ++ name, i + 1) := by
  obtain ⟨ps, rfl, h1, h2⟩ := hx
  simp [selectStep, Js.truthy, Js.hasOwn, Js.get, h1, h2, Js.toStr, bind, Except.bind, pure,
    Except.pure]

theorem foldlM_selectStep_columns : ∀ (items : List Js) (names : List String) (acc : String)
    (i : Nat), 0 < i → List.Forall₂ IsColumn items names →
    items.foldlM selectStep (acc, i) = .ok (String.intercalate.go acc "," names, i + items.length)
  | [], _, acc, i, _, h => by
    cases h
    rfl
  | x :: items, _, acc, i, hi, h => by
    cases h with
    | cons hx hrest =>
      rename_i name names
      rw [List.foldlM_cons, selectStep_column hx]
      simp only [bind, Except.bind]
      rw [foldlM_selectStep_columns items names _ (i + 1) (by omega) hrest]
      simp only [if_pos hi, String.intercalate.go, List.length_cons]
      congr 2
      omega

theorem buildSelectExpression_columns {items : List Js} {names : List String}
    (h : List.Forall₂ IsColumn items names) :
    buildSelectExpression (.arr items) = .ok (",".intercalate names) := by
  cases h with
  | nil => rfl
  | cons hx hrest =>
    rename_i x name items names
    simp only [buildSelectExpression, List.foldlM_cons, selectStep_column hx, bind, Except.bind]
    rw [foldlM_selectStep_columns items names _ 1 (by omega) hrest]
    simp [Except.map, String.intercalate, string_empty_append]

/-- C4: in Standard view `_modeChanged` copies the query settings into the
Advanced view: when the selected items of the standard chooser are the column
objects of the attributes `names`, the call succeeds and afterwards the
advanced select field holds the names joined by commas, in their order, the
advanced where field the where expression of the grid and the advanced
order-by field its order-by expression; the where, order-by and sort of the
grid are what they were. -/
theorem modeChanged_copies_settings (env : Env) (w : Widget) (names : List String)
    (hstd : w.standardMode = true)
    (hcols : List.Forall₂ IsColumn w.standardSelectChooser.selectedItems names) :
    (modeChanged env w).1 = Except.ok () ∧
    (modeChanged env w).2.advancedSelect.value = Js.str (",".intercalate names) ∧
    (modeChanged env w).2.advancedWhere.value = w.resultsGrid.whereExpr ∧
    (modeChanged env w).2.advancedOrderBy.value = w.resultsGrid.orderBy ∧
    (modeChanged env w).2.resultsGrid.whereExpr = w.resultsGrid.whereExpr ∧
    (modeChanged env w).2.resultsGrid.orderBy = w.resultsGrid.orderBy ∧
    (modeChanged env w).2.resultsGrid.sort = w.resultsGrid.sort := by
  simp only [modeChanged, run_bind, run_modify, run_read, hstd, Bool.not_true,
    Bool.not_false, if_true, run_lift, buildSelectExpression_columns hcols]
  by_cases hl : w.lastHeaders.length = 0 <;> simp [hl]


theorem buildSelectExpression_unshadowed_step (acc : String × Nat) (x : Js)
    (hx : x.unshadowed = true) : ∃ r, selectStep acc x = .ok r := by
  unfold selectStep
  cases x with
  | obj ps =>
    simp only [Js.unshadowed, Option.isNone_iff_eq_none] at hx
    simp [Js.truthy, Js.hasOwn, hx, bind, Except.bind, pure, Except.pure]
  | undef => simp [Js.truthy, bind, Except.bind, pure, Except.pure]
  | null => simp [Js.truthy, bind, Except.bind, pure, Except.pure]
  | bool b => cases b <;> simp [Js.truthy, Js.hasOwn, bind, Except.bind, pure, Except.pure]
  | num n =>
    by_cases h : n = 0 <;> simp [Js.truthy, Js.hasOwn, h, bind, Except.bind, pure, Except.pure]
  | str s =>
    by_cases h : s = "" <;> simp [Js.truthy, Js.hasOwn, h, bind, Except.bind, pure, Except.pure]
  | arr xs => simp [Js.truthy, Js.hasOwn, bind, Except.bind, pure, Except.pure]

theorem foldlM_selectStep_unshadowed : ∀ (items : List Js) (acc : String × Nat),
    (∀ x ∈ items, x.unshadowed = true) → ∃ r, items.foldlM selectStep acc = .ok r
  | [], acc, _ => ⟨acc, rfl⟩
  | x :: items, acc, h => by
    obtain ⟨r, hr⟩ := buildSelectExpression_unshadowed_step acc x (h x (List.mem_cons_self _ _))
    obtain ⟨r2, hr2⟩ := foldlM_selectStep_unshadowed items r
      (fun y hy => h y (List.mem_cons_of_mem _ hy))
    exact ⟨r2, by rw [List.foldlM_cons, hr]; exact hr2⟩

theorem buildSelectExpression_unshadowed (items : List Js)
    (h : ∀ x ∈ items, x.unshadowed = true) :
    ∃ select, buildSelectExpression (.arr items) = .ok select := by
  obtain ⟨r, hr⟩ := foldlM_selectStep_unshadowed items ("", 0) h
  exact ⟨r.1, by simp [buildSelectExpression, hr, Except.map]⟩

theorem setProp_of_notNull (v : Js) (k : String) (x : Js) (h : v.notNull = true) :
    ∃ r, v.setProp k x = Except.ok r := by
  cases v <;> first | exact ⟨_, rfl⟩ | cases h

/-- The method `_queryChanged` completes on a preference that is neither
`null` nor `undefined`. -/
theorem queryChanged_ok (env : Env) (query : Js) (w : Widget)
    (h : w.preference.notNull = true) : (queryChanged env query w).1 = Except.ok () := by
  obtain ⟨r, hr⟩ := setProp_of_notNull w.preference "value" (queryOf env query w) h
  rw [run_queryChanged, hr]

@[simp] theorem queryChanged_lastStandardModeSelect (env : Env) (query : Js) (w : Widget) :
    (queryChanged env query w).2.lastStandardModeSelect = w.lastStandardModeSelect := by
  obtain ⟨ev, h⟩ := queryChanged_frame env query w
  rw [h]

/-- C5: in Advanced view `_modeChanged` resets the query, whatever the
advanced select, where and order-by were: provided no selected item the
chooser returns for the default columns shadows `hasOwnProperty`, the chooser
is given the default columns `["id", "name"]`, the select clause is the select
expression built from its selected items and the grid is handed it with the
suffix `,id`, the where and order-by of the grid are the empty string, its
sort is the empty list, the where criteria are cleared and `_lastHeaders` is
empty; and the call completes without error when the preference of the widget
is neither `null` nor `undefined`. -/
theorem modeChanged_resets_query (env : Env) (w : Widget) (hadv : w.standardMode = false)
    (hres : ∀ x ∈ env.resolve w.standardSelectChooser.items [Js.str "id", Js.str "name"],
      x.unshadowed = true) :
    ∃ select, buildSelectExpression
        (.arr (env.resolve w.standardSelectChooser.items [Js.str "id", Js.str "name"]))
        = .ok select ∧
      (w.preference.notNull = true → (modeChanged env w).1 = Except.ok ()) ∧
      (modeChanged env w).2.standardSelectChooser.selected = [Js.str "id", Js.str "name"] ∧
      (modeChanged env w).2.standardSelectChooser.selectedItems
        = env.resolve w.standardSelectChooser.items [Js.str "id", Js.str "name"] ∧
      (modeChanged env w).2.lastStandardModeSelect
        = Js.arr (env.resolve w.standardSelectChooser.items [Js.str "id", Js.str "name"]) ∧
      (modeChanged env w).2.selectClause = Js.str select ∧
      (modeChanged env w).2.resultsGrid.select
        = (if select = "" then Js.str "" else Js.str (select ++ ",id")) ∧
      (modeChanged env w).2.resultsGrid.whereExpr = Js.str "" ∧
      (modeChanged env w).2.resultsGrid.orderBy = Js.str "" ∧
      (modeChanged env w).2.resultsGrid.sort = Js.arr [] ∧
      (modeChanged env w).2.whereCriteria = [] ∧
      (modeChanged env w).2.lastHeaders = [] ∧
      (modeChanged env w).2.standardMode = true := by
  obtain ⟨select, hsel⟩ := buildSelectExpression_unshadowed _ hres
  refine ⟨select, hsel, fun hp => ?_, ?_⟩
  · simp only [modeChanged, run_bind, run_modify, run_read, hadv, Bool.not_true,
      Bool.not_false, Bool.false_eq_true, if_false, run_lift, getDefaultColumns, Chooser.setData,
      Option.getD_none, hsel, run_setSelectClause, run_toggleSearchButton, run_search]
    exact queryChanged_ok env Js.undef _ hp
  · simp only [modeChanged, run_bind, run_modify, run_read, hadv, Bool.not_true,
      Bool.not_false, Bool.false_eq_true, if_false, run_lift, getDefaultColumns, Chooser.setData,
      Option.getD_none, hsel, run_setSelectClause, run_toggleSearchButton, run_search,
      queryChanged_standardSelectChooser, queryChanged_selectClause, queryChanged_resultsGrid,
      queryChanged_whereCriteria, queryChanged_lastHeaders, queryChanged_standardMode,
      queryChanged_lastStandardModeSelect]
    simp only [true_and, and_true, Js.truthy, Js.toStr]
    by_cases h : select = "" <;> simp [h]

theorem run_buildGrid (env : Env) (currentPage : Page) (rowsPerPage : Js) (w : Widget) :
    buildGrid env currentPage rowsPerPage w =
      match toLowerCase w.categoryName with
      | .ok c => (Except.ok (), { w with
          resultsGrid := { env.newGrid with
            category := .str c
            rowsPerPage := rowsPerPage
            currentPage := currentPage
            restoreCurrentPage := restoreFlag currentPage
            hiderToggleTitle := "Remove columns" } })
      | .error e => (Except.error e, w) := by
  simp only [buildGrid, run_bind, run_read, run_lift, run_modify]
  cases toLowerCase w.categoryName <;> rfl

@[simp] theorem truthy_obj (ps : List (String × Js)) : (Js.obj ps).truthy = true := rfl

@[simp] theorem truthy_arr (xs : List Js) : (Js.arr xs).truthy = true := rfl

@[simp] theorem truthy_undef : Js.undef.truthy = false := rfl

@[simp] theorem truthy_null : Js.null.truthy = false := rfl

theorem truthy_str {s : String} (h : s ≠ "") : (Js.str s).truthy = true := by
  simp [Js.truthy, h]

@[simp] theorem toStr_str (s : String) : (Js.str s).toStr = s := rfl

/-- C6: a query description round-trips through a preference. For a widget
in its initial Standard view whose preference value has a non-empty select
`S`, a category `C` with metadata, a where `W` and an order-by `O` (no item
the chooser returns for an empty selection shadowing `hasOwnProperty`),
`_postCreate` succeeds; afterwards `_getQuery()` reports the select `S` and the
category `C`, and the grid has been handed the select `S` followed by `,id`,
the where `W` and the order-by `O`. -/
theorem postCreate_round_trip (env : Env) (w0 : Widget) (ps vs : List (String × Js))
    (S C W O : String) (md : List (String × TypeMeta))
    (hstd : w0.standardMode = true)
    (hpref : w0.preference = Js.obj ps) (hval : ps.lookup "value" = some (Js.obj vs))
    (hS : vs.lookup "select" = some (Js.str S)) (hSne : S ≠ "")
    (hC : vs.lookup "category" = some (Js.str C)) (hCne : C ≠ "")
    (hmd : env.metadata (capitalizeFirst C) = some md)
    (hW : vs.lookup "where" = some (Js.str W)) (hO : vs.lookup "orderBy" = some (Js.str O))
    (hres : ∀ x ∈ env.resolve (combineTypeAttributesAndStatistics md).1 [], x.unshadowed = true) :
    (postCreate env w0).1 = Except.ok () ∧
    (∃ q, (getQuery env Js.undef (postCreate env w0).2).1 = Except.ok (Js.obj q) ∧
      q.lookup "select" = some (Js.str S) ∧ q.lookup "category" = some (Js.str C)) ∧
    (postCreate env w0).2.resultsGrid.select = Js.str (S ++ ",id") ∧
    (postCreate env w0).2.resultsGrid.whereExpr = Js.str W ∧
    (postCreate env w0).2.resultsGrid.orderBy = Js.str O := by
  obtain ⟨sel0, hsel0⟩ := buildSelectExpression_unshadowed _ hres
  have hSt : (Js.str S).truthy = true := truthy_str hSne
  have hCt : (Js.str C).truthy = true := truthy_str hCne
  simp only [postCreate, run_bind, run_read, run_modify, hpref, Js.get, hval, hS, hC, hW, hO,
    Option.getD_some, truthy_obj, truthy_undef, hSt, hCt, if_true, toStr_str,
    Bool.and_self, Bool.true_and,
    run_buildGrid, toLowerCase, initCategory, run_lift, getCategoryMetadata, hmd,
    Bool.not_true, Bool.false_eq_true, if_false, Chooser.setData, run_toggleSearchButton,
    modeChanged, hstd, Bool.not_false, hsel0, run_setSelectClause, run_pure,
    List.length_nil, bne_self_eq_false, run_getQuery, queryOf]
  refine ⟨trivial, ⟨_, rfl, ?_, ?_⟩, trivial, trivial, trivial⟩
  · rw [lookup_upsert, if_neg (by decide), lookup_upsert, if_pos rfl]
  · rw [lookup_upsert, if_pos rfl]

/-! ### The columns of a category -/

theorem foldl_invariant {α β : Type} (P : α → Prop) (f : α → β → α)
    (hf : ∀ a b, P a → P (f a b)) : ∀ (l : List β) (a : α), P a → P (l.foldl f a)
  | [], _, ha => ha
  | b :: l, a, ha => foldl_invariant P f hf l (f a b) (hf a b ha)

theorem attributeStep_unshadowed (c : Columns) (na : String × AttributeMeta)
    (hc : ∀ x ∈ c.columnsArray, x.unshadowed = true) :
    ∀ x ∈ (attributeStep c na).columnsArray, x.unshadowed = true := by
  unfold attributeStep
  split
  · intro x hx
    rcases List.mem_append.1 hx with h | h
    · exact hc x h
    · rw [List.mem_singleton.1 h]
      rfl
  · exact hc

theorem statisticStep_unshadowed (c : Columns) (ns : String × AttributeMeta)
    (hc : ∀ x ∈ c.columnsArray, x.unshadowed = true) :
    ∀ x ∈ (statisticStep c ns).columnsArray, x.unshadowed = true := by
  unfold statisticStep
  split
  · intro x hx
    rcases List.mem_append.1 hx with h | h
    · exact hc x h
    · rw [List.mem_singleton.1 h]
      rfl
  · exact hc

theorem typeStep_unshadowed (c : Columns) (it : String × TypeMeta)
    (hc : ∀ x ∈ c.columnsArray, x.unshadowed = true) :
    ∀ x ∈ (typeStep c it).columnsArray, x.unshadowed = true := by
  unfold typeStep
  exact foldl_invariant (fun c : Columns => ∀ x ∈ c.columnsArray, x.unshadowed = true) _
    statisticStep_unshadowed _ _
    (foldl_invariant (fun c : Columns => ∀ x ∈ c.columnsArray, x.unshadowed = true) _
      attributeStep_unshadowed _ _ hc)

theorem giveValidTypes_unshadowed (validTypes : List Js) (x : Js) (hx : x.unshadowed = true) :
    (giveValidTypes validTypes x).unshadowed = true := by
  unfold giveValidTypes
  split
  · cases x with
    | obj ps =>
      simp only [Js.unshadowed] at hx ⊢
      rw [lookup_upsert]
      simpa using hx
    | _ => exact hx
  · exact hx

/-- No column `_combineTypeAttributesAndStatistics` builds has an own property
`hasOwnProperty`. -/
theorem combine_unshadowed (md : List (String × TypeMeta)) :
    ∀ x ∈ (combineTypeAttributesAndStatistics md).1, x.unshadowed = true := by
  have h := foldl_invariant (fun c : Columns => ∀ x ∈ c.columnsArray, x.unshadowed = true)
    typeStep typeStep_unshadowed md ⟨[], [], [], false⟩ (by intro x hx; cases hx)
  unfold combineTypeAttributesAndStatistics
  simp only
  split
  · intro x hx
    obtain ⟨y, hy, rfl⟩ := List.mem_map.1 hx
    exact giveValidTypes_unshadowed _ y (h y hy)
  · exact h

/-- The method `_initCategory` on a category that is a string, with a chooser
whose selected items are among its items and do not shadow `hasOwnProperty`
at the start: it succeeds, keeps the
preference, the mode and the delete button, and leaves the standard chooser
with such items. -/
theorem initCategory_ok (env : Env) (c : String) (newPreference : Bool) (w : Widget)
    (hsub : ∀ items sel, ∀ x ∈ env.resolve items sel, x ∈ items)
    (h0 : ∀ x ∈ w.standardSelectChooser.selectedItems, x.unshadowed = true) :
    (initCategory env (Js.str c) newPreference w).1 = Except.ok () ∧
    (initCategory env (Js.str c) newPreference w).2.preference = w.preference ∧
    (initCategory env (Js.str c) newPreference w).2.standardMode = w.standardMode ∧
    (initCategory env (Js.str c) newPreference w).2.deleteButton = w.deleteButton ∧
    (initCategory env (Js.str c) newPreference w).2.lastHeaders = w.lastHeaders ∧
    ∀ x ∈ (initCategory env (Js.str c) newPreference w).2.standardSelectChooser.selectedItems,
      x.unshadowed = true := by
  unfold initCategory
  by_cases hc : (Js.str c).truthy = true
  · cases hmd : env.metadata (capitalizeFirst c) with
    | none =>
      simp only [run_bind, run_lift, getCategoryMetadata, hc, if_true, hmd, run_modify]
      exact ⟨trivial, trivial, trivial, trivial, trivial, h0⟩
    | some md =>
      cases newPreference with
      | false =>
        simp only [run_bind, run_lift, getCategoryMetadata, hc, if_true, hmd, run_modify,
          Chooser.setData, Option.getD_some, Bool.false_eq_true, if_false, run_pure]
        exact ⟨trivial, trivial, trivial, trivial, trivial,
          fun x hx => combine_unshadowed md x (hsub _ _ x hx)⟩
      | true =>
        obtain ⟨sel, hsel⟩ := buildSelectExpression_unshadowed _
          (fun x hx => combine_unshadowed md x
            (hsub (combineTypeAttributesAndStatistics md).1 (getDefaultColumns (Js.str c)) x hx))
        simp only [run_bind, run_lift, getCategoryMetadata, hc, if_true, hmd, run_modify,
          Chooser.setData, Option.getD_some, run_read, hsel, run_setSelectClause,
          run_toggleSearchButton]
        exact ⟨trivial, trivial, trivial, trivial, trivial,
          fun x hx => combine_unshadowed md x (hsub _ _ x hx)⟩
  · simp only [run_bind, run_lift, getCategoryMetadata, hc, Bool.false_eq_true, if_false,
      run_modify]
    exact ⟨trivial, trivial, trivial, trivial, trivial, h0⟩

/-- The method `_modeChanged` in Standard view, with a chooser whose selected
items do not shadow `hasOwnProperty`: it succeeds and keeps the preference and
the delete button. -/
theorem modeChanged_ok (env : Env) (w : Widget) (hstd : w.standardMode = true)
    (h0 : ∀ x ∈ w.standardSelectChooser.selectedItems, x.unshadowed = true) :
    (modeChanged env w).1 = Except.ok () ∧
    (modeChanged env w).2.preference = w.preference ∧
    (modeChanged env w).2.deleteButton = w.deleteButton := by
  obtain ⟨sel, hsel⟩ := buildSelectExpression_unshadowed _ h0
  simp only [modeChanged, run_bind, run_modify, run_read, hstd, Bool.not_true,
    Bool.not_false, if_true, run_lift, hsel]
  by_cases hl : w.lastHeaders.length = 0 <;> simp [hl]

theorem initCategory_eq (env : Env) (c : String) (newPreference : Bool) (w : Widget)
    (r : Except String Unit × Widget)
    (hsub : ∀ items sel, ∀ x ∈ env.resolve items sel, x ∈ items)
    (h : initCategory env (Js.str c) newPreference w = r)
    (h0 : ∀ x ∈ w.standardSelectChooser.selectedItems, x.unshadowed = true) :
    r.1 = Except.ok () ∧ r.2.preference = w.preference ∧ r.2.standardMode = w.standardMode ∧
    r.2.deleteButton = w.deleteButton ∧ r.2.lastHeaders = w.lastHeaders ∧
    ∀ x ∈ r.2.standardSelectChooser.selectedItems, x.unshadowed = true := by
  subst h
  exact initCategory_ok env c newPreference w hsub h0

theorem modeChanged_eq (env : Env) (w : Widget) (r : Except String Unit × Widget)
    (h : modeChanged env w = r) (hstd : w.standardMode = true)
    (h0 : ∀ x ∈ w.standardSelectChooser.selectedItems, x.unshadowed = true) :
    r.1 = Except.ok () ∧ r.2.preference = w.preference ∧ r.2.deleteButton = w.deleteButton := by
  subst h
  exact modeChanged_ok env w hstd h0

theorem act_eta {α : Type} (r : Except String α × Widget) (a : α) (h : r.1 = Except.ok a) :
    r = (Except.ok a, r.2) := by
  cases r
  simp only at h
  rw [h]

/-- C9: after `_postCreate` the delete button is enabled if and only if the
preference of the widget is non-null and its id is neither null nor
undefined. The widget starts in Standard view, the category of the preference
is a string when it is given, the selected items of a chooser are among its
items and no item selected at the start shadows `hasOwnProperty`;
`_postCreate` then succeeds. -/
theorem postCreate_deleteButton (env : Env) (w0 : Widget) (hstd : w0.standardMode = true)
    (hcat : ((w0.preference.get "value").get "category").truthy = true →
      ∃ c, (w0.preference.get "value").get "category" = Js.str c)
    (hsub : ∀ items sel, ∀ x ∈ env.resolve items sel, x ∈ items)
    (h0 : ∀ x ∈ w0.standardSelectChooser.selectedItems, x.unshadowed = true) :
    (postCreate env w0).1 = Except.ok () ∧
    ((postCreate env w0).2.deleteButton.disabled = false ↔
      (w0.preference.notNull = true ∧ (w0.preference.get "id").notNull = true)) := by
  have hcatname : ∀ b : Bool, ∃ c,
      (if (b && ((w0.preference.get "value").get "category").truthy) = true
        then (w0.preference.get "value").get "category" else Js.str "Queue") = Js.str c := by
    intro b
    by_cases h : (b && ((w0.preference.get "value").get "category").truthy) = true
    · rw [if_pos h]
      rw [Bool.and_eq_true] at h
      exact hcat h.2
    · rw [if_neg h]
      exact ⟨"Queue", rfl⟩
  obtain ⟨c, hc⟩ := hcatname (if w0.preference.truthy = true then w0.preference.get "value"
    else w0.preference).truthy
  simp only [postCreate, run_bind, run_read, run_modify, run_buildGrid, hc, toLowerCase]
  generalize hI : initCategory env (Js.str c) _ _ = r
  obtain ⟨k1, k2, k3, k4, k5, k6⟩ := initCategory_eq env c _ _ r hsub hI h0
  simp only at k2 k3 k4
  rw [act_eta r () k1]
  simp only [run_toggleSearchButton]
  have hfin : ∀ p : Js, ((if (p.notNull && (p.get "id").notNull) = true then false else true)
      = false ↔ (p.notNull = true ∧ (p.get "id").notNull = true)) := by
    intro p
    cases p.notNull <;> cases (p.get "id").notNull <;> simp
  generalize (if (if w0.preference.truthy = true then w0.preference.get "value"
      else w0.preference).truthy = true then (w0.preference.get "value").get "select"
    else (if w0.preference.truthy = true then w0.preference.get "value"
      else w0.preference)).truthy = b
  cases b
  · simp only [run_bind, run_pure, run_modify, k2, Bool.false_eq_true, if_false]
    exact ⟨trivial, hfin _⟩
  · simp only [run_bind, if_true]
    generalize hM : modeChanged env _ = m
    obtain ⟨m1, m2, m3⟩ := modeChanged_eq env _ m hM (by simp only; rw [k3]; exact hstd)
      (by simp only; exact k6)
    rw [act_eta m () m1]
    simp only [run_modify, run_read, run_setSelectClause, run_bind, m2, k2]
    exact ⟨trivial, hfin _⟩

/-! ### The grid transformer -/

theorem foldl_append_singleton {α β : Type} (f : α → β) :
    ∀ (l : List α) (acc : List β), l.foldl (fun r a => r ++ [f a]) acc = acc ++ l.map f
  | [], acc => by simp
  | a :: l, acc => by
    simp only [List.foldl_cons, List.map_cons]
    rw [foldl_append_singleton f l]
    simp

theorem transformer_eq_map (rows : List (List Js)) : transformer rows = rows.map transformRow := by
  unfold transformer
  rw [foldl_append_singleton]
  rfl

theorem upsert_append_new {β : Type} (k : String) (x : β) :
    ∀ (ps : List (String × β)), k ∉ ps.map Prod.fst → upsert ps k x = ps ++ [(k, x)]
  | [], _ => rfl
  | (k', y) :: ps, h => by
    have hk : k' ≠ k := fun e => h (by simp [e])
    have hm : k ∉ ps.map Prod.fst := fun e => h (by simp at e ⊢; exact Or.inr e)
    simp only [upsert, hk, if_false, List.cons_append]
    rw [upsert_append_new k x ps hm]

/-- The fields of an item after the first `m` rounds of the loop. -/
theorem transformRow_loop (result : List Js) (item0 : Js) : ∀ m : Nat,
    (List.range m).foldl
        (fun item j => upsert item (toString (j + 1)) ((result.get? j).getD Js.undef))
        [("id", item0)]
      = ("id", item0) ::
          (List.range m).map fun j => (toString (j + 1), (result.get? j).getD Js.undef)
  | 0 => rfl
  | m + 1 => by
    rw [List.range_succ, List.foldl_append, transformRow_loop result item0 m]
    simp only [List.foldl_cons, List.foldl_nil, List.map_append, List.map_cons, List.map_nil]
    rw [upsert_append_new]
    · rfl
    · simp only [List.map_cons, List.map_map, List.mem_cons, List.mem_map, List.mem_range,
        Function.comp, not_or, not_exists, not_and]
      constructor
      · exact toString_nat_ne_of_nondigit (m + 1) "id" 'i' (by decide) (by decide)
      · intro j hj e
        have := toString_nat_injective _ _ e
        omega

theorem transformRow_eq (result : List Js) :
    transformRow result = ("id", (result.get? (result.length - 1)).getD Js.undef) ::
      (List.range (result.length - 1)).map fun j =>
        (toString (j + 1), (result.get? j).getD Js.undef) := by
  unfold transformRow
  exact transformRow_loop result _ _

/-- C7: the transformer of the result grid maps the rows to items with 1-based
field keys, the id column apart: the output has one item for each row, in the
same order, and for a non-empty row `r` of length `n` its item has `id` equal
to `r[n-1]`, for each `j < n - 1` the field named by the decimal string of
`j + 1` equal to `r[j]`, and no other field. -/
theorem transformer_items (rows : List (List Js)) (hne : ∀ r ∈ rows, r ≠ []) :
    (transformer rows).length = rows.length ∧
    ∀ (i : Nat) (r : List Js), rows[i]? = some r →
      ∃ item, (transformer rows)[i]? = some item ∧
        item.lookup "id" = r[r.length - 1]? ∧
        (∀ j, j < r.length - 1 → item.lookup (toString (j + 1)) = r[j]?) ∧
        item.map Prod.fst = "id" :: (List.range (r.length - 1)).map fun j => toString (j + 1) := by
  rw [transformer_eq_map]
  refine ⟨List.length_map _ _, ?_⟩
  intro i r hr
  have hmem : r ∈ rows := List.getElem?_mem hr
  have hrne := hne r hmem
  have hlen : 0 < r.length := List.length_pos.2 hrne
  refine ⟨transformRow r, by rw [List.getElem?_map, hr]; rfl, ?_, ?_, ?_⟩
  · rw [transformRow_eq]
    simp only [List.lookup, beq_self_eq_true, List.get?_eq_getElem?]
    rw [List.getElem?_eq_getElem (by omega)]
    rfl
  · intro j hj
    rw [transformRow_eq]
    have hkey : ("id" == toString (j + 1)) = false := by
      rw [beq_eq_false_iff_ne]
      exact fun e => toString_nat_ne_of_nondigit (j + 1) "id" 'i' (by decide) (by decide) e.symm
    have hk2 : (toString (j + 1) == "id") = false := by
      rw [beq_eq_false_iff_ne]
      exact toString_nat_ne_of_nondigit (j + 1) "id" 'i' (by decide) (by decide)
    simp only [List.lookup, hk2]
    rw [lookup_eq_some_of_nodup (x := (r.get? j).getD Js.undef)]
    · simp only [List.get?_eq_getElem?]
      rw [List.getElem?_eq_getElem (by omega)]
      rfl
    · rw [List.map_map]
      exact List.Nodup.map (fun a b h => by
        have := toString_nat_injective _ _ h
        omega) (List.nodup_range _)
    · exact List.mem_map.2 ⟨j, List.mem_range.2 hj, rfl⟩
  · rw [transformRow_eq]
    simp only [List.map_cons, List.map_map]
    rfl

/-! ### Cloning a query -/

theorem lookup_filter_ne {k0 k : String} : ∀ (ps : List (String × Js)),
    (ps.filter fun p => p.1 != k0).lookup k = if k = k0 then none else ps.lookup k
  | [] => by simp [List.lookup]
  | (k', y) :: ps => by
    by_cases h0 : k' = k0
    · subst h0
      simp only [List.filter, bne_self_eq_false]
      rw [lookup_filter_ne ps]
      by_cases hk : k = k'
      · simp [hk]
      · have hb : (k == k') = false := by simpa using hk
        simp [hk, List.lookup, hb]
    · have hb0 : (k' != k0) = true := by simpa using h0
      simp only [List.filter, hb0]
      by_cases hk : k = k'
      · subst hk
        simp [List.lookup, h0]
      · have hb : (k == k') = false := by simpa using hk
        simp only [List.lookup, hb]
        exact lookup_filter_ne ps

theorem lookup_deleteIfTruthy (k0 k : String) (ps : List (String × Js)) :
    (deleteIfTruthy k0 ps).lookup k =
      if k = k0 ∧ ((ps.lookup k0).getD Js.undef).truthy = true then none else ps.lookup k := by
  unfold deleteIfTruthy
  by_cases ht : ((ps.lookup k0).getD Js.undef).truthy = true
  · simp only [ht, if_true, and_true]
    exact lookup_filter_ne ps
  · simp [ht]

/-- C10, as stated, fails on a preference whose `id` is `null` and whose
`name` is the empty string: `_onQueryClone` deletes a property only when its
value is truthy, so the preference of the emitted "clone" event still has both
properties. -/
theorem onQueryClone_keeps_falsy_counterexample :
    ∃ qs,
      (onQueryClone sampleEnv cloneEvent (sampleWidget unnamedPreference)).2.emitted =
        [("clone", Js.obj [("preference", Js.obj qs), ("parentObject", Js.str "broker")])] ∧
      qs.lookup "name" = some (Js.str "") ∧ qs.lookup "id" = some Js.null :=
  ⟨_, rfl, rfl, rfl⟩

/-- C10 (amended): on a preference that is an object and an event `e` that is
neither null nor undefined, `_onQueryClone(e)` succeeds, hides the dialog and
emits one "clone" event; the preference of the event has `value` equal to the
current query, has each of `id`, `name` and `visibilityList` removed when its
value is truthy and kept when it is not, every other property as in the
preference of the widget; `parentObject` is `e.parentObject`, and the
preference of the widget is unchanged. -/
theorem onQueryClone_emits (env : Env) (e : Js) (w : Widget) (ps : List (String × Js))
    (hpref : w.preference = Js.obj ps) (he : e.notNull = true) :
    ∃ qs query,
      onQueryClone env e w = (Except.ok (), { w with
        cloneDialogOpen := false
        emitted := w.emitted ++ [("clone",
          Js.obj [("preference", Js.obj qs), ("parentObject", e.get "parentObject")])] }) ∧
      (getQuery env Js.undef w).1 = Except.ok query ∧
      qs.lookup "value" = some query ∧
      (∀ k, k ∈ ["id", "name", "visibilityList"] →
        qs.lookup k = if ((ps.lookup k).getD Js.undef).truthy = true then none
          else ps.lookup k) ∧
      (∀ k, k ∉ ["id", "name", "visibilityList", "value"] → qs.lookup k = ps.lookup k) ∧
      (onQueryClone env e w).2.preference = w.preference := by
  have hprop : e.prop "parentObject" = Except.ok (e.get "parentObject") := by
    cases e <;> first | rfl | exact absurd he (by decide)
  have hrun : onQueryClone env e w = (Except.ok (), { w with
      cloneDialogOpen := false
      emitted := w.emitted ++ [("clone", Js.obj [("preference",
        Js.obj (upsert (deleteIfTruthy "id" (deleteIfTruthy "name"
          (deleteIfTruthy "visibilityList" ps))) "value" (queryOf env Js.undef w))),
        ("parentObject", e.get "parentObject")])] }) := by
    have hf : ∀ (k0 k : String), k ≠ k0 → ∀ qs : List (String × Js),
        (qs.filter fun p => p.1 != k0).lookup k = qs.lookup k := by
      intro k0 k hk qs
      rw [lookup_filter_ne, if_neg hk]
    have hpo : ∀ (qs : List (String × Js)) (k : String),
        (Js.obj qs).prop k = Except.ok ((qs.lookup k).getD Js.undef) := fun _ _ => rfl
    have hvn := hf "visibilityList" "name" (by decide)
    have hvi := hf "visibilityList" "id" (by decide)
    have hni := hf "name" "id" (by decide)
    cases hv : ((ps.lookup "visibilityList").getD Js.undef).truthy <;>
    cases hn : ((ps.lookup "name").getD Js.undef).truthy <;>
    cases hi : ((ps.lookup "id").getD Js.undef).truthy <;>
    simp only [onQueryClone, run_bind, run_read, run_lift, hpref, hpo, Js.deleteProp,
      Js.setProp, deleteIfTruthy, hv, hn, hi, hvn, hvi, hni, Bool.false_eq_true, if_false,
      if_true, run_getQuery, run_modify, run_emit, hprop]
  refine ⟨_, queryOf env Js.undef w, hrun, rfl, ?_, ?_, ?_, ?_⟩
  · rw [lookup_upsert, if_pos rfl]
  · intro k hk
    simp only [List.mem_cons, List.mem_singleton, List.not_mem_nil, or_false] at hk
    rw [lookup_upsert]
    rcases hk with rfl | rfl | rfl <;> simp [lookup_deleteIfTruthy]
  · intro k hk
    simp only [List.mem_cons, List.mem_singleton, List.not_mem_nil, or_false, not_or] at hk
    rw [lookup_upsert, if_neg hk.2.2.2]
    simp [lookup_deleteIfTruthy, hk.1, hk.2.1, hk.2.2.1]
  · rw [hrun]

theorem onQueryClone_emits_witness :
    (sampleWidget savedPreference).preference = Js.obj savedProperties ∧
    cloneEvent.notNull = true ∧
    ∃ qs query,
      onQueryClone sampleEnv cloneEvent (sampleWidget savedPreference) =
        (Except.ok (), { sampleWidget savedPreference with
          cloneDialogOpen := false
          emitted := (sampleWidget savedPreference).emitted ++ [("clone",
            Js.obj [("preference", Js.obj qs),
              ("parentObject", cloneEvent.get "parentObject")])] }) ∧
      (getQuery sampleEnv Js.undef (sampleWidget savedPreference)).1 = Except.ok query ∧
      qs.lookup "value" = some query ∧
      (∀ k, k ∈ ["id", "name", "visibilityList"] →
        qs.lookup k = if ((savedProperties.lookup k).getD Js.undef).truthy = true then none
          else savedProperties.lookup k) ∧
      (∀ k, k ∉ ["id", "name", "visibilityList", "value"] →
        qs.lookup k = savedProperties.lookup k) ∧
      (onQueryClone sampleEnv cloneEvent (sampleWidget savedPreference)).2.preference =
        (sampleWidget savedPreference).preference :=
  ⟨rfl, rfl, onQueryClone_emits sampleEnv cloneEvent (sampleWidget savedPreference)
    savedProperties rfl rfl⟩

/-! ### The theorems on the sample widget -/

theorem sampleResolve_subset (items selected : List Js) :
    ∀ x ∈ sampleResolve items selected, x ∈ items := by
  intro x hx
  obtain ⟨s, _, hs⟩ := List.mem_filterMap.1 hx
  exact List.mem_of_find?_eq_some hs

theorem modeChanged_copies_settings_witness :
    (sampleWidget Js.null).standardMode = true ∧
    List.Forall₂ IsColumn (sampleWidget Js.null).standardSelectChooser.selectedItems
      ["id", "name"] ∧
    (modeChanged sampleEnv (sampleWidget Js.null)).2.advancedSelect.value
      = Js.str (",".intercalate ["id", "name"]) :=
  ⟨rfl, List.Forall₂.cons ⟨_, rfl, rfl, rfl⟩ (List.Forall₂.cons ⟨_, rfl, rfl, rfl⟩ List.Forall₂.nil),
    (modeChanged_copies_settings sampleEnv (sampleWidget Js.null) ["id", "name"] rfl
      (List.Forall₂.cons ⟨_, rfl, rfl, rfl⟩
        (List.Forall₂.cons ⟨_, rfl, rfl, rfl⟩ List.Forall₂.nil))).2.1⟩

theorem modeChanged_resets_query_witness :
    advancedWidget.standardMode = false ∧
    ((sampleEnv.resolve advancedWidget.standardSelectChooser.items
      [Js.str "id", Js.str "name"]).all Js.unshadowed = true) ∧
    advancedWidget.preference.notNull = true ∧
    advancedWidget.standardSelectChooser.selected = [Js.str "durable"] ∧
    advancedWidget.selectClause = Js.str "name,durable" ∧
    advancedWidget.resultsGrid.whereExpr = Js.str "durable = true" ∧
    advancedWidget.resultsGrid.orderBy = Js.str "name" ∧
    advancedWidget.resultsGrid.sort = Js.arr [sortEntry 2 (Js.bool true)] ∧
    advancedWidget.whereCriteria.length = 1 ∧
    advancedWidget.lastHeaders = [Js.str "name", Js.str "durable"] ∧
    (modeChanged sampleEnv advancedWidget).1 = Except.ok () ∧
    (modeChanged sampleEnv advancedWidget).2.standardSelectChooser.selected
      = [Js.str "id", Js.str "name"] ∧
    (modeChanged sampleEnv advancedWidget).2.selectClause = Js.str "id,name" ∧
    (modeChanged sampleEnv advancedWidget).2.resultsGrid.whereExpr = Js.str "" ∧
    (modeChanged sampleEnv advancedWidget).2.resultsGrid.orderBy = Js.str "" ∧
    (modeChanged sampleEnv advancedWidget).2.resultsGrid.sort = Js.arr [] ∧
    (modeChanged sampleEnv advancedWidget).2.whereCriteria = [] ∧
    (modeChanged sampleEnv advancedWidget).2.lastHeaders = [] :=
  ⟨rfl, rfl, rfl, rfl, rfl, rfl, rfl, rfl, rfl, rfl,
    (modeChanged_resets_query sampleEnv advancedWidget rfl (List.all_eq_true.1 rfl)).elim
      fun _ h => h.2.1 rfl,
    (modeChanged_resets_query sampleEnv advancedWidget rfl (List.all_eq_true.1 rfl)).elim
      fun _ h => h.2.2.1,
    rfl,
    (modeChanged_resets_query sampleEnv advancedWidget rfl (List.all_eq_true.1 rfl)).elim
      fun _ h => h.2.2.2.2.2.2.2.1,
    (modeChanged_resets_query sampleEnv advancedWidget rfl (List.all_eq_true.1 rfl)).elim
      fun _ h => h.2.2.2.2.2.2.2.2.1,
    (modeChanged_resets_query sampleEnv advancedWidget rfl (List.all_eq_true.1 rfl)).elim
      fun _ h => h.2.2.2.2.2.2.2.2.2.1,
    (modeChanged_resets_query sampleEnv advancedWidget rfl (List.all_eq_true.1 rfl)).elim
      fun _ h => h.2.2.2.2.2.2.2.2.2.2.1,
    (modeChanged_resets_query sampleEnv advancedWidget rfl (List.all_eq_true.1 rfl)).elim
      fun _ h => h.2.2.2.2.2.2.2.2.2.2.2.1⟩

theorem postCreate_round_trip_witness :
    "name,durable" ≠ "" ∧ "queue" ≠ "" ∧
    sampleEnv.metadata (capitalizeFirst "queue") = some queueMetadata ∧
    (postCreate sampleEnv (sampleWidget savedPreference)).1 = Except.ok () ∧
    (∃ q, (getQuery sampleEnv Js.undef
        (postCreate sampleEnv (sampleWidget savedPreference)).2).1 = Except.ok (Js.obj q) ∧
      q.lookup "select" = some (Js.str "name,durable") ∧
      q.lookup "category" = some (Js.str "queue")) ∧
    (postCreate sampleEnv (sampleWidget savedPreference)).2.resultsGrid.select
      = Js.str ("name,durable" ++ ",id") ∧
    (postCreate sampleEnv (sampleWidget savedPreference)).2.resultsGrid.whereExpr
      = Js.str "durable = true" ∧
    (postCreate sampleEnv (sampleWidget savedPreference)).2.resultsGrid.orderBy
      = Js.str "name" :=
  ⟨by decide, by decide, rfl,
    postCreate_round_trip sampleEnv (sampleWidget savedPreference) savedProperties
      [("select", .str "name,durable"), ("category", .str "queue"),
        ("where", .str "durable = true"), ("orderBy", .str "name")]
      "name,durable" "queue" "durable = true" "name" queueMetadata
      rfl rfl rfl rfl (by decide) rfl (by decide) rfl rfl rfl
      (fun x hx => combine_unshadowed queueMetadata x (sampleResolve_subset _ _ x hx))⟩

theorem transformer_items_witness :
    (∀ r ∈ sampleRows, r ≠ []) ∧
    (transformer sampleRows).length = sampleRows.length ∧
    ∀ (i : Nat) (r : List Js), sampleRows[i]? = some r →
      ∃ item, (transformer sampleRows)[i]? = some item ∧
        item.lookup "id" = r[r.length - 1]? ∧
        (∀ j, j < r.length - 1 → item.lookup (toString (j + 1)) = r[j]?) ∧
        item.map Prod.fst = "id" :: (List.range (r.length - 1)).map fun j => toString (j + 1) :=
  ⟨by simp [sampleRows], transformer_items sampleRows (by simp [sampleRows])⟩

theorem postCreate_deleteButton_witness :
    (sampleWidget savedPreference).standardMode = true ∧
    (postCreate sampleEnv (sampleWidget savedPreference)).1 = Except.ok () ∧
    ((postCreate sampleEnv (sampleWidget savedPreference)).2.deleteButton.disabled = false ↔
      (savedPreference.notNull = true ∧ (savedPreference.get "id").notNull = true)) :=
  ⟨rfl, postCreate_deleteButton sampleEnv (sampleWidget savedPreference) rfl
    (fun _ => ⟨"queue", rfl⟩) sampleResolve_subset (List.all_eq_true.1 rfl)⟩

end Qpid

namespace Qpid

/-! ### Deleting a query -/

/-- C11: `_deleteQuery` on a widget with a preference. The call
`management.deletePreference(parentObject, preference.type, preference.name)`
is made if and only if the user confirms and the preference has an id (a
truthy `id`), and no other call to the store is made; a "delete" event is
emitted if and only if the user confirms and either the preference has no id
or the deletion succeeds, so never when the user declines and, with an id,
only once the deletion has succeeded. -/
theorem deleteQuery_calls_and_events (userConfirms : String → Bool)
    (deleted : Js → Js → Js → Bool) (w : Widget) (message : String)
    (hpref : w.preference.notNull = true)
    (hmessage : message = if (w.preference.get "id").truthy = true
      then "Are you sure you want to delete the query?"
        ++ "\nQuery information will be removed from preferences."
      else "Are you sure you want to delete the query?") :
    (deleteQuery userConfirms deleted w).1 = Except.ok (QueryCall.confirm message ::
      (if userConfirms message = true ∧ (w.preference.get "id").truthy = true
        then [QueryCall.deletePreference w.parentObject (w.preference.get "type")
          (w.preference.get "name")]
        else [])) ∧
    (deleteQuery userConfirms deleted w).2 = { w with
      emitted := w.emitted ++
        (if userConfirms message = true ∧ ((w.preference.get "id").truthy = false ∨
            deleted w.parentObject (w.preference.get "type") (w.preference.get "name") = true)
          then [("delete", Js.undef)] else []) } := by
  have hprop : ∀ k, w.preference.prop k = Except.ok (w.preference.get k) := by
    intro k
    cases hp : w.preference <;> first | rfl | (rw [hp] at hpref; exact absurd hpref (by decide))
  cases hid : (w.preference.get "id").truthy <;>
  simp only [hid, Bool.false_eq_true, if_false, if_true] at hmessage <;>
  subst hmessage <;>
  cases hc : userConfirms _ <;>
  cases hd : deleted w.parentObject (w.preference.get "type") (w.preference.get "name") <;>
  (try simp only [String.reduceAppend] at hc) <;>
  simp [deleteQuery, hprop, hid, hc, hd, emit]

theorem deleteQuery_calls_and_events_witness :
    (sampleWidget savedPreference).preference.notNull = true ∧
    (deleteQuery (fun _ => true) (fun _ _ _ => false) (sampleWidget savedPreference)).1
      = Except.ok [QueryCall.confirm ("Are you sure you want to delete the query?"
          ++ "\nQuery information will be removed from preferences."),
        QueryCall.deletePreference (Js.obj [("type", Js.str "broker")]) (Js.str "query")
          (Js.str "durable queues")] ∧
    (deleteQuery (fun _ => true) (fun _ _ _ => false) (sampleWidget savedPreference)).2.emitted
      = [] :=
  ⟨rfl,
    (deleteQuery_calls_and_events (fun _ => true) (fun _ _ _ => false)
      (sampleWidget savedPreference) _ rfl rfl).1,
    congrArg Widget.emitted (deleteQuery_calls_and_events (fun _ => true) (fun _ _ _ => false)
      (sampleWidget savedPreference) _ rfl rfl).2⟩

/-! ### The dialog `editBroker` -/

theorem prop_of_notNull (v : Js) (h : v.notNull = true) (k : String) :
    v.prop k = Except.ok (v.get k) := by
  cases v <;> first | rfl | exact absurd h (by decide)

theorem call_eq (ed : BrokerEditor) (f : String) (c : WidgetCall) (w : FormWidget)
    (h : ed.widgets.lookup f = some w) :
    ed.call f c = Except.ok { ed with
      widgets := upsert ed.widgets f { w with calls := w.calls ++ [c] } } := by
  simp [BrokerEditor.call, h]

theorem fillStep_eq (actualData : Js) (hactual : actualData.notNull = true) (ed : BrokerEditor)
    (f : String) (w : FormWidget) (h : ed.widgets.lookup f = some w) :
    fillStep actualData ed f = Except.ok { ed with
      widgets := upsert (upsert ed.widgets f { w with calls := w.calls ++ [WidgetCall.reset] }) f
        (filled actualData f w) } := by
  unfold fillStep
  rw [call_eq ed f _ w h, prop_of_notNull actualData hactual]
  simp only [bind, Except.bind, lookup_upsert, if_true]
  cases hc : w.isCheckBox <;>
    simp [BrokerEditor.call, lookup_upsert, filled, hc]

theorem upsert_upsert {β : Type} (k : String) (x y : β) : ∀ (ps : List (String × β)),
    upsert (upsert ps k x) k y = upsert ps k y
  | [] => by simp [upsert]
  | (k1, z) :: ps => by
    by_cases h : k1 = k
    · simp [upsert, h]
    · simp [upsert, h, upsert_upsert k x y ps]

theorem fill_loop (actualData : Js) (hactual : actualData.notNull = true) :
    ∀ (fs : List String) (ed : BrokerEditor), fs.Nodup →
      (∀ f ∈ fs, (ed.widgets.lookup f).isSome = true) →
      ∃ ws, fs.foldlM (fillStep actualData) ed = Except.ok { ed with widgets := ws } ∧
        ∀ g, ws.lookup g = if g ∈ fs then (ed.widgets.lookup g).map (filled actualData g)
          else ed.widgets.lookup g
  | [], ed, _, _ => ⟨ed.widgets, rfl, fun g => by simp⟩
  | f :: fs, ed, hnd, hw => by
    obtain ⟨w, hwf⟩ := Option.isSome_iff_exists.1 (hw f (List.mem_cons_self _ _))
    have hnd2 := List.nodup_cons.1 hnd
    rw [List.foldlM_cons, fillStep_eq actualData hactual ed f w hwf, upsert_upsert]
    simp only [bind, Except.bind]
    obtain ⟨ws, hws, hlook⟩ := fill_loop actualData hactual fs
      { ed with widgets := upsert ed.widgets f (filled actualData f w) } hnd2.2
      (by
        intro g hg
        have hne : g ≠ f := fun e => hnd2.1 (e ▸ hg)
        simp only [lookup_upsert, if_neg hne]
        exact hw g (List.mem_cons_of_mem _ hg))
    refine ⟨ws, hws, ?_⟩
    intro g
    rw [hlook g]
    simp only [lookup_upsert, List.mem_cons]
    by_cases hgf : g = f
    · subst hgf
      simp [hnd2.1, hwf]
    · simp [hgf]

/-- The state `_show` leaves, when the host choices are built, the actual data
and the management client are not null and the six form widgets exist. -/
theorem show_result (ed : BrokerEditor) (actualData effectiveData : Js) (data : List Js)
    (hhosts : hostChoices effectiveData = Except.ok data)
    (hactual : actualData.notNull = true) (hman : ed.management.notNull = true)
    (hw : ∀ f ∈ fields, (ed.widgets.lookup f).isSome = true) :
    ∃ ws, ed.show actualData effectiveData = Except.ok
        { management := ed.management
          initialData := actualData
          widgets := ws
          resizeEventRegistered := true
          calls := ed.calls ++
            [EditorCall.applyMetadataToWidgets (ed.management.get "metadata"),
              EditorCall.setContextData actualData effectiveData,
              EditorCall.dialogStartup, EditorCall.dialogShow] ++
            (if ed.resizeEventRegistered = true then []
              else [EditorCall.resizeContentAreaAndRepositionDialog]) } ∧
      (∀ f ∈ fields, ∀ w, ed.widgets.lookup f = some w →
        ws.lookup f = some (filled actualData f { w with
          calls := w.calls ++ (if f = "defaultVirtualHost"
            then [WidgetCall.set "store" (memoryStore data)] else []) })) ∧
      (∀ f, f ∉ fields → ws.lookup f = ed.widgets.lookup f) := by
  obtain ⟨w0, hw0⟩ := Option.isSome_iff_exists.1 (hw "defaultVirtualHost" (by decide))
  obtain ⟨ws, hws, hlook⟩ := fill_loop actualData hactual fields
    { ed with
      initialData := actualData
      widgets := upsert ed.widgets "defaultVirtualHost"
        { w0 with calls := w0.calls ++ [WidgetCall.set "store" (memoryStore data)] } }
    (by decide)
    (by
      intro f hf
      simp only [lookup_upsert]
      split
      · rfl
      · exact hw f hf)
  simp only at hws hlook
  refine ⟨ws, ?_, ?_, ?_⟩
  · unfold BrokerEditor.show
    simp only [hhosts, bind, Except.bind]
    rw [call_eq { ed with initialData := actualData } _ _ w0 hw0]
    simp only [hws, prop_of_notNull _ hman, pure, Except.pure]
    cases ed.resizeEventRegistered <;> simp
  · intro f hf w hwf
    rw [hlook f, if_pos hf]
    simp only [lookup_upsert]
    by_cases hd : f = "defaultVirtualHost"
    · subst hd
      rw [hw0] at hwf
      injection hwf with hwf
      subst hwf
      simp
    · simp [hd, hwf]
  · intro f hf
    rw [hlook f, if_neg hf]
    simp only [lookup_upsert]
    have hd : f ≠ "defaultVirtualHost" := by
      intro e
      apply hf
      rw [e]
      decide
    rw [if_neg hd]

theorem hostStep_node (data : List Js) (node : List (String × Js)) (h : NodeShape node) :
    hostStep data (Js.obj node) = Except.ok (data ++
      ((firstHostName node).map fun name => Js.obj [("id", name), ("name", name)]).toList) := by
  rcases h with h | ⟨host, rest, h⟩
  · simp [hostStep, Js.prop, h, firstHostName, bind, Except.bind, pure, Except.pure]
  · simp [hostStep, Js.prop, h, firstHostName, Js.first, bind, Except.bind, pure, Except.pure]

theorem hostStep_loop : ∀ (nodes : List (List (String × Js))) (data : List Js),
    (∀ n ∈ nodes, NodeShape n) →
    (nodes.map Js.obj).foldlM hostStep data = Except.ok (data ++ nodes.filterMap fun n =>
      (firstHostName n).map fun name => Js.obj [("id", name), ("name", name)])
  | [], data, _ => by simp [pure, Except.pure]
  | n :: nodes, data, h => by
    rw [List.map_cons, List.foldlM_cons, hostStep_node data n (h n (List.mem_cons_self _ _))]
    simp only [bind, Except.bind]
    rw [hostStep_loop nodes _ (fun m hm => h m (List.mem_cons_of_mem _ hm))]
    cases hf : firstHostName n <;> simp [List.filterMap_cons, hf]

theorem hostChoices_nodes (effective : List (String × Js)) (nodes : List (List (String × Js)))
    (hnodes : effective.lookup "virtualhostnodes" = some (Js.arr (nodes.map Js.obj)) ∨
      (effective.lookup "virtualhostnodes" = none ∧ nodes = []))
    (hshape : ∀ n ∈ nodes, NodeShape n) :
    hostChoices (Js.obj effective) = Except.ok (nodes.filterMap fun n =>
      (firstHostName n).map fun name => Js.obj [("id", name), ("name", name)]) := by
  rcases hnodes with h | ⟨h, rfl⟩
  · simp only [hostChoices, Js.prop, h, Option.getD_some, bind, Except.bind, truthy_arr, if_true]
    rw [hostStep_loop nodes [] hshape]
    simp
  · simp [hostChoices, Js.prop, h, bind, Except.bind, pure, Except.pure]

/-- C12: `_show(actualData, effectiveData)` builds the virtual-host choices
from the effective data. When `effectiveData.virtualhostnodes` is the array of
the nodes, each without a property `virtualhosts` or with a non-empty array of
virtual hosts under it, the data of the store are, in node order, one entry
`{id: n, name: n}` for every node with the property, `n` the name of its first
virtual host; nodes without it contribute nothing, and the data are empty when
`virtualhostnodes` is absent. The store is set on the widget
`defaultVirtualHost` before the widget is reset and filled. -/
theorem show_host_choices (ed : BrokerEditor) (actualData : Js)
    (effective : List (String × Js)) (nodes : List (List (String × Js)))
    (hnodes : effective.lookup "virtualhostnodes" = some (Js.arr (nodes.map Js.obj)) ∨
      (effective.lookup "virtualhostnodes" = none ∧ nodes = []))
    (hshape : ∀ n ∈ nodes, NodeShape n)
    (hactual : actualData.notNull = true) (hman : ed.management.notNull = true)
    (hw : ∀ f ∈ fields, (ed.widgets.lookup f).isSome = true) :
    hostChoices (Js.obj effective) = Except.ok (nodes.filterMap fun n =>
      (firstHostName n).map fun name => Js.obj [("id", name), ("name", name)]) ∧
    ∃ r w0 w, ed.show actualData (Js.obj effective) = Except.ok r ∧
      ed.widgets.lookup "defaultVirtualHost" = some w0 ∧
      r.widgets.lookup "defaultVirtualHost" = some w ∧
      w.calls = w0.calls ++
        [WidgetCall.set "store" (memoryStore (nodes.filterMap fun n =>
          (firstHostName n).map fun name => Js.obj [("id", name), ("name", name)]))] ++
        [WidgetCall.reset, WidgetCall.set (if w0.isCheckBox then "checked" else "value")
          (actualData.get "defaultVirtualHost")] := by
  have hh := hostChoices_nodes effective nodes hnodes hshape
  refine ⟨hh, ?_⟩
  obtain ⟨ws, hshow, hin, _⟩ := show_result ed actualData (Js.obj effective) _ hh hactual hman hw
  obtain ⟨w0, hw0⟩ := Option.isSome_iff_exists.1 (hw "defaultVirtualHost" (by decide))
  refine ⟨_, w0, _, hshow, hw0, hin "defaultVirtualHost" (by decide) w0 hw0, ?_⟩
  simp [filled]

theorem show_host_choices_witness :
    (effectiveProperties.lookup "virtualhostnodes" = some (Js.arr (sampleNodes.map Js.obj)) ∨
      (effectiveProperties.lookup "virtualhostnodes" = none ∧ sampleNodes = [])) ∧
    (∀ n ∈ sampleNodes, NodeShape n) ∧
    hostChoices effectiveBroker
      = Except.ok [Js.obj [("id", Js.str "default"), ("name", Js.str "default")]] :=
  ⟨Or.inl rfl,
    by
      intro n hn
      simp only [sampleNodes, List.mem_cons, List.mem_singleton, List.not_mem_nil,
        or_false] at hn
      rcases hn with rfl | rfl
      · exact Or.inr ⟨_, _, rfl⟩
      · exact Or.inl rfl,
    (show_host_choices sampleEditor actualBroker effectiveProperties sampleNodes (Or.inl rfl)
      (by
        intro n hn
        simp only [sampleNodes, List.mem_cons, List.mem_singleton, List.not_mem_nil,
          or_false] at hn
        rcases hn with rfl | rfl
        · exact Or.inr ⟨_, _, rfl⟩
        · exact Or.inl rfl)
      rfl rfl (by decide)).1⟩

theorem save_eq (gfv : Js → Js) (context : Js) (equals : Js → Js → Bool) (ed : BrokerEditor)
    (h : ed.initialData.notNull = true) :
    ed.save true gfv context equals =
      (if (context.truthy && !equals context (ed.initialData.get "context")) = true
        then (gfv ed.initialData).setProp "context" context
        else Except.ok (gfv ed.initialData)).map
        fun data => { ed with calls := ed.calls ++ [EditorCall.update data] } := by
  unfold BrokerEditor.save
  simp only [if_true, prop_of_notNull _ h]
  cases hc : context.truthy <;> cases he : equals context (ed.initialData.get "context") <;>
    simp only [bind, Except.bind, pure, Except.pure, Except.map, he, Bool.not_true,
      Bool.not_false, Bool.and_true, Bool.and_false, Bool.false_eq_true, if_false, if_true]

/-- C13: `_show(actualData, effectiveData)` fills the form from the actual
values. When the host choices can be built, the actual data and the management
client are not null and the six form widgets exist, the call succeeds;
`initialData` is `actualData`; the widget of every field `f` is reset and then
given `actualData[f]`, as `checked` if it is a check box and as `value`
otherwise; `_save` on a valid form computes the changed values against
`actualData`; and another `effectiveData` changes nothing but the store handed
to the widget `defaultVirtualHost` and the arguments of `util.setContextData`. -/
theorem show_fills_from_actual (ed : BrokerEditor) (actualData effectiveData : Js)
    (data : List Js) (hhosts : hostChoices effectiveData = Except.ok data)
    (hactual : actualData.notNull = true) (hman : ed.management.notNull = true)
    (hw : ∀ f ∈ fields, (ed.widgets.lookup f).isSome = true) :
    ∃ r, ed.show actualData effectiveData = Except.ok r ∧
      r.initialData = actualData ∧
      (∀ f ∈ fields, ∀ w, ed.widgets.lookup f = some w →
        ∃ w1, r.widgets.lookup f = some w1 ∧ w1.isCheckBox = w.isCheckBox ∧
          w1.calls = w.calls ++
            (if f = "defaultVirtualHost" then [WidgetCall.set "store" (memoryStore data)]
              else []) ++
            [WidgetCall.reset, WidgetCall.set (if w.isCheckBox then "checked" else "value")
              (actualData.get f)]) ∧
      (∀ (gfv : Js → Js) (context : Js) (equals : Js → Js → Bool),
        r.save true gfv context equals =
          (if (context.truthy && !equals context (actualData.get "context")) = true
            then (gfv actualData).setProp "context" context
            else Except.ok (gfv actualData)).map
            fun changed => { r with calls := r.calls ++ [EditorCall.update changed] }) ∧
      (∀ (effectiveData2 : Js) (data2 : List Js),
        hostChoices effectiveData2 = Except.ok data2 →
        ∃ r2, ed.show actualData effectiveData2 = Except.ok r2 ∧
          r2.initialData = r.initialData ∧ r2.management = r.management ∧
          r2.resizeEventRegistered = r.resizeEventRegistered ∧
          (∀ f, f ≠ "defaultVirtualHost" → r2.widgets.lookup f = r.widgets.lookup f) ∧
          (r2.widgets.lookup "defaultVirtualHost").map (fun w => (w.isCheckBox, w.calls.filter
              fun c => match c with
                | WidgetCall.set "store" _ => false
                | _ => true))
            = (r.widgets.lookup "defaultVirtualHost").map (fun w => (w.isCheckBox,
              w.calls.filter fun c => match c with
                | WidgetCall.set "store" _ => false
                | _ => true)) ∧
          r2.calls.filter (fun c => match c with
              | EditorCall.setContextData _ _ => false
              | _ => true)
            = r.calls.filter (fun c => match c with
              | EditorCall.setContextData _ _ => false
              | _ => true)) := by
  obtain ⟨ws, hshow, hin, hout⟩ :=
    show_result ed actualData effectiveData data hhosts hactual hman hw
  refine ⟨_, hshow, rfl, ?_, ?_, ?_⟩
  · intro f hf w hwf
    refine ⟨_, hin f hf w hwf, rfl, ?_⟩
    simp [filled]
  · intro gfv context equals
    exact save_eq gfv context equals _ hactual
  · intro effectiveData2 data2 hhosts2
    obtain ⟨ws2, hshow2, hin2, hout2⟩ :=
      show_result ed actualData effectiveData2 data2 hhosts2 hactual hman hw
    obtain ⟨w0, hw0⟩ := Option.isSome_iff_exists.1 (hw "defaultVirtualHost" (by decide))
    refine ⟨_, hshow2, rfl, rfl, rfl, ?_, ?_, ?_⟩
    · intro f hne
      simp only
      by_cases hf : f ∈ fields
      · obtain ⟨w, hwf⟩ := Option.isSome_iff_exists.1 (hw f hf)
        rw [hin f hf w hwf, hin2 f hf w hwf]
        simp [hne]
      · rw [hout f hf, hout2 f hf]
    · simp only
      rw [hin _ (by decide) w0 hw0, hin2 _ (by decide) w0 hw0]
      simp [filled, List.filter_append, List.filter]
    · simp [List.filter_append, List.filter]

theorem show_fills_from_actual_witness :
    hostChoices effectiveBroker
      = Except.ok [Js.obj [("id", Js.str "default"), ("name", Js.str "default")]] ∧
    actualBroker.notNull = true ∧ sampleEditor.management.notNull = true ∧
    (∀ f ∈ fields, (sampleEditor.widgets.lookup f).isSome = true) ∧
    ∃ r, sampleEditor.show actualBroker effectiveBroker = Except.ok r ∧
      r.initialData = actualBroker :=
  ⟨rfl, rfl, rfl, by decide,
    (show_fills_from_actual sampleEditor actualBroker effectiveBroker _ rfl rfl rfl
      (by decide)).elim fun r h => ⟨r, h.1, h.2.1⟩⟩

/-! ### `PreferencesProvider` -/

/-- C14: `update(data)` loads the sub-detail view by type name. For data that
are an object whose `type` is a string: with no details object present the
module `qpid/management/preferencesprovider/` + lowercase(`data.type`) +
`/show` is requested, and the handler of the request builds the details object
and passes `data` to it; with a details object present no module is requested
and `data` are passed to the existing details. `update(null)` discards the
details object, hides the attributes panel and the edit and delete buttons and
sets `preferencesProviderData` to null, after which `editPreferencesProvider`
and `deletePreferencesProvider` do nothing. -/
theorem update_loads_details (encode : String → String) (p : Provider)
    (ps : List (String × Js)) (t : String) (ht : ps.lookup "type" = some (Js.str t)) :
    (p.details = none →
      ∃ p1, p.update encode (Js.obj ps) = Except.ok p1 ∧
        p1.required = p.required ++
          [("qpid/management/preferencesprovider/" ++ String.mk (t.data.map Char.toLower)
            ++ "/show", Js.obj ps)] ∧
        p1.details = none ∧ p1.preferencesProviderData = Js.obj ps ∧
        ∀ m, (p1.detailsLoaded m (Js.obj ps)).details = some ⟨m, [Js.obj ps]⟩) ∧
    (∀ d, p.details = some d →
      ∃ p1, p.update encode (Js.obj ps) = Except.ok p1 ∧
        p1.required = p.required ∧
        p1.details = some { d with updates := d.updates ++ [Js.obj ps] } ∧
        p1.preferencesProviderData = Js.obj ps) ∧
    (∃ p0, p.update encode Js.null = Except.ok p0 ∧
      p0.details = none ∧ p0.attributesDisplay = "none" ∧ p0.editButtonDisplay = "none" ∧
      p0.deleteButtonDisplay = "none" ∧ p0.preferencesProviderData = Js.null ∧
      p0.required = p.required ∧ p0.calls = p.calls ∧
      p0.editPreferencesProvider = p0 ∧
      ∀ userConfirms, p0.deletePreferencesProvider userConfirms = Except.ok p0) := by
  refine ⟨?_, ?_, ?_⟩
  · intro hd
    refine ⟨{ p with
      preferencesProviderData := Js.obj ps
      name := (ps.lookup "name").getD Js.undef
      attributesDisplay := "block", editButtonDisplay := "inline"
      deleteButtonDisplay := "inline", typeHTML := encode t
      stateHTML := encode ((ps.lookup "state").getD Js.undef).toStr
      required := p.required ++
        [("qpid/management/preferencesprovider/" ++ String.mk (t.data.map Char.toLower)
          ++ "/show", Js.obj ps)] }, ?_, rfl, hd, rfl, fun m => rfl⟩
    simp [Provider.update, Js.prop, ht, hd, toLowerCase, bind, Except.bind, pure, Except.pure]
  · intro d hd
    refine ⟨{ p with
      preferencesProviderData := Js.obj ps
      name := (ps.lookup "name").getD Js.undef
      attributesDisplay := "block", editButtonDisplay := "inline"
      deleteButtonDisplay := "inline", typeHTML := encode t
      stateHTML := encode ((ps.lookup "state").getD Js.undef).toStr
      details := some { d with updates := d.updates ++ [Js.obj ps] } }, ?_, rfl, rfl, rfl⟩
    simp [Provider.update, Js.prop, ht, hd, bind, Except.bind, pure, Except.pure]
  · exact ⟨_, rfl, rfl, rfl, rfl, rfl, rfl, rfl, rfl, rfl, fun _ => rfl⟩

theorem update_loads_details_witness :
    providerProperties.lookup "type" = some (Js.str "FileSystemPreferences") ∧
    ∃ p1, sampleProvider.update (fun s => s) (Js.obj providerProperties) = Except.ok p1 ∧
      p1.required = sampleProvider.required ++
        [("qpid/management/preferencesprovider/" ++
            String.mk ("FileSystemPreferences".data.map Char.toLower) ++ "/show",
          Js.obj providerProperties)] :=
  ⟨rfl, ((update_loads_details (fun s => s) sampleProvider providerProperties
    "FileSystemPreferences" rfl).1 rfl).elim fun p1 h => ⟨p1, h.1, h.2.1⟩⟩

/-- C15: `PreferencesProviderUpdater.update()` with a content pane. It triggers
a reload of the preferences provider, one request `management.load` for its
model object, if and only if the pane is selected (its `selected` is truthy);
when the pane is not selected no request is made and the state is unchanged. -/
theorem updater_reloads_selected (u : ProviderUpdater) (hpane : u.contentPane.notNull = true) :
    ∃ u1, u.update = Except.ok u1 ∧
      u1.preferencesProvider.calls = u.preferencesProvider.calls ++
        (if (u.contentPane.get "selected").truthy = true
          then [ProviderCall.load u.preferencesProvider.modelObj] else []) ∧
      ((u.contentPane.get "selected").truthy = true →
        u1 = { u with preferencesProvider := u.preferencesProvider.reload }) ∧
      ((u.contentPane.get "selected").truthy = false → u1 = u) := by
  have hprop : u.contentPane.prop "selected" = Except.ok (u.contentPane.get "selected") := by
    cases hc : u.contentPane <;>
      first | rfl | (rw [hc] at hpane; exact absurd hpane (by decide))
  cases hs : (u.contentPane.get "selected").truthy <;>
    simp [ProviderUpdater.update, hprop, hs, bind, Except.bind, pure, Except.pure,
      Provider.reload]

theorem updater_reloads_selected_witness :
    sampleUpdater.contentPane.notNull = true ∧
    ∃ u1, sampleUpdater.update = Except.ok u1 ∧
      u1.preferencesProvider.calls = sampleUpdater.preferencesProvider.calls ++
        (if (sampleUpdater.contentPane.get "selected").truthy = true
          then [ProviderCall.load sampleUpdater.preferencesProvider.modelObj] else []) :=
  ⟨rfl, (updater_reloads_selected sampleUpdater rfl).elim fun u1 h => ⟨u1, h.1, h.2.1⟩⟩

/-! ### Stripping the comments of a template -/

theorem commentOpen_isPrefixOf_iff (s : List Char) :
    commentOpen.isPrefixOf s = true ↔ ∃ r, s = '<' :: '!' :: '-' :: '-' :: r := by
  rw [List.isPrefixOf_iff_prefix]
  constructor
  · rintro ⟨r, rfl⟩
    exact ⟨r, rfl⟩
  · rintro ⟨r, rfl⟩
    exact ⟨r, rfl⟩

theorem afterClose_suffix : ∀ (s rest : List Char), afterClose s = some rest →
    ∃ pre, s = pre ++ rest
  | [], _, h => by simp [afterClose] at h
  | c :: cs, rest, h => by
    unfold afterClose at h
    split at h
    · injection h with h
      subst h
      exact ⟨c :: cs.take 2, by simp⟩
    · obtain ⟨pre, hpre⟩ := afterClose_suffix cs rest h
      exact ⟨c :: pre, by simp [hpre]⟩

theorem afterClose_none_append : ∀ (a b : List Char), afterClose (a ++ b) = none →
    afterClose b = none
  | [], _, h => h
  | c :: a, b, h => by
    rw [List.cons_append] at h
    unfold afterClose at h
    split at h
    · exact absurd h (by simp)
    · exact afterClose_none_append a b h

theorem afterClose_none_drop (s : List Char) (k : Nat) (h : afterClose s = none) :
    afterClose (s.drop k) = none := by
  apply afterClose_none_append (s.take k)
  rw [List.take_append_drop]
  exact h

theorem gluedOpen_append : ∀ (a b : List Char), gluedOpen (a ++ b) = false →
    gluedOpen b = false
  | [], _, h => h
  | c :: a, b, h => by
    rw [List.cons_append] at h
    unfold gluedOpen at h
    rw [Bool.or_eq_false_iff] at h
    exact gluedOpen_append a b h.2

/-- A text without `-->` is left as it is. -/
theorem stripComments_of_no_close : ∀ (n : Nat) (s : List Char), s.length ≤ n →
    afterClose s = none → stripComments n s = s
  | 0, s, hn, _ => by
    have : s = [] := List.length_eq_zero.1 (Nat.le_zero.1 hn)
    subst this
    rfl
  | n + 1, [], _, _ => rfl
  | n + 1, c :: cs, hn, h => by
    have hcs : afterClose cs = none := afterClose_none_append [c] cs h
    have ih := stripComments_of_no_close n cs (by simpa using hn) hcs
    unfold stripComments
    rw [afterClose_none_drop cs 3 hcs, ih]
    simp

/-- Where the text does not start a comment, the first character of the result
is the first character of the text. -/
theorem stripComments_head (n : Nat) (s : List Char) (x : Char) (out : List Char)
    (h : stripComments n s = x :: out) (hs : commentOpen.isPrefixOf s = false) :
    ∃ m s1, n = m + 1 ∧ s = x :: s1 ∧ out = stripComments m s1 := by
  cases n with
  | zero => simp [stripComments] at h
  | succ m =>
    cases s with
    | nil => simp [stripComments] at h
    | cons c cs =>
      unfold stripComments at h
      rw [hs] at h
      simp only [Bool.false_eq_true, if_false, List.cons.injEq] at h
      exact ⟨m, cs, rfl, by rw [h.1], h.2.symm⟩

/-- Keeping a character in front of the stripped rest makes no new comment
start, when no `<!--` of the text is glued to a `<`, `!` or `-` before it. -/
theorem no_spliced_open (n : Nat) (c : Char) (cs : List Char) (hlen : cs.length ≤ n)
    (hg : gluedOpen (c :: cs) = false)
    (hno : commentOpen.isPrefixOf (c :: cs) = false ∨ afterClose (cs.drop 3) = none) :
    (commentOpen.isPrefixOf (c :: stripComments n cs) &&
      (afterClose ((stripComments n cs).drop 3)).isSome) = false := by
  rw [Bool.and_eq_false_iff]
  cases hp : commentOpen.isPrefixOf (c :: stripComments n cs)
  · exact Or.inl rfl
  right
  obtain ⟨r, hr⟩ := (commentOpen_isPrefixOf_iff _).1 hp
  injection hr with hc hr
  subst hc
  -- the first character behind `<`
  have g0 : commentOpen.isPrefixOf cs = false := by
    cases h : commentOpen.isPrefixOf cs
    · rfl
    · simp [gluedOpen, h] at hg
  obtain ⟨m1, cs1, hn1, hcs, hout1⟩ := stripComments_head n cs _ _ hr g0
  subst hcs
  have g1 : commentOpen.isPrefixOf cs1 = false := by
    cases h : commentOpen.isPrefixOf cs1
    · rfl
    · simp [gluedOpen, h] at hg
  obtain ⟨m2, cs2, hn2, hcs, hout2⟩ := stripComments_head m1 cs1 _ _ hout1.symm g1
  subst hcs
  have g2 : commentOpen.isPrefixOf cs2 = false := by
    cases h : commentOpen.isPrefixOf cs2
    · rfl
    · simp [gluedOpen, h] at hg
  obtain ⟨m3, cs3, hn3, hcs, hout3⟩ := stripComments_head m2 cs2 _ _ hout2.symm g2
  subst hcs
  have hopen : commentOpen.isPrefixOf ('<' :: '!' :: '-' :: '-' :: cs3) = true :=
    (commentOpen_isPrefixOf_iff _).2 ⟨cs3, rfl⟩
  rcases hno with hno | hno
  · rw [hopen] at hno
    exact absurd hno (by simp)
  · have hnone : afterClose cs3 = none := by simpa using hno
    have hlen3 : cs3.length ≤ m3 := by
      simp only [List.length_cons] at hlen
      omega
    rw [hr, hout3, stripComments_of_no_close m3 cs3 hlen3 hnone]
    simp [hnone]

/-- The result of the replacement has no HTML comment, when no `<!--` of the
text is glued to a `<`, `!` or `-` before it. -/
theorem stripComments_clean : ∀ (n : Nat) (s : List Char), s.length ≤ n →
    gluedOpen s = false → hasComment (stripComments n s) = false
  | 0, _, _, _ => rfl
  | n + 1, [], _, _ => rfl
  | n + 1, c :: cs, hn, hg => by
    have hlen : cs.length ≤ n := by simpa using hn
    have hgcs : gluedOpen cs = false := gluedOpen_append [c] cs hg
    have ih := stripComments_clean n cs hlen hgcs
    unfold stripComments
    cases hp : commentOpen.isPrefixOf (c :: cs) with
    | false =>
      simp only [Bool.false_eq_true, if_false]
      unfold hasComment
      rw [no_spliced_open n c cs hlen hg (Or.inl hp), ih]
      rfl
    | true =>
      simp only [if_true]
      cases ha : afterClose (cs.drop 3) with
      | none =>
        simp only
        unfold hasComment
        rw [no_spliced_open n c cs hlen hg (Or.inr ha), ih]
        rfl
      | some rest =>
        simp only
        obtain ⟨pre, hpre⟩ := afterClose_suffix _ _ ha
        have hcs : cs = cs.take 3 ++ pre ++ rest := by
          rw [List.append_assoc, ← hpre, List.take_append_drop]
        apply stripComments_clean n rest
        · have := congrArg List.length hcs
          simp only [List.length_append] at this
          omega
        · apply gluedOpen_append (cs.take 3 ++ pre)
          rw [← hcs]
          exact hgcs

/-- C16, as stated, fails on the text `<!-<!---->-x-->`: the replacement
removes the comment `<!---->` in its middle, and what is left, `<!--x-->`, is
an HTML comment. -/
theorem templateString_spliced_counterexample :
    templateString splicedTemplate = "<!--x-->" ∧
    hasComment (templateString splicedTemplate).data = true := by
  decide

/-- C16 (amended): for every template text in which no `<!--` comes directly
after one of the characters `<`, `!` and `-`, the template string obtained by
`replace(/<!--[\s\S]*?-->/g, "")` contains no HTML comment: no occurrence of
`<!--` that is followed, behind its four characters, by `-->`. -/
theorem templateString_no_comment (template : String)
    (hglued : gluedOpen template.data = false) :
    hasComment (templateString template).data = false :=
  stripComments_clean _ _ (Nat.le_refl _) hglued

theorem templateString_no_comment_witness :
    gluedOpen commentedTemplate.data = false ∧
    templateString commentedTemplate = "<div class=\"a-b\"><b>!</b></div>" ∧
    hasComment (templateString commentedTemplate).data = false :=
  ⟨by decide, by decide, templateString_no_comment commentedTemplate (by decide)⟩

/-! ### The request of `util.deleteGridSelections` -/

theorem string_append_ne_empty (p s : String) (hp : p ≠ "") : p ++ s ≠ "" := by
  intro h
  apply hp
  have h1 : p.length + s.length = 0 := by
    rw [← String.length_append, h]
    rfl
  have h2 : p.length = 0 := by omega
  cases p with
  | mk l =>
    have h3 : l.length = 0 := h2
    rw [List.length_eq_zero.1 h3]

theorem queryParam_loop (p : String) (hp : p ≠ "") : ∀ (rs : List Row) (acc : String),
    rs.foldl
      (fun q r =>
        let q := match q with
          | some s => if s != "" then s ++ "&" else "?"
          | none => "?"
        some (q ++ "id=" ++ r.id.toStr)) (some (p ++ acc))
      = some (p ++ String.intercalate.go acc "&id=" (rs.map fun r => r.id.toStr))
  | [], acc => rfl
  | r :: rs, acc => by
    have hne : (p ++ acc != "") = true := by
      simpa using string_append_ne_empty p acc hp
    simp only [List.foldl_cons, hne, if_true, List.map_cons, String.intercalate.go]
    have e : p ++ acc ++ "&" ++ "id=" ++ r.id.toStr = p ++ (acc ++ "&id=" ++ r.id.toStr) := by
      apply String.ext
      simp
    rw [e]
    exact queryParam_loop p hp rs _

theorem queryParam_cons (r : Row) (rs : List Row) :
    queryParam (r :: rs)
      = some ("?id=" ++ "&id=".intercalate ((r :: rs).map fun r => r.id.toStr)) := by
  have h := queryParam_loop "?id=" (by decide) rs r.id.toStr
  simp only [queryParam, List.foldl_cons, List.map_cons, String.intercalate]
  have e : "?" ++ "id=" ++ r.id.toStr = "?id=" ++ r.id.toStr := by
    apply String.ext
    simp
  rw [e]
  exact h

/-- C17: for a confirmed non-empty selection `util.deleteGridSelections` sends
one DELETE request, to `url` followed by `?id=` and the ids of the selected
rows in selection order, joined by `&id=`: one `id` parameter for every
selected row and no other. -/
theorem deleteGridSelections_request_url (userConfirms : String → Bool)
    (xhrDel : String → Option String) (data : List Row) (url start : String)
    (hdata : data ≠ [])
    (hconfirm : userConfirms (confirmationMessage start data) = true) :
    (deleteGridSelections userConfirms xhrDel data url start).filter
        (fun x => match x with
          | Effect.del _ => true
          | _ => false)
      = [Effect.del (url ++ "?id=" ++ "&id=".intercalate (data.map fun r => r.id.toStr))] := by
  cases data with
  | nil => exact absurd rfl hdata
  | cons r rs =>
    have e : url ++ ("?id=" ++ "&id=".intercalate ((r :: rs).map fun r => r.id.toStr))
        = url ++ "?id=" ++ "&id=".intercalate ((r :: rs).map fun r => r.id.toStr) := by
      apply String.ext
      simp
    simp only [deleteGridSelections, hconfirm, queryParam_cons, Option.getD_some, e]
    cases xhrDel _ <;> simp [List.filter]

theorem deleteGridSelections_request_url_witness :
    (deleteGridSelections (fun _ => true) (fun _ => none)
        [⟨Js.str "q1", Js.num 7⟩, ⟨Js.str "q2", Js.str "8a"⟩] "api/queue" "Delete queue").filter
        (fun x => match x with
          | Effect.del _ => true
          | _ => false)
      = [Effect.del ("api/queue" ++ "?id=" ++ "&id=".intercalate
          (([⟨Js.str "q1", Js.num 7⟩, ⟨Js.str "q2", Js.str "8a"⟩] : List Row).map
            fun r => r.id.toStr))] :=
  deleteGridSelections_request_url (fun _ => true) (fun _ => none)
    [⟨Js.str "q1", Js.num 7⟩, ⟨Js.str "q2", Js.str "8a"⟩] "api/queue" "Delete queue"
    (by simp) rfl

/-! ### The submit handler of `util.showSetAttributesDialog` -/

theorem valueStep_lookup (acc : List (String × Js)) (p : String × AttributeWidget)
    (hcmp : p.2.isCheckOrRadio = false → (p.2.value.looseEquals p.2.initialValue).isSome = true) :
    ∃ acc1, valueStep acc p = some acc1 ∧
      ∀ k, acc1.lookup k = if k = p.2.name then (sentValue p.2).orElse (fun _ => acc.lookup k)
        else acc.lookup k := by
  cases hc : p.2.isCheckOrRadio
  · obtain ⟨b, hb⟩ := Option.isSome_iff_exists.1 (hcmp hc)
    cases b
    · refine ⟨upsert acc p.2.name (if p.2.value.truthy = true then p.2.value else Js.null),
        by simp [valueStep, hc, hb], ?_⟩
      intro k
      rw [lookup_upsert]
      by_cases hk : k = p.2.name <;> simp [hk, hb, hc, sentValue]
    · refine ⟨acc, by simp [valueStep, hc, hb], ?_⟩
      intro k
      by_cases hk : k = p.2.name <;> simp [hk, hb, hc, sentValue]
  · refine ⟨upsert acc p.2.name (Js.bool p.2.checked), by simp [valueStep, hc], ?_⟩
    intro k
    rw [lookup_upsert]
    by_cases hk : k = p.2.name <;> simp [hk, hc, sentValue]

theorem valueStep_loop : ∀ (ws : List (String × AttributeWidget)) (acc : List (String × Js)),
    (ws.map fun p => p.2.name).Nodup →
    (∀ p ∈ ws, p.2.isCheckOrRadio = false →
      (p.2.value.looseEquals p.2.initialValue).isSome = true) →
    ∃ values, ws.foldlM valueStep acc = some values ∧
      (∀ p ∈ ws, values.lookup p.2.name
        = (sentValue p.2).orElse (fun _ => acc.lookup p.2.name)) ∧
      (∀ k, k ∉ ws.map (fun p => p.2.name) → values.lookup k = acc.lookup k)
  | [], acc, _, _ => ⟨acc, rfl, by simp, by simp⟩
  | p :: ws, acc, hnd, hcmp => by
    obtain ⟨acc1, h1, hl1⟩ := valueStep_lookup acc p (hcmp p (List.mem_cons_self _ _))
    have hnd2 : p.2.name ∉ ws.map (fun q => q.2.name) ∧ (ws.map fun q => q.2.name).Nodup :=
      List.nodup_cons.1 hnd
    obtain ⟨values, h2, hin, hout⟩ := valueStep_loop ws acc1 hnd2.2
      (fun q hq => hcmp q (List.mem_cons_of_mem _ hq))
    refine ⟨values, ?_, ?_, ?_⟩
    · rw [List.foldlM_cons, h1]
      exact h2
    · intro q hq
      rcases List.mem_cons.1 hq with rfl | hq
      · rw [hout _ hnd2.1, hl1, if_pos rfl]
      · have hne : q.2.name ≠ p.2.name := by
          intro e
          apply hnd2.1
          rw [← e]
          exact List.mem_map.2 ⟨q, hq, rfl⟩
        rw [hin q hq, hl1, if_neg hne]
    · intro k hk
      simp only [List.map_cons, List.mem_cons, not_or] at hk
      rw [hout k hk.2, hl1, if_neg hk.1]

theorem mem_upsert {β : Type} (k : String) (x : β) : ∀ (ps : List (String × β)) (p : String × β),
    p ∈ upsert ps k x → p ∈ ps ∨ p.2 = x
  | [], p, h => by
    simp only [upsert, List.mem_singleton] at h
    exact Or.inr (by rw [h])
  | (k1, y) :: ps, p, h => by
    unfold upsert at h
    split at h
    · rcases List.mem_cons.1 h with h | h
      · exact Or.inr (by rw [h])
      · exact Or.inl (List.mem_cons_of_mem _ h)
    · rcases List.mem_cons.1 h with h | h
      · exact Or.inl (by rw [h]; exact List.mem_cons_self _ _)
      · rcases mem_upsert k x ps p h with h | h
        · exact Or.inl (List.mem_cons_of_mem _ h)
        · exact Or.inr h

theorem buildWidgets_initialValue (factories : List WidgetFactory) :
    ∀ p ∈ buildWidgets factories, p.2.initialValue = p.2.value := by
  unfold buildWidgets
  apply foldl_invariant (fun ws : List (String × AttributeWidget) =>
    ∀ p ∈ ws, p.2.initialValue = p.2.value)
  · intro ws f hws p hp
    rcases mem_upsert _ _ ws p hp with h | h
    · exact hws p h
    · rw [h]
  · intro p hp
    cases hp

/-- C18, as stated, fails on a number spinner whose value was 5 when the
dialog was built and is 0 at submit: the value has changed and is not empty,
and the entry of the body under its name is `null`, not the value. -/
theorem submitForm_zero_counterexample :
    zeroedSpinner.isCheckOrRadio = false ∧ zeroedSpinner.initialValue = Js.num 5 ∧
    zeroedSpinner.value = Js.num 0 ∧ zeroedSpinner.value.isEmptyValue = false ∧
    submitForm true none [("statisticsReportingPeriod", zeroedSpinner)] "api/broker"
      = some [DialogEffect.put "api/broker" [("statisticsReportingPeriod", Js.null)],
          DialogEffect.destroy] :=
  ⟨rfl, rfl, rfl, rfl, rfl⟩

/-- C18 (amended): on submit of a valid form, for widgets with pairwise
distinct names whose values can be compared with their initial values, the
handler sends one PUT request whose body has, for every check box or radio
button, its name mapped to its checked state, and for every other widget an
entry under its name if and only if its value is unequal (`!=`) to its initial
value, the entry being the value itself when the value is truthy and `null`
when it is falsy; the body has no other keys. When the form is invalid no
request is sent. The initial value of a widget is the value it had when the
dialog was built. -/
theorem submitForm_sends_changed (ws : List (String × AttributeWidget)) (putURL : String)
    (putError : Option String)
    (hnames : (ws.map fun p => p.2.name).Nodup)
    (hcmp : ∀ p ∈ ws, p.2.isCheckOrRadio = false →
      (p.2.value.looseEquals p.2.initialValue).isSome = true) :
    (∃ values,
      submitForm true putError ws putURL = some (DialogEffect.put putURL values ::
        (match putError with
          | none => [DialogEffect.destroy]
          | some failureReason => [DialogEffect.alert ("Error:" ++ failureReason)])) ∧
      (∀ p ∈ ws, p.2.isCheckOrRadio = true →
        values.lookup p.2.name = some (Js.bool p.2.checked)) ∧
      (∀ p ∈ ws, p.2.isCheckOrRadio = false →
        values.lookup p.2.name =
          if p.2.value.looseEquals p.2.initialValue = some false
            then some (if p.2.value.truthy = true then p.2.value else Js.null)
            else none) ∧
      (∀ k, k ∉ ws.map (fun p => p.2.name) → values.lookup k = none)) ∧
    submitForm false putError ws putURL
      = some [DialogEffect.alert "Form contains invalid data.  Please correct first"] ∧
    (∀ factories : List WidgetFactory, ∀ p ∈ buildWidgets factories,
      p.2.initialValue = p.2.value) := by
  obtain ⟨values, hv, hin, hout⟩ := valueStep_loop ws [] hnames hcmp
  refine ⟨⟨values, ?_, ?_, ?_, ?_⟩, rfl, buildWidgets_initialValue⟩
  · unfold submitForm
    rw [if_pos rfl, hv]
    rfl
  · intro p hp hc
    rw [hin p hp]
    simp [sentValue, hc]
  · intro p hp hc
    rw [hin p hp]
    simp only [sentValue, hc, Bool.false_eq_true, if_false, List.lookup]
    split <;> rfl
  · intro k hk
    rw [hout k hk]
    rfl

theorem submitForm_sends_changed_witness :
    (sampleWidgets.map fun p => p.2.name).Nodup ∧
    ∃ values,
      submitForm true none sampleWidgets "api/broker"
        = some [DialogEffect.put "api/broker" values, DialogEffect.destroy] ∧
      (∀ k, k ∉ sampleWidgets.map (fun p => p.2.name) → values.lookup k = none) :=
  ⟨by decide,
    (submitForm_sends_changed sampleWidgets "api/broker" none (by decide)
      (by
        intro p hp _
        simp only [sampleWidgets, List.mem_cons, List.mem_singleton, List.not_mem_nil,
          or_false] at hp
        rcases hp with rfl | rfl | rfl | rfl <;> rfl)).1.elim
      fun values h => ⟨values, h.1, h.2.2.2⟩⟩

/-! ### `PortUpdater.updateHeader` -/

theorem printArray_ok (k : String) (ps : List (String × Js))
    (h : (((ps.lookup k).getD Js.undef).indexed).isSome = true) :
    ∃ s, printArray k (Js.obj ps) = Except.ok s := by
  obtain ⟨xs, hxs⟩ := Option.isSome_iff_exists.1 h
  unfold printArray
  simp only [Js.prop, bind, Except.bind, hxs]
  cases ((ps.lookup k).getD Js.undef).truthy <;> exact ⟨_, rfl⟩

/-- The result of `updateHeader` on port data that are an object, when the
three arrays can be printed. -/
theorem updateHeader_result (u : PortUpdater) (ps : List (String × Js)) (p t : Js) (a : Bool)
    (hdata : u.keyStoreData = Js.obj ps)
    (hprot : (((ps.lookup "protocols").getD Js.undef).indexed).isSome = true)
    (htrans : (((ps.lookup "transports").getD Js.undef).indexed).isSome = true)
    (htrust : (((ps.lookup "trustStores").getD Js.undef).indexed).isSome = true)
    (hp : ((ps.lookup "protocols").getD Js.undef).item0 = Except.ok p)
    (ha : (if p.truthy = true then indexOfIsZero p "AMQP" else Except.ok false) = Except.ok a)
    (ht : ((ps.lookup "transports").getD Js.undef).item0 = Except.ok t) :
    ∃ u1, u.updateHeader = Except.ok u1 ∧
      u1.bindingAddressDisplay = (if a = true then "block" else "none") ∧
      u1.trustStoresValueDisplay
        = (if (t.truthy && t.looseEq "SSL") = true then "block" else "none") ∧
      u1.keyStoreDisplay = u1.trustStoresValueDisplay ∧
      u1.needClientAuthDisplay = u1.trustStoresValueDisplay ∧
      u1.wantClientAuthDisplay = u1.trustStoresValueDisplay ∧
      u1.trustStoresDisplay = u1.trustStoresValueDisplay := by
  obtain ⟨s1, h1⟩ := printArray_ok "protocols" ps hprot
  obtain ⟨s2, h2⟩ := printArray_ok "transports" ps htrans
  obtain ⟨s3, h3⟩ := printArray_ok "trustStores" ps htrust
  unfold PortUpdater.updateHeader
  cases hpt : p.truthy
  · simp only [hpt, Bool.false_eq_true, if_false, Except.ok.injEq] at ha
    subst ha
    simp only [hdata, Js.prop, bind, Except.bind, h1, h2, h3, hp, hpt, ht, pure, Except.pure,
      Bool.false_eq_true, if_false]
    exact ⟨_, rfl, rfl, rfl, rfl, rfl, rfl, rfl⟩
  · simp only [hpt, if_true] at ha
    simp only [hdata, Js.prop, bind, Except.bind, h1, h2, h3, hp, hpt, ha, ht, pure,
      Except.pure, if_true]
    exact ⟨_, rfl, rfl, rfl, rfl, rfl, rfl, rfl⟩

theorem amqp_test (s : String) :
    (if (Js.str s).truthy = true then indexOfIsZero (Js.str s) "AMQP" else Except.ok false)
      = Except.ok ((Js.str s).truthy && "AMQP".data.isPrefixOf s.data) := by
  cases (Js.str s).truthy <;> simp [indexOfIsZero]

theorem amqp_test_iff (s : String) :
    ((Js.str s).truthy && "AMQP".data.isPrefixOf s.data) = true ↔ "AMQP".data <+: s.data := by
  rw [Bool.and_eq_true, List.isPrefixOf_iff_prefix]
  constructor
  · exact fun h => h.2
  · intro h
    refine ⟨?_, h⟩
    simp only [Js.truthy, bne_iff_ne, ne_eq]
    intro e
    subst e
    obtain ⟨r, hr⟩ := h
    simp at hr

theorem ssl_test_iff (s : String) :
    ((Js.str s).truthy && (Js.str s).looseEq "SSL") = true ↔ s = "SSL" := by
  simp only [Js.truthy, Js.looseEq, Bool.and_eq_true, bne_iff_ne, ne_eq, beq_iff_eq]
  constructor
  · exact fun h => h.2
  · intro h
    subst h
    exact ⟨by decide, rfl⟩

/-- C19: `updateHeader` on port data whose `protocols` and `transports` are
arrays of strings (and whose `trustStores`, if present, can be printed)
succeeds. The rows `keyStore`, `needClientAuth`, `wantClientAuth` and
`trustStores` and the slot `trustStoresValue` all get the same display value,
`block` if the first entry of the transports is `SSL` and `none` otherwise;
the row `bindingAddress` gets `block` if the first entry of the protocols
begins with `AMQP` and `none` otherwise. -/
theorem updateHeader_visibility (u : PortUpdater) (ps : List (String × Js))
    (protocols transports : List Js)
    (hdata : u.keyStoreData = Js.obj ps)
    (hprot : ps.lookup "protocols" = some (Js.arr protocols))
    (htrans : ps.lookup "transports" = some (Js.arr transports))
    (hp0 : ∀ x, protocols.head? = some x → ∃ s, x = Js.str s)
    (ht0 : ∀ x, transports.head? = some x → ∃ s, x = Js.str s)
    (htrust : (((ps.lookup "trustStores").getD Js.undef).indexed).isSome = true) :
    ∃ u1, u.updateHeader = Except.ok u1 ∧
      (u1.keyStoreDisplay = "block" ↔ transports.head? = some (Js.str "SSL")) ∧
      (u1.keyStoreDisplay = "block" ∨ u1.keyStoreDisplay = "none") ∧
      u1.needClientAuthDisplay = u1.keyStoreDisplay ∧
      u1.wantClientAuthDisplay = u1.keyStoreDisplay ∧
      u1.trustStoresDisplay = u1.keyStoreDisplay ∧
      u1.trustStoresValueDisplay = u1.keyStoreDisplay ∧
      (u1.bindingAddressDisplay = "block" ↔
        ∃ s, protocols.head? = some (Js.str s) ∧ "AMQP".data <+: s.data) ∧
      (u1.bindingAddressDisplay = "block" ∨ u1.bindingAddressDisplay = "none") := by
  have hP : ∃ a : Bool,
      (if (Js.arr protocols).first.truthy = true
        then indexOfIsZero (Js.arr protocols).first "AMQP" else Except.ok false) = Except.ok a ∧
      (a = true ↔ ∃ s, protocols.head? = some (Js.str s) ∧ "AMQP".data <+: s.data) := by
    cases protocols with
    | nil => exact ⟨false, rfl, by simp⟩
    | cons x rest =>
      obtain ⟨s, rfl⟩ := hp0 x rfl
      refine ⟨_, amqp_test s, ?_⟩
      rw [amqp_test_iff]
      constructor
      · exact fun h => ⟨s, rfl, h⟩
      · rintro ⟨s1, h1, h2⟩
        simp only [List.head?_cons, Option.some.injEq, Js.str.injEq] at h1
        rw [h1]
        exact h2
  have hT : ((Js.arr transports).first.truthy && (Js.arr transports).first.looseEq "SSL") = true
      ↔ transports.head? = some (Js.str "SSL") := by
    cases transports with
    | nil => simp [Js.first, Js.truthy]
    | cons x rest =>
      obtain ⟨s, rfl⟩ := ht0 x rfl
      simp only [Js.first, List.head?_cons, Option.getD_some, ssl_test_iff]
      constructor
      · intro h
        rw [h]
      · intro h
        simp only [Option.some.injEq, Js.str.injEq] at h
        exact h
  obtain ⟨a, ha, haiff⟩ := hP
  obtain ⟨u1, hu, h1, h2, h3, h4, h5, h6⟩ := updateHeader_result u ps
    (Js.arr protocols).first (Js.arr transports).first a hdata
    (by rw [hprot]; rfl) (by rw [htrans]; rfl) htrust
    (by rw [hprot]; rfl) ha (by rw [htrans]; rfl)
  refine ⟨u1, hu, ?_, ?_, h4.trans h3.symm, h5.trans h3.symm, h6.trans h3.symm, h3.symm, ?_, ?_⟩
  · rw [h3, h2, ← hT]
    cases ((Js.arr transports).first.truthy && (Js.arr transports).first.looseEq "SSL") <;> simp
  · rw [h3, h2]
    cases ((Js.arr transports).first.truthy && (Js.arr transports).first.looseEq "SSL") <;> simp
  · rw [h1, ← haiff]
    cases a <;> simp
  · rw [h1]
    cases a <;> simp

theorem updateHeader_visibility_witness :
    sslPortProperties.lookup "protocols"
      = some (Js.arr [Js.str "AMQP_0_10", Js.str "AMQP_1_0"]) ∧
    sslPortProperties.lookup "transports" = some (Js.arr [Js.str "SSL"]) ∧
    ∃ u1, (samplePortUpdater (Js.obj sslPortProperties)).updateHeader = Except.ok u1 ∧
      (u1.keyStoreDisplay = "block" ↔
        ([Js.str "SSL"] : List Js).head? = some (Js.str "SSL")) :=
  ⟨rfl, rfl,
    (updateHeader_visibility (samplePortUpdater (Js.obj sslPortProperties)) sslPortProperties
      [Js.str "AMQP_0_10", Js.str "AMQP_1_0"] [Js.str "SSL"] rfl rfl rfl
      (fun _ h => ⟨"AMQP_0_10", (Option.some.inj h).symm⟩)
      (fun _ h => ⟨"SSL", (Option.some.inj h).symm⟩) rfl).elim
      fun u1 h => ⟨u1, h.1, h.2.1⟩⟩

/-! ### The two view modes -/

/-- The mode flag and the visibilities one call of `_modeChanged` leaves. -/
theorem modeChanged_mode (env : Env) (w : Widget) :
    (modeChanged env w).2.standardMode = !w.standardMode ∧
    (modeChanged env w).2.standardSearchDisplay = (if w.standardMode then "none" else "") ∧
    (modeChanged env w).2.whereBuilderDisplay = (if w.standardMode then "none" else "") ∧
    (modeChanged env w).2.advancedSearchDisplay = (if w.standardMode then "" else "none") ∧
    (modeChanged env w).2.advancedSelect.disabled = !w.standardMode ∧
    (modeChanged env w).2.advancedWhere.disabled = !w.standardMode := by
  cases hm : w.standardMode
  · simp only [modeChanged, run_bind, run_modify, run_read, hm, Bool.not_true,
      Bool.not_false, Bool.false_eq_true, if_false, run_lift, getDefaultColumns,
      Chooser.setData, Option.getD_none]
    cases buildSelectExpression _ with
    | error e => simp
    | ok select =>
      simp only [run_setSelectClause, run_toggleSearchButton, run_search,
        queryChanged_standardMode, queryChanged_standardSearchDisplay,
        queryChanged_whereBuilderDisplay, queryChanged_advancedSearchDisplay,
        queryChanged_advancedSelect, queryChanged_advancedWhere]
      simp
  · simp only [modeChanged, run_bind, run_modify, run_read, hm, Bool.not_true,
      Bool.not_false, if_true, run_lift]
    cases buildSelectExpression _ with
    | error e => simp
    | ok select =>
      by_cases hl : w.lastHeaders.length = 0 <;> simp [hl]

/-- C20: every call of `_modeChanged` flips `_standardMode`; after the call
the standard search panel and the where-expression builder are displayed
exactly when `_standardMode` is true, the advanced search panel exactly when it
is false, and the advanced select and where inputs are disabled exactly when
it is true. A second call returns the flag to its value before the first, and
with the flag the visibilities and the disabled states to those of that mode,
so that every further pair of calls returns them to their previous values. -/
theorem modeChanged_shows_one_mode (env : Env) (w : Widget) :
    ((modeChanged env w).2.standardMode = !w.standardMode ∧
      (modeChanged env w).2.standardSearchDisplay
        = (if (modeChanged env w).2.standardMode then "" else "none") ∧
      (modeChanged env w).2.whereBuilderDisplay
        = (if (modeChanged env w).2.standardMode then "" else "none") ∧
      (modeChanged env w).2.advancedSearchDisplay
        = (if (modeChanged env w).2.standardMode then "none" else "") ∧
      (modeChanged env w).2.advancedSelect.disabled = (modeChanged env w).2.standardMode ∧
      (modeChanged env w).2.advancedWhere.disabled = (modeChanged env w).2.standardMode) ∧
    ((modeChanged env (modeChanged env w).2).2.standardMode = w.standardMode ∧
      (modeChanged env (modeChanged env w).2).2.standardSearchDisplay
        = (if w.standardMode then "" else "none") ∧
      (modeChanged env (modeChanged env w).2).2.whereBuilderDisplay
        = (if w.standardMode then "" else "none") ∧
      (modeChanged env (modeChanged env w).2).2.advancedSearchDisplay
        = (if w.standardMode then "none" else "") ∧
      (modeChanged env (modeChanged env w).2).2.advancedSelect.disabled = w.standardMode ∧
      (modeChanged env (modeChanged env w).2).2.advancedWhere.disabled = w.standardMode) ∧
    ((modeChanged env (modeChanged env (modeChanged env w).2).2).2.standardMode
        = (modeChanged env w).2.standardMode ∧
      (modeChanged env (modeChanged env (modeChanged env w).2).2).2.standardSearchDisplay
        = (modeChanged env w).2.standardSearchDisplay ∧
      (modeChanged env (modeChanged env (modeChanged env w).2).2).2.whereBuilderDisplay
        = (modeChanged env w).2.whereBuilderDisplay ∧
      (modeChanged env (modeChanged env (modeChanged env w).2).2).2.advancedSearchDisplay
        = (modeChanged env w).2.advancedSearchDisplay ∧
      (modeChanged env (modeChanged env (modeChanged env w).2).2).2.advancedSelect.disabled
        = (modeChanged env w).2.advancedSelect.disabled ∧
      (modeChanged env (modeChanged env (modeChanged env w).2).2).2.advancedWhere.disabled
        = (modeChanged env w).2.advancedWhere.disabled) := by
  obtain ⟨a1, a2, a3, a4, a5, a6⟩ := modeChanged_mode env w
  obtain ⟨b1, b2, b3, b4, b5, b6⟩ := modeChanged_mode env (modeChanged env w).2
  obtain ⟨c1, c2, c3, c4, c5, c6⟩ :=
    modeChanged_mode env (modeChanged env (modeChanged env w).2).2
  rw [c1, c2, c3, c4, c5, c6, b1, b2, b3, b4, b5, b6, a1, a2, a3, a4, a5, a6]
  cases w.standardMode <;> simp

end Qpid

namespace Qpid

/-! ### The search buttons and the select clause -/

theorem run_normalizeSorting (selectedColumns : List Js) (w : Widget) :
    normalizeSorting selectedColumns w =
      match w.resultsGrid.sort with
      | .arr sort =>
        match sort.foldlM (sortStep w.lastStandardModeSelect selectedColumns) [] with
        | .ok newSort =>
          (Except.ok (), { w with resultsGrid := { w.resultsGrid with sort := .arr newSort } })
        | .error e => (Except.error e, w)
      | _ => (Except.error "outside the model", w) := by
  simp only [normalizeSorting, run_bind, run_read]
  cases w.resultsGrid.sort with
  | arr sort =>
    simp only [run_bind, run_lift]
    cases sort.foldlM (sortStep w.lastStandardModeSelect selectedColumns) [] <;> rfl
  | _ => rfl

theorem str_truthy_iff (s : String) : (!(Js.str s).truthy) = true ↔ Js.str s = Js.str "" := by
  by_cases h : s = "" <;> simp [Js.truthy, h]

/-- The state a successful `_processStandardModeSelectChange` leaves. -/
theorem processStandardModeSelectChange_ok (selectedColumns : List Js) (w : Widget)
    (h : (processStandardModeSelectChange selectedColumns w).1 = Except.ok ()) :
    ∃ s, buildSelectExpression (.arr selectedColumns) = Except.ok s ∧
      (processStandardModeSelectChange selectedColumns w).2.selectClause = Js.str s ∧
      (processStandardModeSelectChange selectedColumns w).2.lastStandardModeSelect
        = Js.arr selectedColumns ∧
      (processStandardModeSelectChange selectedColumns w).2.standardSearchButton.disabled
        = !(Js.str s).truthy ∧
      (processStandardModeSelectChange selectedColumns w).2.advancedSearchButton.disabled
        = !(Js.str s).truthy := by
  revert h
  simp only [processStandardModeSelectChange, run_bind, run_normalizeSorting]
  cases w.resultsGrid.sort with
  | arr sort =>
    simp only
    cases sort.foldlM (sortStep w.lastStandardModeSelect selectedColumns) [] with
    | error e => intro h; cases h
    | ok newSort =>
      simp only [run_lift]
      cases buildSelectExpression (.arr selectedColumns) with
      | error e => intro h; cases h
      | ok s =>
        intro _
        simp only [run_setSelectClause, run_modify, run_toggleSearchButton]
        refine ⟨s, ?_, ?_, ?_, ?_, ?_⟩ <;> first | rfl | trivial
  | _ => intro h; cases h

/-- The search buttons and the select clause `_modeChanged` leaves when it
switches to Standard view and succeeds. -/
theorem modeChanged_standard_search (env : Env) (w : Widget) (hadv : w.standardMode = false)
    (hok : (modeChanged env w).1 = Except.ok ()) :
    ∃ s, (modeChanged env w).2.selectClause = Js.str s ∧
      (modeChanged env w).2.standardSearchButton.disabled = !(Js.str s).truthy ∧
      (modeChanged env w).2.advancedSearchButton.disabled = !(Js.str s).truthy := by
  revert hok
  simp only [modeChanged, run_bind, run_modify, run_read, hadv, Bool.not_true,
    Bool.not_false, Bool.false_eq_true, if_false, run_lift, getDefaultColumns, Chooser.setData,
    Option.getD_none]
  cases buildSelectExpression
      (Js.arr (env.resolve w.standardSelectChooser.items [Js.str "id", Js.str "name"])) with
  | error e => intro h; cases h
  | ok s =>
    intro _
    simp only [run_setSelectClause, run_modify, run_toggleSearchButton, run_search, run_bind]
    refine ⟨s, ?_, ?_, ?_⟩
    · obtain ⟨ev, h⟩ := queryChanged_frame env Js.undef _
      rw [h]
    · obtain ⟨ev, h⟩ := queryChanged_frame env Js.undef _
      rw [h]
    · obtain ⟨ev, h⟩ := queryChanged_frame env Js.undef _
      rw [h]

/-- The switch to Advanced view touches neither the search buttons nor the
select clause. -/
theorem modeChanged_advanced_search (env : Env) (w : Widget) (hstd : w.standardMode = true) :
    (modeChanged env w).2.selectClause = w.selectClause ∧
    (modeChanged env w).2.standardSearchButton = w.standardSearchButton ∧
    (modeChanged env w).2.advancedSearchButton = w.advancedSearchButton := by
  simp only [modeChanged, run_bind, run_modify, run_read, hstd, Bool.not_true,
    Bool.not_false, if_true, run_lift]
  cases buildSelectExpression (Js.arr w.standardSelectChooser.selectedItems) with
  | error e => exact ⟨rfl, rfl, rfl⟩
  | ok s =>
    by_cases hl : w.lastHeaders.length = 0 <;> simp [hl]

theorem get_of_falsy {v : Js} (h : v.truthy = false) (k : String) : v.get k = Js.undef := by
  cases v <;> first | rfl | (simp [Js.truthy] at h)

/-- The value `this.preference && this.preference.value &&
this.preference.value.select` is truthy exactly when the select of the value
of the preference is. -/
theorem selectPresent_truthy (p : Js) :
    ((if (if p.truthy = true then p.get "value" else p).truthy = true
        then (p.get "value").get "select"
        else (if p.truthy = true then p.get "value" else p)).truthy
      = ((p.get "value").get "select").truthy) ∧
    ((if p.truthy = true then
        (if (p.get "value").truthy = true then (p.get "value").get "select" else p.get "value")
      else p).truthy = ((p.get "value").get "select").truthy) := by
  by_cases hp : p.truthy = true
  · simp only [hp, if_true]
    by_cases hv : (p.get "value").truthy = true
    · simp only [hv, if_true, and_self]
    · simp only [hv, Bool.false_eq_true, if_false]
      rw [Bool.not_eq_true] at hv
      rw [get_of_falsy hv "select"]
      exact ⟨rfl, rfl⟩
  · simp only [hp, Bool.false_eq_true, if_false]
    rw [Bool.not_eq_true] at hp
    rw [get_of_falsy hp "value", get_of_falsy truthy_undef]
    simp only [hp, Bool.false_eq_true, if_false, truthy_undef, and_self]

/-- The state a successful `_initCategory` leaves for a new preference. -/
theorem initCategory_new (env : Env) (c : String) (w : Widget)
    (hok : (initCategory env (Js.str c) true w).1 = Except.ok ()) :
    (initCategory env (Js.str c) true w).2.categoryName = w.categoryName ∧
    (initCategory env (Js.str c) true w).2.preference = w.preference ∧
    ∀ md, c ≠ "" → env.metadata (capitalizeFirst c) = some md →
      ∃ s, buildSelectExpression (Js.arr (env.resolve (combineTypeAttributesAndStatistics md).1
          [Js.str "id", Js.str "name"])) = Except.ok s ∧
        (initCategory env (Js.str c) true w).2.selectClause = Js.str s ∧
        (initCategory env (Js.str c) true w).2.advancedSelect.value = Js.str s := by
  revert hok
  unfold initCategory
  by_cases hc : (Js.str c).truthy = true
  · cases hmd : env.metadata (capitalizeFirst c) with
    | none =>
      simp only [run_bind, run_lift, getCategoryMetadata, hc, if_true, hmd, run_modify]
      intro _
      exact ⟨trivial, trivial, fun md _ h => by cases h⟩
    | some md =>
      cases hsel : buildSelectExpression (Js.arr (env.resolve
          (combineTypeAttributesAndStatistics md).1 [Js.str "id", Js.str "name"])) with
      | error e =>
        simp only [run_bind, run_lift, getCategoryMetadata, hc, if_true, hmd, run_modify,
          Chooser.setData, Option.getD_some, run_read, getDefaultColumns, hsel]
        intro h
        cases h
      | ok s =>
        simp only [run_bind, run_lift, getCategoryMetadata, hc, if_true, hmd, run_modify,
          Chooser.setData, Option.getD_some, run_read, getDefaultColumns, hsel,
          run_setSelectClause, run_toggleSearchButton]
        intro _
        refine ⟨trivial, trivial, fun md1 _ h => ?_⟩
        cases h
        refine ⟨s, ?_, ?_, ?_⟩ <;> first | rfl | trivial
  · simp only [run_bind, run_lift, getCategoryMetadata, hc, Bool.false_eq_true, if_false,
      run_modify]
    intro _
    refine ⟨trivial, trivial, fun md hne _ => ?_⟩
    exact absurd (truthy_str hne) hc

/-- The state a successful `_postCreate` leaves for a preference without
saved select. -/
theorem postCreate_new (env : Env) (w : Widget)
    (hnew : ((w.preference.get "value").get "select").truthy = false)
    (hok : (postCreate env w).1 = Except.ok ()) :
    (postCreate env w).2.standardSearchButton.disabled = true ∧
    (postCreate env w).2.advancedSearchButton.disabled = true ∧
    ∀ c md, (postCreate env w).2.categoryName = Js.str c → c ≠ "" →
      env.metadata (capitalizeFirst c) = some md →
      ∃ s, buildSelectExpression (Js.arr (env.resolve (combineTypeAttributesAndStatistics md).1
          [Js.str "id", Js.str "name"])) = Except.ok s ∧
        (postCreate env w).2.selectClause = Js.str s ∧
        (postCreate env w).2.advancedSelect.value = Js.str s := by
  revert hok
  simp only [postCreate, run_bind, run_read, run_modify, run_buildGrid,
    (selectPresent_truthy w.preference).1, (selectPresent_truthy w.preference).2, hnew,
    Bool.not_false, Bool.false_eq_true, if_false]
  generalize (if ((if w.preference.truthy = true then w.preference.get "value"
      else w.preference).truthy && ((w.preference.get "value").get "category").truthy) = true
    then (w.preference.get "value").get "category" else Js.str "Queue") = cat
  cases cat with
  | str c0 =>
    simp only [toLowerCase]
    generalize hI : initCategory env (Js.str c0) true _ = r
    intro hok
    have hr1 : r.1 = Except.ok () := by
      rcases r with ⟨r1, r2⟩
      cases r1 with
      | error e => cases hok
      | ok u => rfl
    have hnewI := initCategory_new env c0 _ (by rw [hI]; exact hr1)
    rw [hI] at hnewI
    obtain ⟨k1, _, k3⟩ := hnewI
    simp only at k1
    rw [act_eta r () hr1]
    simp only [run_toggleSearchButton, run_pure, run_modify, run_bind, truthy_undef,
      Bool.not_false, true_and]
    intro c md hcat hne hmd
    rw [k1] at hcat
    cases hcat
    exact k3 md hne hmd
  | _ => intro h; cases h

/-- C21 as stated fails for a new query: on a widget created without
preference `_initCategory` and `_postCreate` succeed and leave the select
clause "id,name", the default columns, while both search buttons are
disabled, since both end with `_toggleSearchButton()` called without
argument. -/
theorem postCreate_search_disabled_counterexample :
    (postCreate sampleEnv (sampleWidget Js.null)).1 = Except.ok () ∧
    (postCreate sampleEnv (sampleWidget Js.null)).2.selectClause = Js.str "id,name" ∧
    (postCreate sampleEnv (sampleWidget Js.null)).2.standardSearchButton.disabled = true ∧
    (postCreate sampleEnv (sampleWidget Js.null)).2.advancedSearchButton.disabled = true ∧
    (initCategory sampleEnv (Js.str "Queue") true (sampleWidget Js.null)).1 = Except.ok () ∧
    (initCategory sampleEnv (Js.str "Queue") true (sampleWidget Js.null)).2.selectClause
      = Js.str "id,name" ∧
    (initCategory sampleEnv (Js.str "Queue") true
      (sampleWidget Js.null)).2.standardSearchButton.disabled = true ∧
    ¬ ((postCreate sampleEnv (sampleWidget Js.null)).2.standardSearchButton.disabled = true ↔
      (postCreate sampleEnv (sampleWidget Js.null)).2.selectClause = Js.str "") ∧
    ¬ ((postCreate sampleEnv (sampleWidget Js.null)).2.advancedSearchButton.disabled = true ↔
      (postCreate sampleEnv (sampleWidget Js.null)).2.selectClause = Js.str "") := by
  have hne : (postCreate sampleEnv (sampleWidget Js.null)).2.selectClause ≠ Js.str "" := by
    have h : (postCreate sampleEnv (sampleWidget Js.null)).2.selectClause = Js.str "id,name" :=
      rfl
    rw [h]
    intro e
    have e1 := Js.str.inj e
    exact absurd e1 (by decide)
  exact ⟨rfl, rfl, rfl, rfl, rfl, rfl, rfl, fun h => hne (h.1 rfl), fun h => hne (h.1 rfl)⟩

/-- C21, amended: a successful `_processStandardModeSelectChange` and a
successful `_modeChanged` into Standard view leave the standard and the
advanced search button disabled if and only if the select clause is the empty
string, and `_modeChanged` into Advanced view leaves the two buttons and the
select clause as they were. A successful `_postCreate` for a preference
without saved select leaves both buttons disabled; where the category has
metadata, the select clause is then the value of the advanced select box, and
the handler of the event `change` of that box, `_toggleSearchButton` called
with the value of the box, leaves the buttons disabled if and only if the
select clause is the empty string. -/
theorem search_disabled_iff_select_empty (env : Env) (w : Widget) (selectedColumns : List Js) :
    ((processStandardModeSelectChange selectedColumns w).1 = Except.ok () →
      ((processStandardModeSelectChange selectedColumns w).2.standardSearchButton.disabled = true
        ↔ (processStandardModeSelectChange selectedColumns w).2.selectClause = Js.str "") ∧
      ((processStandardModeSelectChange selectedColumns w).2.advancedSearchButton.disabled = true
        ↔ (processStandardModeSelectChange selectedColumns w).2.selectClause = Js.str "")) ∧
    (w.standardMode = false → (modeChanged env w).1 = Except.ok () →
      ((modeChanged env w).2.standardSearchButton.disabled = true
        ↔ (modeChanged env w).2.selectClause = Js.str "") ∧
      ((modeChanged env w).2.advancedSearchButton.disabled = true
        ↔ (modeChanged env w).2.selectClause = Js.str "")) ∧
    (w.standardMode = true →
      (modeChanged env w).2.selectClause = w.selectClause ∧
      (modeChanged env w).2.standardSearchButton = w.standardSearchButton ∧
      (modeChanged env w).2.advancedSearchButton = w.advancedSearchButton) ∧
    (((w.preference.get "value").get "select").truthy = false →
      (postCreate env w).1 = Except.ok () →
      (postCreate env w).2.standardSearchButton.disabled = true ∧
      (postCreate env w).2.advancedSearchButton.disabled = true ∧
      ∀ c md, (postCreate env w).2.categoryName = Js.str c → c ≠ "" →
        env.metadata (capitalizeFirst c) = some md →
        (postCreate env w).2.advancedSelect.value = (postCreate env w).2.selectClause ∧
        (advancedSelectChange (postCreate env w).2).1 = Except.ok () ∧
        ((advancedSelectChange (postCreate env w).2).2.standardSearchButton.disabled = true
          ↔ (advancedSelectChange (postCreate env w).2).2.selectClause = Js.str "") ∧
        ((advancedSelectChange (postCreate env w).2).2.advancedSearchButton.disabled = true
          ↔ (advancedSelectChange (postCreate env w).2).2.selectClause = Js.str "")) := by
  refine ⟨fun hok => ?_, fun hadv hok => ?_, modeChanged_advanced_search env w, fun hnew hok => ?_⟩
  · obtain ⟨s, _, h1, _, h2, h3⟩ := processStandardModeSelectChange_ok selectedColumns w hok
    rw [h1, h2, h3]
    exact ⟨str_truthy_iff s, str_truthy_iff s⟩
  · obtain ⟨s, h1, h2, h3⟩ := modeChanged_standard_search env w hadv hok
    rw [h1, h2, h3]
    exact ⟨str_truthy_iff s, str_truthy_iff s⟩
  · obtain ⟨h1, h2, h3⟩ := postCreate_new env w hnew hok
    refine ⟨h1, h2, fun c md hc hne hmd => ?_⟩
    obtain ⟨s, _, k1, k2⟩ := h3 c md hc hne hmd
    have hrun : advancedSelectChange (postCreate env w).2
        = toggleSearchButton (Js.str s) (postCreate env w).2 := by
      simp only [advancedSelectChange, run_bind, run_read, k2]
    rw [hrun, run_toggleSearchButton, k1, k2]
    exact ⟨rfl, rfl, str_truthy_iff s, str_truthy_iff s⟩

theorem search_disabled_iff_select_empty_witness :
    (processStandardModeSelectChange [columnObject "durable"] (sampleWidget Js.null)).1
      = Except.ok () ∧
    ((processStandardModeSelectChange [columnObject "durable"]
        (sampleWidget Js.null)).2.standardSearchButton.disabled = true
      ↔ (processStandardModeSelectChange [columnObject "durable"]
        (sampleWidget Js.null)).2.selectClause = Js.str "") ∧
    ({ sampleWidget savedPreference with standardMode := false } : Widget).standardMode = false ∧
    (modeChanged sampleEnv { sampleWidget savedPreference with standardMode := false }).1
      = Except.ok () ∧
    ((modeChanged sampleEnv
        { sampleWidget savedPreference with standardMode := false }).2.standardSearchButton.disabled
        = true
      ↔ (modeChanged sampleEnv
        { sampleWidget savedPreference with standardMode := false }).2.selectClause = Js.str "") ∧
    (sampleWidget Js.null).standardMode = true ∧
    (modeChanged sampleEnv (sampleWidget Js.null)).2.selectClause
      = (sampleWidget Js.null).selectClause ∧
    (((sampleWidget Js.null).preference.get "value").get "select").truthy = false ∧
    (postCreate sampleEnv (sampleWidget Js.null)).1 = Except.ok () ∧
    (postCreate sampleEnv (sampleWidget Js.null)).2.categoryName = Js.str "Queue" ∧
    sampleEnv.metadata (capitalizeFirst "Queue") = some queueMetadata ∧
    (postCreate sampleEnv (sampleWidget Js.null)).2.standardSearchButton.disabled = true ∧
    ((advancedSelectChange
        (postCreate sampleEnv (sampleWidget Js.null)).2).2.standardSearchButton.disabled = true
      ↔ (advancedSelectChange (postCreate sampleEnv (sampleWidget Js.null)).2).2.selectClause
        = Js.str "") :=
  ⟨rfl,
    ((search_disabled_iff_select_empty sampleEnv (sampleWidget Js.null)
      [columnObject "durable"]).1 rfl).1,
    rfl, rfl,
    ((search_disabled_iff_select_empty sampleEnv
      { sampleWidget savedPreference with standardMode := false } []).2.1 rfl rfl).1,
    rfl,
    ((search_disabled_iff_select_empty sampleEnv (sampleWidget Js.null) []).2.2.1 rfl).1,
    rfl, rfl, rfl, rfl,
    ((search_disabled_iff_select_empty sampleEnv (sampleWidget Js.null) []).2.2.2 rfl rfl).1,
    (((search_disabled_iff_select_empty sampleEnv (sampleWidget Js.null) []).2.2.2 rfl rfl).2.2
      "Queue" queueMetadata rfl (by decide) rfl).2.2.1⟩

/-! ### The sort of the grid under a new selection -/

theorem toDigitsCore_length_le : ∀ (fuel n : Nat) (ds : List Char),
    ds.length ≤ (Nat.toDigitsCore 10 fuel n ds).length := by
  intro fuel
  induction fuel with
  | zero => intro n ds; simp [Nat.toDigitsCore]
  | succ fuel ih =>
    intro n ds
    simp only [Nat.toDigitsCore]
    split
    · simp
    · exact Nat.le_trans (by simp) (ih _ _)

theorem toDigits_ne_nil (n : Nat) : Nat.toDigits 10 n ≠ [] := by
  intro h
  have hl : (Nat.toDigits 10 n).length = 0 := by rw [h]; rfl
  revert hl
  simp only [Nat.toDigits, Nat.toDigitsCore]
  split
  · simp
  · intro hl
    have := toDigitsCore_length_le n (n / 10) [Nat.digitChar (n % 10)]
    rw [hl] at this
    simp at this

theorem toString_nat_data (n : Nat) : (toString n).data = Nat.toDigits 10 n := by
  simp [toString, Nat.repr, List.asString]

theorem takeWhile_all {α : Type} (p : α → Bool) : ∀ (l : List α), (∀ x ∈ l, p x = true) →
    l.takeWhile p = l
  | [], _ => rfl
  | x :: l, h => by
    rw [List.takeWhile_cons, h x (List.mem_cons_self _ _),
      takeWhile_all p l (fun y hy => h y (List.mem_cons_of_mem _ hy))]
    rfl

/-- The call `parseInt` reads a decimal numeral back. -/
theorem parseInt_toString (n : Nat) : parseInt (Js.str (toString n)) = some (some (n : Int)) := by
  have hd : ∀ c ∈ Nat.toDigits 10 n, c.isDigit = true :=
    toDigitsCore_isDigit (n + 1) n [] (by simp)
  have hv : digitsVal (Nat.toDigits 10 n) = n := by
    have := toDigitsCore_val (n + 1) n [] (by omega)
    simpa [digitsVal, Nat.toDigits] using this
  simp only [parseInt, toString_nat_data]
  cases hds : Nat.toDigits 10 n with
  | nil => exact absurd hds (toDigits_ne_nil n)
  | cons c cs =>
    rw [hds] at hd hv
    have hc : c.isDigit = true := hd c (List.mem_cons_self _ _)
    have hx : (c == '0' && (cs.head? == some 'x' || cs.head? == some 'X')) = false := by
      cases cs with
      | nil => simp
      | cons c1 cs1 =>
        have h1 : c1.isDigit = true := hd c1 (List.mem_cons_of_mem _ (List.mem_cons_self _ _))
        have hx1 : c1 ≠ 'x' := fun e => by rw [e] at h1; exact absurd h1 (by decide)
        have hx2 : c1 ≠ 'X' := fun e => by rw [e] at h1; exact absurd h1 (by decide)
        simp [hx1, hx2]
    simp only [parseIntChars, hc, if_true, hx, Bool.false_eq_true, if_false]
    rw [takeWhile_all _ _ hd, hv]

theorem findColumn_names (n : String) : ∀ (columns : List Js) (names : List String),
    List.Forall₂ (fun x name => x.prop "attributeName" = Except.ok (Js.str name)) columns names →
    ∀ j0 : Nat, findColumn (Js.str n) columns j0
      = Except.ok (if names.indexOf n < names.length then some (j0 + names.indexOf n) else none)
  | _, _, List.Forall₂.nil, j0 => rfl
  | x :: columns, name :: names, List.Forall₂.cons hx h, j0 => by
    have ih := findColumn_names n columns names h (j0 + 1)
    unfold findColumn
    rw [hx]
    by_cases hn : name = n
    · subst hn
      simp [Js.strictEquals, bind, Except.bind, pure, Except.pure]
    · have hb : (name == n) = false := by simpa using hn
      simp only [Js.strictEquals, bind, Except.bind, hb, ih, List.indexOf_cons_ne _ hn,
        List.length_cons, Nat.succ_eq_add_one, Nat.add_lt_add_iff_right]
      by_cases hl : List.indexOf n names < names.length
      · simp only [hl, if_true]
        congr 2
        omega
      · simp only [hl, if_false]

theorem forall₂_get? {α β : Type} {R : α → β → Prop} : ∀ {l1 : List α} {l2 : List β},
    List.Forall₂ R l1 l2 → ∀ i, i < l1.length →
    ∃ x y, l1.get? i = some x ∧ l2.get? i = some y ∧ R x y
  | _, _, List.Forall₂.nil, i, hi => by simp at hi
  | x :: l1, y :: l2, List.Forall₂.cons hx h, 0, _ => ⟨x, y, rfl, rfl, hx⟩
  | x :: l1, y :: l2, List.Forall₂.cons hx h, i + 1, hi => by
    simp only [List.get?_cons_succ]
    exact forall₂_get? h i (by simpa using hi)

/-- One round of the loop of `_normalizeSorting` on an entry of the sort. -/
theorem sortStep_entry (previousColumns selectedColumns : List Js) (previous selected : List String)
    (hprev : List.Forall₂ (fun x name => x.prop "attributeName" = Except.ok (Js.str name))
      previousColumns previous)
    (hsel : List.Forall₂ (fun x name => x.prop "attributeName" = Except.ok (Js.str name))
      selectedColumns selected)
    (newSort : List Js) (k : Nat) (d : Js) (hk : 1 ≤ k) :
    sortStep (Js.arr previousColumns) selectedColumns newSort (sortEntry k d)
      = Except.ok (newSort ++
          (retargetedSort previous selected [(k, d)]).map fun e => sortEntry e.1 e.2) := by
  obtain ⟨m, rfl⟩ : ∃ m, k = m + 1 := ⟨k - 1, by omega⟩
  have hlen := hprev.length_eq
  have hp1 : (sortEntry (m + 1) d).prop "property" = Except.ok (Js.str (toString (m + 1))) := rfl
  have hp2 : (sortEntry (m + 1) d).prop "descending" = Except.ok d := rfl
  have hcast : ((m + 1 : Nat) : Int) - 1 = (m : Int) := by push_cast; ring
  unfold sortStep
  rw [hp1, hp2]
  simp only [bind, Except.bind, parseInt_toString, hcast, Nat.cast_lt, Int.toNat_ofNat,
    Nat.cast_nonneg, if_true]
  by_cases hm : m < previousColumns.length
  · obtain ⟨x, name, hx1, hx2, hx3⟩ := forall₂_get? hprev m hm
    have hle : 1 ≤ m + 1 ∧ m + 1 ≤ previous.length := ⟨by omega, by omega⟩
    simp only [hm, if_true, hx1, Option.getD_some, hx3, findColumn_names _ _ _ hsel,
      retargetedSort, List.filterMap_cons, List.filterMap_nil, hle, and_self,
      Nat.add_sub_cancel, hx2, Nat.zero_add]
    by_cases hi : List.indexOf name selected < selected.length
    · simp only [hi, if_true]
      rfl
    · simp only [hi, if_false]
      simp [pure, Except.pure]
  · have hle : ¬ (1 ≤ m + 1 ∧ m + 1 ≤ previous.length) := by omega
    simp only [hm, if_false, retargetedSort, List.filterMap_cons, List.filterMap_nil, hle]
    simp [pure, Except.pure]

theorem retargetedSort_cons (previous selected : List String) (e : Nat × Js)
    (sort : List (Nat × Js)) :
    retargetedSort previous selected (e :: sort)
      = retargetedSort previous selected [e] ++ retargetedSort previous selected sort := by
  unfold retargetedSort
  rw [← List.filterMap_append]
  rfl

theorem sortStep_loop (previousColumns selectedColumns : List Js) (previous selected : List String)
    (hprev : List.Forall₂ (fun x name => x.prop "attributeName" = Except.ok (Js.str name))
      previousColumns previous)
    (hsel : List.Forall₂ (fun x name => x.prop "attributeName" = Except.ok (Js.str name))
      selectedColumns selected) :
    ∀ (sort : List (Nat × Js)) (newSort : List Js), (∀ e ∈ sort, 1 ≤ e.1) →
    (sort.map fun e => sortEntry e.1 e.2).foldlM
        (sortStep (Js.arr previousColumns) selectedColumns) newSort
      = Except.ok (newSort ++
          (retargetedSort previous selected sort).map fun e => sortEntry e.1 e.2)
  | [], newSort, _ => by
    simp [retargetedSort, pure, Except.pure]
  | e :: sort, newSort, h => by
    rw [List.map_cons, List.foldlM_cons,
      sortStep_entry previousColumns selectedColumns previous selected hprev hsel newSort e.1 e.2
        (h e (List.mem_cons_self _ _))]
    simp only [bind, Except.bind]
    rw [sortStep_loop previousColumns selectedColumns previous selected hprev hsel sort _
      (fun x hx => h x (List.mem_cons_of_mem _ hx)), retargetedSort_cons previous selected e sort,
      List.map_append, List.append_assoc]

theorem indexOf_le_of_get? : ∀ (l : List String) (a : String) (i : Nat),
    l.get? i = some a → l.indexOf a ≤ i
  | [], _, _, h => by simp at h
  | x :: l, a, 0, h => by
    simp only [List.get?_cons_zero, Option.some.injEq] at h
    rw [List.indexOf_cons_eq _ h]
  | x :: l, a, i + 1, h => by
    by_cases hx : x = a
    · rw [List.indexOf_cons_eq _ hx]
      omega
    · rw [List.indexOf_cons_ne _ hx]
      have := indexOf_le_of_get? l a i (by simpa using h)
      omega

theorem retargetedSort_mem (previous selected : List String) (sort : List (Nat × Js))
    (e : Nat × Js) (he : e ∈ retargetedSort previous selected sort) :
    1 ≤ e.1 ∧ e.1 ≤ selected.length ∧
    ∃ k name, (k, e.2) ∈ sort ∧ 1 ≤ k ∧ k ≤ previous.length ∧
      previous.get? (k - 1) = some name ∧ selected.get? (e.1 - 1) = some name ∧
      ∀ i, i < e.1 - 1 → selected.get? i ≠ some name := by
  unfold retargetedSort at he
  obtain ⟨e0, he0, hf⟩ := List.mem_filterMap.1 he
  by_cases hr : 1 ≤ e0.1 ∧ e0.1 ≤ previous.length
  · rw [if_pos hr] at hf
    cases hg : previous.get? (e0.1 - 1) with
    | none => rw [hg] at hf; cases hf
    | some name =>
      rw [hg] at hf
      simp only at hf
      by_cases hi : List.indexOf name selected < selected.length
      · rw [if_pos hi] at hf
        cases hf
        refine ⟨by simp, by simpa using hi, e0.1, name, he0, hr.1, hr.2, hg, ?_, ?_⟩
        · simp only [Nat.add_sub_cancel]
          exact List.indexOf_get? (List.indexOf_lt_length.1 hi)
        · intro i hlt hget
          simp only [Nat.add_sub_cancel] at hlt
          have := indexOf_le_of_get? selected name i hget
          omega
      · rw [if_neg hi] at hf
        cases hf
  · rw [if_neg hr] at hf
    cases hf

theorem filterMap_eq_self {α : Type} (f : α → Option α) : ∀ (l : List α),
    (∀ x ∈ l, f x = some x) → l.filterMap f = l
  | [], _ => rfl
  | x :: l, h => by
    rw [List.filterMap_cons, h x (List.mem_cons_self _ _)]
    simp only
    rw [filterMap_eq_self f l (fun y hy => h y (List.mem_cons_of_mem _ hy))]

theorem retargetedSort_same (previous : List String) (hnd : previous.Nodup)
    (sort : List (Nat × Js)) (hin : ∀ e ∈ sort, 1 ≤ e.1 ∧ e.1 ≤ previous.length) :
    retargetedSort previous previous sort = sort := by
  unfold retargetedSort
  apply filterMap_eq_self
  intro e he
  obtain ⟨h1, h2⟩ := hin e he
  have hlt : e.1 - 1 < previous.length := by omega
  have hidx : List.indexOf (previous.get ⟨e.1 - 1, hlt⟩) previous = e.1 - 1 :=
    List.get_indexOf hnd ⟨e.1 - 1, hlt⟩
  rw [if_pos ⟨h1, h2⟩, List.get?_eq_get hlt]
  simp only [hidx, hlt, if_true]
  have : e.1 - 1 + 1 = e.1 := by omega
  rw [this]

/-- C22: `_normalizeSorting(selectedColumns)` on columns with string names,
the previous selection being such columns too and the sort of the grid being
entries `{property: "k", descending: d}` with column numbers `k` of 1 or
more, succeeds and sets the sort to the entries the specification describes:
the old entries in order, an entry with `k` within the previous selection
becoming `{property: "j+1", descending: d}` for the first index `j` at which
the new selection has the attribute name the previous one has at `k - 1`, any
other entry dropped. Every resulting entry has a column number in
`1..length selectedColumns`, comes from an old entry with the same direction
and refers to the same attribute name, at its first index; the entries made
of an earlier part of the sort precede those made of a later part, an entry
giving one entry at most; and the sort is unchanged when the names of the
selection are distinct and unchanged and every column number is within the
selection. -/
theorem normalizeSorting_retargets (w : Widget) (selectedColumns previousColumns : List Js)
    (selected previous : List String) (sort : List (Nat × Js))
    (hsort : w.resultsGrid.sort = Js.arr (sort.map fun e => sortEntry e.1 e.2))
    (hlast : w.lastStandardModeSelect = Js.arr previousColumns)
    (hprev : List.Forall₂ (fun x name => x.prop "attributeName" = Except.ok (Js.str name))
      previousColumns previous)
    (hsel : List.Forall₂ (fun x name => x.prop "attributeName" = Except.ok (Js.str name))
      selectedColumns selected)
    (hpos : ∀ e ∈ sort, 1 ≤ e.1) :
    normalizeSorting selectedColumns w = (Except.ok (), { w with
      resultsGrid := { w.resultsGrid with
        sort := Js.arr ((retargetedSort previous selected sort).map
          fun e => sortEntry e.1 e.2) } }) ∧
    (∀ e ∈ retargetedSort previous selected sort,
      1 ≤ e.1 ∧ e.1 ≤ selectedColumns.length ∧
      ∃ k name, (k, e.2) ∈ sort ∧ 1 ≤ k ∧ k ≤ previousColumns.length ∧
        previous.get? (k - 1) = some name ∧ selected.get? (e.1 - 1) = some name ∧
        ∀ i, i < e.1 - 1 → selected.get? i ≠ some name) ∧
    (∀ s1 s2, sort = s1 ++ s2 →
      retargetedSort previous selected sort
        = retargetedSort previous selected s1 ++ retargetedSort previous selected s2) ∧
    (∀ e, (retargetedSort previous selected [e]).length ≤ 1) ∧
    (selected = previous → previous.Nodup → (∀ e ∈ sort, e.1 ≤ previous.length) →
      (normalizeSorting selectedColumns w).2.resultsGrid.sort = w.resultsGrid.sort) := by
  have hrun : normalizeSorting selectedColumns w = (Except.ok (), { w with
      resultsGrid := { w.resultsGrid with
        sort := Js.arr ((retargetedSort previous selected sort).map
          fun e => sortEntry e.1 e.2) } }) := by
    rw [run_normalizeSorting, hsort, hlast]
    simp only
    rw [sortStep_loop previousColumns selectedColumns previous selected hprev hsel sort [] hpos]
    rfl
  refine ⟨hrun, ?_, ?_, ?_, ?_⟩
  · intro e he
    have h := retargetedSort_mem previous selected sort e he
    rw [hsel.length_eq, hprev.length_eq]
    exact h
  · intro s1 s2 h
    rw [h]
    unfold retargetedSort
    rw [List.filterMap_append]
  · intro e
    unfold retargetedSort
    rw [List.filterMap_cons]
    split <;> simp
  · intro hs hnd hin
    rw [hrun, hs, retargetedSort_same previous hnd sort (fun e he => ⟨hpos e he, hin e he⟩), hsort]

theorem normalizeSorting_retargets_witness :
    sortedWidget.resultsGrid.sort
      = Js.arr ([(2, Js.bool true), (1, Js.bool false), (3, Js.bool false)].map
          fun e => sortEntry e.1 e.2) ∧
    sortedWidget.lastStandardModeSelect = Js.arr [columnObject "id", columnObject "name"] ∧
    retargetedSort ["id", "name"] ["name", "durable"]
      [(2, Js.bool true), (1, Js.bool false), (3, Js.bool false)] = [(1, Js.bool true)] ∧
    normalizeSorting [columnObject "name", columnObject "durable"] sortedWidget
      = (Except.ok (), { sortedWidget with
          resultsGrid := { sortedWidget.resultsGrid with
            sort := Js.arr ((retargetedSort ["id", "name"] ["name", "durable"]
              [(2, Js.bool true), (1, Js.bool false), (3, Js.bool false)]).map
                fun e => sortEntry e.1 e.2) } }) ∧
    (normalizeSorting [columnObject "name", columnObject "durable"] sortedWidget).2.resultsGrid.sort
      = Js.arr [sortEntry 1 (Js.bool true)] :=
  ⟨rfl, rfl, rfl,
    (normalizeSorting_retargets sortedWidget [columnObject "name", columnObject "durable"]
      [columnObject "id", columnObject "name"] ["name", "durable"] ["id", "name"]
      [(2, Js.bool true), (1, Js.bool false), (3, Js.bool false)] rfl rfl
      (List.Forall₂.cons rfl (List.Forall₂.cons rfl List.Forall₂.nil))
      (List.Forall₂.cons rfl (List.Forall₂.cons rfl List.Forall₂.nil))
      (fun e he => by
        simp only [List.mem_cons, List.mem_singleton, List.not_mem_nil, or_false] at he
        rcases he with rfl | rfl | rfl <;> decide)).1,
    rfl⟩

/-! ### The columns of a category, name by name -/

theorem lookup_append_singleton {β : Type} (k : String) (x : β) (n : String) :
    ∀ (l : List (String × β)),
      (l ++ [(k, x)]).lookup n
        = if (l.lookup n).isSome then l.lookup n else if n = k then some x else none
  | [] => by
    by_cases h : n = k
    · subst h
      simp [List.lookup]
    · have hb : (n == k) = false := by simpa using h
      simp [List.lookup, hb, h]
  | (k1, y) :: l => by
    by_cases h : n = k1
    · subst h
      simp [List.lookup]
    · have hb : (n == k1) = false := by simpa using h
      simp only [List.cons_append, List.lookup, hb]
      exact lookup_append_singleton k x n l

theorem not_mem_keys_of_lookup_none {β : Type} {k : String} {l : List (String × β)}
    (h : l.lookup k = none) : k ∉ l.map Prod.fst := by
  intro hm
  have := lookup_isSome_of_mem_keys hm
  rw [h] at this
  cases this

theorem mem_keys_of_lookup_isSome {β : Type} {k : String} {l : List (String × β)}
    (h : (l.lookup k).isSome = true) : k ∈ l.map Prod.fst := by
  cases hl : l.lookup k with
  | none => rw [hl] at h; cases h
  | some x => exact List.mem_map.2 ⟨(k, x), mem_of_lookup_eq_some hl, rfl⟩

theorem inColumns_plain (columnsObject : List (String × Js)) (name : String)
    (h : name ∉ objectPrototypeKeys) :
    inColumns columnsObject name = (columnsObject.lookup name).isSome := by
  unfold inColumns
  have : objectPrototypeKeys.contains name = false := by
    rw [Bool.eq_false_iff]
    intro hc
    exact h (by simpa using hc)
  rw [this, Bool.or_false]

/-- A name met for the first time is pushed and kept. -/
theorem push_inv (c : Columns) (met : List (String × Js)) (types : List Js) (name : String)
    (data : Js) (hinv : ColumnsInv c met types) (hnone : c.columnsObject.lookup name = none)
    (ta : Bool) (hta : ta = if name = "type" then isAttributeEntry data else c.typeAttribute) :
    ColumnsInv ⟨c.columnsArray ++ [data], upsert c.columnsObject name data, c.validTypes, ta⟩
      (met ++ [(name, data)]) types := by
  obtain ⟨h1, h2, h3, h4, h5⟩ := hinv
  have hnk := not_mem_keys_of_lookup_none hnone
  have hup := upsert_append_new name data c.columnsObject hnk
  have hmet : met.lookup name = none := by rw [← h3]; exact hnone
  refine ⟨?_, ?_, ?_, ?_, h5⟩
  · simp only [hup, List.map_append, List.map_cons, List.map_nil, h1]
  · simp only [hup, List.map_append, List.map_cons, List.map_nil]
    rw [List.nodup_append]
    refine ⟨h2, List.nodup_singleton _, ?_⟩
    intro a ha hb
    rw [List.mem_singleton] at hb
    subst hb
    exact hnk ha
  · intro n
    simp only
    rw [lookup_upsert, lookup_append_singleton, ← h3 n]
    by_cases hn : n = name
    · subst hn
      simp [hnone]
    · simp only [hn, if_false]
      cases c.columnsObject.lookup n <;> simp
  · simp only
    rw [hta, lookup_append_singleton, h4]
    by_cases hn : name = "type"
    · subst hn
      simp [hmet]
    · have hn1 : ¬ "type" = name := fun e => hn e.symm
      simp only [hn, hn1, if_false]
      cases met.lookup "type" <;> simp

/-- A name met again changes nothing. -/
theorem skip_inv (c : Columns) (met : List (String × Js)) (types : List Js) (name : String)
    (data : Js) (hinv : ColumnsInv c met types)
    (hsome : (c.columnsObject.lookup name).isSome = true) :
    ColumnsInv c (met ++ [(name, data)]) types := by
  obtain ⟨h1, h2, h3, h4, h5⟩ := hinv
  have hmet : (met.lookup name).isSome = true := by rw [← h3]; exact hsome
  have hlook : ∀ n, (met ++ [(name, data)]).lookup n = met.lookup n := by
    intro n
    rw [lookup_append_singleton]
    by_cases hn : n = name
    · subst hn
      simp [hmet]
    · simp only [hn, if_false]
      cases met.lookup n <;> simp
  refine ⟨h1, h2, fun n => ?_, ?_, h5⟩
  · rw [hlook, h3]
  · rw [hlook, h4]

theorem attributeStep_inv (c : Columns) (met : List (String × Js)) (types : List Js)
    (na : String × AttributeMeta) (hinv : ColumnsInv c met types)
    (hna : na.1 ∉ objectPrototypeKeys) :
    ColumnsInv (attributeStep c na) (met ++ [(na.1, attributeData na)]) types := by
  unfold attributeStep
  rw [inColumns_plain _ _ hna]
  cases hl : c.columnsObject.lookup na.1 with
  | none =>
    simp only [Option.isSome_none, Bool.not_false, if_true]
    have h := push_inv c met types na.1 (attributeData na) hinv hl
      (if na.1 = "type" then true else c.typeAttribute) (by
        by_cases hn : na.1 = "type"
        · simp only [hn, if_true]
          rfl
        · simp only [hn, if_false])
    exact h
  | some x =>
    simp only [Option.isSome_some, Bool.not_true, Bool.false_eq_true, if_false]
    exact skip_inv c met types na.1 (attributeData na) hinv (by rw [hl]; rfl)

theorem statisticStep_inv (c : Columns) (met : List (String × Js)) (types : List Js)
    (ns : String × AttributeMeta) (hinv : ColumnsInv c met types)
    (hns : ns.1 ∉ objectPrototypeKeys) :
    ColumnsInv (statisticStep c ns) (met ++ [(ns.1, statisticData ns)]) types := by
  unfold statisticStep
  rw [inColumns_plain _ _ hns]
  cases hl : c.columnsObject.lookup ns.1 with
  | none =>
    simp only [Option.isSome_none, Bool.not_false, if_true]
    have h := push_inv c met types ns.1 (statisticData ns) hinv hl c.typeAttribute (by
        by_cases hn : ns.1 = "type"
        · simp only [hn, if_true]
          have := hinv.2.2.2.1
          have hm : met.lookup "type" = none := by rw [← hinv.2.2.1, ← hn]; exact hl
          rw [this, hm]
          rfl
        · simp only [hn, if_false])
    exact h
  | some x =>
    simp only [Option.isSome_some, Bool.not_true, Bool.false_eq_true, if_false]
    exact skip_inv c met types ns.1 (statisticData ns) hinv (by rw [hl]; rfl)

theorem attributes_inv (types : List Js) : ∀ (attributes : List (String × AttributeMeta))
    (c : Columns) (met : List (String × Js)), ColumnsInv c met types →
    (∀ na ∈ attributes, na.1 ∉ objectPrototypeKeys) →
    ColumnsInv (attributes.foldl attributeStep c)
      (met ++ attributes.map fun na => (na.1, attributeData na)) types
  | [], c, met, h, _ => by simpa using h
  | na :: attributes, c, met, h, hp => by
    have h1 := attributeStep_inv c met types na h (hp na (List.mem_cons_self _ _))
    have h2 := attributes_inv types attributes _ _ h1
      (fun x hx => hp x (List.mem_cons_of_mem _ hx))
    simpa using h2

theorem statistics_inv (types : List Js) : ∀ (statistics : List (String × AttributeMeta))
    (c : Columns) (met : List (String × Js)), ColumnsInv c met types →
    (∀ ns ∈ statistics, ns.1 ∉ objectPrototypeKeys) →
    ColumnsInv (statistics.foldl statisticStep c)
      (met ++ statistics.map fun ns => (ns.1, statisticData ns)) types
  | [], c, met, h, _ => by simpa using h
  | ns :: statistics, c, met, h, hp => by
    have h1 := statisticStep_inv c met types ns h (hp ns (List.mem_cons_self _ _))
    have h2 := statistics_inv types statistics _ _ h1
      (fun x hx => hp x (List.mem_cons_of_mem _ hx))
    simpa using h2

theorem types_inv : ∀ (metadata : List (String × TypeMeta)) (c : Columns)
    (met : List (String × Js)) (types : List Js), ColumnsInv c met types →
    (∀ p ∈ definitions metadata, p.1 ∉ objectPrototypeKeys) →
    ColumnsInv (metadata.foldl typeStep c) (met ++ definitions metadata)
      (types ++ metadata.map fun it => Js.str it.1)
  | [], c, met, types, h, _ => by simpa [definitions] using h
  | it :: metadata, c, met, types, h, hp => by
    have h0 : ColumnsInv { c with validTypes := c.validTypes ++ [Js.str it.1] } met
        (types ++ [Js.str it.1]) := by
      obtain ⟨h1, h2, h3, h4, h5⟩ := h
      exact ⟨h1, h2, h3, h4, by simp only [h5]⟩
    have h1 := attributes_inv _ it.2.attributes _ _ h0 (fun na hna => hp (na.1, attributeData na)
      (by
        unfold definitions
        exact List.mem_append_left _ (List.mem_map.2 ⟨na, hna, rfl⟩)))
    have h2 := statistics_inv _ it.2.statistics _ _ h1 (fun ns hns => hp (ns.1, statisticData ns)
      (by
        unfold definitions
        exact List.mem_append_right _
          (List.mem_append_left _ (List.mem_map.2 ⟨ns, hns, rfl⟩))))
    have h3 := types_inv metadata _ _ _ h2 (fun p hpm => hp p (by
        unfold definitions
        exact List.mem_append_right _ (List.mem_append_right _ hpm)))
    simpa [definitions, typeStep, List.append_assoc] using h3

/-- The variables at the end of the loops of
`_combineTypeAttributesAndStatistics`. -/
theorem combine_inv (metadata : List (String × TypeMeta))
    (hp : ∀ p ∈ definitions metadata, p.1 ∉ objectPrototypeKeys) :
    ColumnsInv (metadata.foldl typeStep ⟨[], [], [], false⟩) (definitions metadata)
      (metadata.map fun it => Js.str it.1) := by
  have h := types_inv metadata ⟨[], [], [], false⟩ [] [] ⟨rfl, List.nodup_nil, fun _ => rfl,
    rfl, rfl⟩ hp
  simpa using h

theorem definitions_entry : ∀ (metadata : List (String × TypeMeta)) (p : String × Js),
    p ∈ definitions metadata →
    ∃ ps, p.2 = Js.obj ps ∧ ps.lookup "id" = some (Js.str p.1) ∧
      ps.lookup "attributeName" = some (Js.str p.1)
  | [], p, h => by simp [definitions] at h
  | it :: metadata, p, h => by
    unfold definitions at h
    rcases List.mem_append.1 h with h | h
    · obtain ⟨na, _, rfl⟩ := List.mem_map.1 h
      exact ⟨_, rfl, rfl, rfl⟩
    · rcases List.mem_append.1 h with h | h
      · obtain ⟨ns, _, rfl⟩ := List.mem_map.1 h
        exact ⟨_, rfl, rfl, rfl⟩
      · exact definitions_entry metadata p h

theorem giveValidTypes_other (validTypes : List Js) (ps : List (String × Js)) (n : String)
    (hid : ps.lookup "id" = some (Js.str n)) (hn : n ≠ "type") :
    giveValidTypes validTypes (Js.obj ps) = Js.obj ps := by
  unfold giveValidTypes
  simp only [Js.get, hid, Option.getD_some]
  split
  · rename_i heq
    exact absurd (Js.str.inj heq) hn
  · rfl

theorem giveValidTypes_type (validTypes : List Js) (ps : List (String × Js))
    (hid : ps.lookup "id" = some (Js.str "type")) :
    giveValidTypes validTypes (Js.obj ps)
      = Js.obj (upsert ps "validValues" (Js.arr validTypes)) := by
  unfold giveValidTypes
  simp only [Js.get, hid, Option.getD_some]

theorem giveValidTypes_get (validTypes : List Js) (x : Js) (k : String)
    (hk : k ≠ "validValues") : (giveValidTypes validTypes x).get k = x.get k := by
  unfold giveValidTypes
  split
  · cases x with
    | obj ps => simp only [Js.get, lookup_upsert, hk, if_false]
    | _ => rfl
  · rfl

theorem lookup_map_snd {β : Type} (g : β → β) (k : String) : ∀ (l : List (String × β)),
    (l.map fun p => (p.1, g p.2)).lookup k = (l.lookup k).map g
  | [] => rfl
  | (k1, y) :: l => by
    by_cases h : k = k1
    · subst h
      simp [List.lookup]
    · have hb : (k == k1) = false := by simpa using h
      simp only [List.map_cons, List.lookup, hb]
      exact lookup_map_snd g k l

/-- C23 as stated fails on metadata with a name that `Object.prototype`
defines: the test `name in columnsObject` finds `constructor` and `valueOf`
in the empty object, so the attribute `constructor` and the statistic
`valueOf` get no entry, neither in `asArray` nor in `asObject`. -/
theorem combine_prototype_name_counterexample :
    (definitions prototypeNamedMetadata).map Prod.fst = ["name", "constructor", "valueOf"] ∧
    (combineTypeAttributesAndStatistics prototypeNamedMetadata).1 = [columnObject "name"] ∧
    (combineTypeAttributesAndStatistics prototypeNamedMetadata).2
      = [("name", columnObject "name")] ∧
    ¬ (∀ name ∈ (definitions prototypeNamedMetadata).map Prod.fst,
        name ∈ (combineTypeAttributesAndStatistics prototypeNamedMetadata).2.map Prod.fst) := by
  refine ⟨rfl, rfl, rfl, fun h => ?_⟩
  have h1 := h "constructor" (by decide)
  have h2 : (combineTypeAttributesAndStatistics prototypeNamedMetadata).2.map Prod.fst
      = ["name"] := rfl
  rw [h2] at h1
  exact absurd h1 (by decide)

/-- C23, amended: for metadata none of whose attribute and statistic names is
a property of `Object.prototype`, `asArray` is the list of the entries of
`asObject` in order, no two keys of `asObject` and no two ids of `asArray`
are the same, the keys are exactly the names defined by some type, and every
entry has its key as `id` and as `attributeName`. For a name other than
`type` the entry is the one built from the first definition met, types in
order and attributes before statistics. For `type` it is that entry too,
unless the first definition is an attribute whose `validValues` is falsy: its
`validValues` is then the list of the names of all types. -/
theorem combine_entries (metadata : List (String × TypeMeta))
    (hproto : ∀ p ∈ definitions metadata, p.1 ∉ objectPrototypeKeys) :
    ∃ asArray asObject, combineTypeAttributesAndStatistics metadata = (asArray, asObject) ∧
      asArray = asObject.map Prod.snd ∧
      (asObject.map Prod.fst).Nodup ∧
      (asArray.map fun e => e.get "id").Nodup ∧
      (∀ name, name ∈ asObject.map Prod.fst ↔ name ∈ (definitions metadata).map Prod.fst) ∧
      (∀ p ∈ asObject, p.2.get "id" = Js.str p.1 ∧ p.2.get "attributeName" = Js.str p.1) ∧
      (∀ name, name ≠ "type" → asObject.lookup name = (definitions metadata).lookup name) ∧
      (∀ d, (definitions metadata).lookup "type" = some d →
        (isAttributeEntry d = true → (d.get "validValues").truthy = false →
          ∃ ps, d = Js.obj ps ∧ asObject.lookup "type"
            = some (Js.obj (upsert ps "validValues"
                (Js.arr (metadata.map fun it => Js.str it.1))))) ∧
        (¬ (isAttributeEntry d = true ∧ (d.get "validValues").truthy = false) →
          asObject.lookup "type" = some d)) := by
  have hc : combineTypeAttributesAndStatistics metadata =
      if ((metadata.foldl typeStep ⟨[], [], [], false⟩).typeAttribute &&
        !((((metadata.foldl typeStep ⟨[], [], [], false⟩).columnsObject.lookup "type").getD
          Js.undef).get "validValues").truthy) = true
      then ((metadata.foldl typeStep ⟨[], [], [], false⟩).columnsArray.map
          (giveValidTypes (metadata.foldl typeStep ⟨[], [], [], false⟩).validTypes),
        (metadata.foldl typeStep ⟨[], [], [], false⟩).columnsObject.map fun p =>
          (p.1, giveValidTypes (metadata.foldl typeStep ⟨[], [], [], false⟩).validTypes p.2))
      else ((metadata.foldl typeStep ⟨[], [], [], false⟩).columnsArray,
        (metadata.foldl typeStep ⟨[], [], [], false⟩).columnsObject) := rfl
  obtain ⟨h1, h2, h3, h4, h5⟩ := combine_inv metadata hproto
  generalize metadata.foldl typeStep ⟨[], [], [], false⟩ = c at hc h1 h2 h3 h4 h5
  have hentry : ∀ p ∈ c.columnsObject, ∃ ps, p.2 = Js.obj ps ∧
      ps.lookup "id" = some (Js.str p.1) ∧ ps.lookup "attributeName" = some (Js.str p.1) := by
    intro p hp
    have hl : c.columnsObject.lookup p.1 = some p.2 := lookup_eq_some_of_nodup h2 hp
    rw [h3] at hl
    exact definitions_entry metadata p (mem_of_lookup_eq_some hl)
  have hnames : ∀ name, name ∈ c.columnsObject.map Prod.fst
      ↔ name ∈ (definitions metadata).map Prod.fst := by
    intro name
    constructor
    · intro h
      have := lookup_isSome_of_mem_keys h
      rw [h3] at this
      exact mem_keys_of_lookup_isSome this
    · intro h
      have := lookup_isSome_of_mem_keys h
      rw [← h3] at this
      exact mem_keys_of_lookup_isSome this
  have hget : ∀ p ∈ c.columnsObject,
      p.2.get "id" = Js.str p.1 ∧ p.2.get "attributeName" = Js.str p.1 := by
    intro p hp
    obtain ⟨ps, e, i1, i2⟩ := hentry p hp
    rw [e]
    simp only [Js.get, i1, i2, Option.getD_some, and_self]
  have hids : (c.columnsArray.map fun e => e.get "id").Nodup := by
    have he : (c.columnsArray.map fun e => e.get "id")
        = (c.columnsObject.map Prod.fst).map Js.str := by
      rw [h1, List.map_map, List.map_map]
      exact List.map_congr_left (fun p hp => (hget p hp).1)
    rw [he]
    exact List.Nodup.map (fun a b h => Js.str.inj h) h2
  by_cases hcond : (c.typeAttribute &&
      !(((c.columnsObject.lookup "type").getD Js.undef).get "validValues").truthy) = true
  · rw [if_pos hcond] at hc
    have hkeys : (c.columnsObject.map fun p => (p.1, giveValidTypes c.validTypes p.2)).map
        Prod.fst = c.columnsObject.map Prod.fst := by
      rw [List.map_map]
      rfl
    refine ⟨_, _, hc, ?_, ?_, ?_, ?_, ?_, ?_, ?_⟩
    · rw [h1, List.map_map, List.map_map]
      rfl
    · rw [hkeys]
      exact h2
    · rw [List.map_map]
      have hf : ((fun e => e.get "id") ∘ giveValidTypes c.validTypes)
          = fun e : Js => e.get "id" :=
        funext fun e => giveValidTypes_get c.validTypes e "id" (by decide)
      rw [hf]
      exact hids
    · intro name
      rw [hkeys]
      exact hnames name
    · intro p hp
      obtain ⟨q, hq, rfl⟩ := List.mem_map.1 hp
      simp only
      rw [giveValidTypes_get _ _ _ (by decide), giveValidTypes_get _ _ _ (by decide)]
      exact hget q hq
    · intro name hne
      rw [lookup_map_snd, h3]
      cases hl : (definitions metadata).lookup name with
      | none => rfl
      | some e =>
        obtain ⟨ps, e1, i1, _⟩ := definitions_entry metadata (name, e) (mem_of_lookup_eq_some hl)
        simp only at e1 i1
        rw [e1, Option.map_some', giveValidTypes_other _ _ name i1 hne]
    · intro d hd
      have hco : c.columnsObject.lookup "type" = some d := by rw [h3]; exact hd
      refine ⟨fun _ _ => ?_, fun hn => ?_⟩
      · obtain ⟨ps, e1, i1, _⟩ := definitions_entry metadata ("type", d)
          (mem_of_lookup_eq_some hd)
        simp only at e1 i1
        refine ⟨ps, e1, ?_⟩
        rw [lookup_map_snd, hco, Option.map_some', e1, giveValidTypes_type _ _ i1, h5]
      · exfalso
        apply hn
        rw [h4, hd, hco] at hcond
        simpa using hcond
  · rw [if_neg hcond] at hc
    refine ⟨_, _, hc, h1, h2, hids, hnames, hget, fun name _ => h3 name, ?_⟩
    intro d hd
    have hco : c.columnsObject.lookup "type" = some d := by rw [h3]; exact hd
    refine ⟨fun ha hv => ?_, fun _ => hco⟩
    exfalso
    apply hcond
    rw [h4, hd, hco]
    simp [ha, hv]

theorem combine_entries_witness :
    (∀ p ∈ definitions typedMetadata, p.1 ∉ objectPrototypeKeys) ∧
    (definitions typedMetadata).map Prod.fst
      = ["name", "type", "bytesIn", "type", "priorities", "bytesIn"] ∧
    (combineTypeAttributesAndStatistics typedMetadata).2.map Prod.fst
      = ["name", "type", "bytesIn", "priorities"] ∧
    ((combineTypeAttributesAndStatistics typedMetadata).2.lookup "type").map
        (fun e => e.get "validValues")
      = some (Js.arr [Js.str "standard", Js.str "priority"]) ∧
    ∃ asArray asObject, combineTypeAttributesAndStatistics typedMetadata = (asArray, asObject) ∧
      asArray = asObject.map Prod.snd ∧ (asObject.map Prod.fst).Nodup :=
  have hp : ∀ p ∈ definitions typedMetadata, p.1 ∉ objectPrototypeKeys := fun p h => by
    have hm : p.1 ∈ (definitions typedMetadata).map Prod.fst := List.mem_map.2 ⟨p, h, rfl⟩
    have hn : (definitions typedMetadata).map Prod.fst
        = ["name", "type", "bytesIn", "type", "priorities", "bytesIn"] := rfl
    rw [hn] at hm
    revert hm
    generalize p.1 = n
    intro hm
    simp only [List.mem_cons, List.mem_singleton, List.not_mem_nil, or_false] at hm
    rcases hm with rfl | rfl | rfl | rfl | rfl | rfl <;> decide
  ⟨hp, rfl, rfl, rfl,
    (combine_entries typedMetadata hp).elim fun asArray h =>
      h.elim fun asObject h => ⟨asArray, asObject, h.1, h.2.1, h.2.2.1⟩⟩

/-! ### A widget without preference; a node without virtual host -/

/-- C24: a widget created without preference keeps `preference` at `null`,
and `_postCreate` gives it the category "Queue", 100 rows per page and the
first page; `_queryChanged` then fails with a TypeError on the assignment
`pref.value = queryParameters` and emits no `change` event, in that state and
for every widget whose preference is `null`. -/
theorem queryChanged_null_preference :
    (postCreate sampleEnv (sampleWidget Js.null)).1 = Except.ok () ∧
    (postCreate sampleEnv (sampleWidget Js.null)).2.preference = Js.null ∧
    (postCreate sampleEnv (sampleWidget Js.null)).2.categoryName = Js.str "Queue" ∧
    (postCreate sampleEnv (sampleWidget Js.null)).2.resultsGrid.rowsPerPage = Js.num 100 ∧
    (postCreate sampleEnv (sampleWidget Js.null)).2.resultsGrid.currentPage = Page.first ∧
    (queryChanged sampleEnv Js.undef (postCreate sampleEnv (sampleWidget Js.null)).2).1
      = Except.error "TypeError" ∧
    (queryChanged sampleEnv Js.undef (postCreate sampleEnv (sampleWidget Js.null)).2).2.emitted
      = [] ∧
    ∀ (env : Env) (query : Js) (w : Widget),
      queryChanged env query { w with preference := Js.null }
        = (Except.error "TypeError", { w with preference := Js.null }) :=
  ⟨rfl, rfl, rfl, rfl, rfl, rfl, rfl, fun _ _ _ => rfl⟩

/-- C25: on effective values whose list of nodes holds a node with an empty
list `virtualhosts`, the guard `if (nodes[i].virtualhosts)` lets the node
through, the read `virtualhosts[0].name` raises a TypeError, and `_show`
fails before the store of host choices is set. -/
theorem show_empty_virtualhosts_fails :
    hostStep [] (Js.obj [("name", Js.str "node2"), ("virtualhosts", Js.arr [])])
      = Except.error "TypeError" ∧
    hostChoices emptyHostsBroker = Except.error "TypeError" ∧
    sampleEditor.show actualBroker emptyHostsBroker = Except.error "TypeError" :=
  ⟨rfl, rfl, rfl⟩

end Qpid
